import Mathlib

/-!
Verification of the TSCP chess engine (Rust port).

This file gives a shallow embedding, in Lean, of the core of the engine:
the board state, move application and retraction, the move generators, the
static evaluator, repetition detection, and the negamax search driver.
Definitions are translated from the Rust sources in src/: board.rs, data.rs,
defs.rs, eval.rs and search.rs.

Modelling conventions:
- Machine integers: the Rust code uses i64 (type Int) and usize.  All values
  that are provably nonnegative in the source (colors, pieces, squares,
  castle bits, the fifty counter, ply counts, hashes) are modelled as Nat;
  the en-passant square keeps the -1 sentinel and is modelled as Int, and
  scores are Int.  The XOR that flips the side to move is Nat XOR, which
  agrees with i64 XOR on the values 0 and 1 that the side fields hold.
- Array indexing that can panic in Rust (history stack overflow, en-passant
  square arithmetic leaving the board, the invalid-castling-target branches
  that raise errors, a missing king in in_check) is modelled by returning
  none; a some result corresponds to a run of the Rust code that does not
  abort.
- The boards color and piece are total functions Nat -> Nat; the Rust
  fixed [i64; 64] arrays are their restrictions to indexes below 64.
  Writes become pointwise functional updates.
- The shared move buffer gen_dat together with first_move delimits, for the
  current ply, the slice of moves produced by gen; the model returns that
  slice directly as a list, in push order.
-/

set_option maxRecDepth 100000

namespace TSCP

/-- Side and piece constants from defs.rs. -/
def LIGHT : Nat := 0
def DARK : Nat := 1
def PAWN : Nat := 0
def KNIGHT : Nat := 1
def BISHOP : Nat := 2
def ROOK : Nat := 3
def QUEEN : Nat := 4
def KING : Nat := 5
def EMPTY : Nat := 6

def MAX_PLY : Nat := 32
def HIST_STACK : Nat := 400

/-- Useful squares, from defs.rs. -/
def A1 : Nat := 56
def B1 : Nat := 57
def C1 : Nat := 58
def D1 : Nat := 59
def E1 : Nat := 60
def F1 : Nat := 61
def G1 : Nat := 62
def H1 : Nat := 63
def A8 : Nat := 0
def B8 : Nat := 1
def C8 : Nat := 2
def D8 : Nat := 3
def E8 : Nat := 4
def F8 : Nat := 5
def G8 : Nat := 6
def H8 : Nat := 7

/-- row! from defs.rs: x >> 3. -/
def row (x : Nat) : Nat := x / 8

/-- col! from defs.rs: x & 7. -/
def col (x : Nat) : Nat := x % 8

/-- A move: from square, to square, promotion piece, flag bits
(1 capture, 2 castle, 4 en passant, 8 double pawn push, 16 pawn move,
32 promote).  The Rust union with an integer only serves fast equality,
which structural equality provides here. -/
structure MoveB where
  fromSq : Nat
  toSq : Nat
  promote : Nat
  bits : Nat
deriving DecidableEq, Repr

/-- An element of the move stack: a move plus an ordering score. -/
structure Gen where
  m : MoveB
  score : Int
deriving DecidableEq, Repr

/-- An element of the history stack, with the information necessary to take
a move back. -/
structure Hist where
  m : MoveB
  capture : Nat
  castle : Nat
  ep : Int
  fifty : Nat
  hash : Nat
deriving DecidableEq, Repr

/-- The engine state: the fields of the Data struct in data.rs that the
claims concern.  The move buffer gen_dat/first_move is modelled by the move
generators returning the per-ply list directly, and the wall clock
(start_time, stop_time, max_time) by an oracle argument to the search. -/
structure Data where
  color : Nat → Nat
  piece : Nat → Nat
  side : Nat
  xside : Nat
  castle : Nat
  ep : Int
  fifty : Nat
  hash : Nat
  ply : Nat
  hply : Nat
  histDat : Nat → Hist
  history : Nat → Nat → Int
  hashPiece : Nat → Nat → Nat → Nat
  hashSide : Nat
  hashEp : Nat → Nat
  pv : Nat → Nat → MoveB
  pvLength : Nat → Nat
  followPv : Bool
  nodes : Nat
  maxDepth : Int

/-- Pointwise functional update, modelling a single array store. -/
def updf {α : Type} (f : Nat → α) (i : Nat) (x : α) : Nat → α :=
  fun j => if j = i then x else f j

@[simp] theorem updf_same {α : Type} (f : Nat → α) (i : Nat) (x : α) :
    updf f i x i = x := by simp [updf]

theorem updf_other {α : Type} (f : Nat → α) (i j : Nat) (x : α) (h : j ≠ i) :
    updf f i x j = f j := by simp [updf, h]

/-- set_hash() from board.rs: the Zobrist hash of the current position. -/
def computeHash (d : Data) : Nat :=
  let h := (List.range 64).foldl
    (fun h i => if d.color i ≠ EMPTY then h ^^^ d.hashPiece (d.color i) (d.piece i) i else h) 0
  let h := if d.side = DARK then h ^^^ d.hashSide else h
  if d.ep ≠ -1 then h ^^^ d.hashEp d.ep.toNat else h

def set_hash (d : Data) : Data := { d with hash := computeHash d }

/-- SLIDE, OFFSETS, OFFSET, MAILBOX, MAILBOX64 from data.rs. -/
def SLIDE : List Bool := [false, false, true, true, true, false]

def OFFSETS : List Nat := [0, 8, 4, 4, 8, 8]

def OFFSET : List (List Int) :=
  [[0, 0, 0, 0, 0, 0, 0, 0],
   [-21, -19, -12, -8, 8, 12, 19, 21],
   [-11, -9, 9, 11, 0, 0, 0, 0],
   [-10, -1, 1, 10, 0, 0, 0, 0],
   [-11, -10, -9, -1, 1, 9, 10, 11],
   [-11, -10, -9, -1, 1, 9, 10, 11]]

def MAILBOX : List Int :=
  [-1, -1, -1, -1, -1, -1, -1, -1, -1, -1,
   -1, -1, -1, -1, -1, -1, -1, -1, -1, -1,
   -1,  0,  1,  2,  3,  4,  5,  6,  7, -1,
   -1,  8,  9, 10, 11, 12, 13, 14, 15, -1,
   -1, 16, 17, 18, 19, 20, 21, 22, 23, -1,
   -1, 24, 25, 26, 27, 28, 29, 30, 31, -1,
   -1, 32, 33, 34, 35, 36, 37, 38, 39, -1,
   -1, 40, 41, 42, 43, 44, 45, 46, 47, -1,
   -1, 48, 49, 50, 51, 52, 53, 54, 55, -1,
   -1, 56, 57, 58, 59, 60, 61, 62, 63, -1,
   -1, -1, -1, -1, -1, -1, -1, -1, -1, -1,
   -1, -1, -1, -1, -1, -1, -1, -1, -1, -1]

def MAILBOX64 : List Nat :=
  [21, 22, 23, 24, 25, 26, 27, 28,
   31, 32, 33, 34, 35, 36, 37, 38,
   41, 42, 43, 44, 45, 46, 47, 48,
   51, 52, 53, 54, 55, 56, 57, 58,
   61, 62, 63, 64, 65, 66, 67, 68,
   71, 72, 73, 74, 75, 76, 77, 78,
   81, 82, 83, 84, 85, 86, 87, 88,
   91, 92, 93, 94, 95, 96, 97, 98]

/-- CASTLE_MASK from data.rs. -/
def CASTLE_MASK : List Nat :=
  [ 7, 15, 15, 15,  3, 15, 15, 11,
   15, 15, 15, 15, 15, 15, 15, 15,
   15, 15, 15, 15, 15, 15, 15, 15,
   15, 15, 15, 15, 15, 15, 15, 15,
   15, 15, 15, 15, 15, 15, 15, 15,
   15, 15, 15, 15, 15, 15, 15, 15,
   15, 15, 15, 15, 15, 15, 15, 15,
   13, 15, 15, 15, 12, 15, 15, 14]

def INIT_COLOR : List Nat :=
  [1, 1, 1, 1, 1, 1, 1, 1,
   1, 1, 1, 1, 1, 1, 1, 1,
   6, 6, 6, 6, 6, 6, 6, 6,
   6, 6, 6, 6, 6, 6, 6, 6,
   6, 6, 6, 6, 6, 6, 6, 6,
   6, 6, 6, 6, 6, 6, 6, 6,
   0, 0, 0, 0, 0, 0, 0, 0,
   0, 0, 0, 0, 0, 0, 0, 0]

def INIT_PIECE : List Nat :=
  [3, 1, 2, 4, 5, 2, 1, 3,
   0, 0, 0, 0, 0, 0, 0, 0,
   6, 6, 6, 6, 6, 6, 6, 6,
   6, 6, 6, 6, 6, 6, 6, 6,
   6, 6, 6, 6, 6, 6, 6, 6,
   6, 6, 6, 6, 6, 6, 6, 6,
   0, 0, 0, 0, 0, 0, 0, 0,
   3, 1, 2, 4, 5, 2, 1, 3]

/-- One step-and-slide walk of the attack() loop in board.rs, for piece kind
p moving in direction off, starting from mailbox square n.  The fuel 8 of
the callers dominates the length of any ray on the 8-wide board, so the
walk always ends on a break of the source loop, never on fuel exhaustion. -/
def attackRay (d : Data) (sq : Nat) (p : Nat) (off : Int) : Nat → Nat → Bool
  | 0, _ => false
  | fuel + 1, n =>
    let n' := MAILBOX.getD ((MAILBOX64.getD n 0 : Int) + off).toNat (-1)
    if n' = -1 then false
    else if n'.toNat = sq then true
    else if d.color n'.toNat ≠ EMPTY then false
    else if SLIDE.getD p false then attackRay d sq p off fuel n'.toNat
    else false

/-- attack() from board.rs: true when square sq is attacked by side s.
The light-pawn branch reads i - 9 and i - 7; on boards where a light pawn
stands on the back rank the Rust usize subtraction would abort, while Nat
subtraction truncates; all theorems below only apply attack to boards
where pawns stay off the final ranks, where the two agree. -/
def attack (d : Data) (sq : Nat) (s : Nat) : Bool :=
  (List.range 64).any fun i =>
    if d.color i = s then
      if d.piece i = PAWN then
        if s = LIGHT then
          decide ((col i ≠ 0 ∧ i - 9 = sq) ∨ (col i ≠ 7 ∧ i - 7 = sq))
        else
          decide ((col i ≠ 0 ∧ i + 7 = sq) ∨ (col i ≠ 7 ∧ i + 9 = sq))
      else
        (List.range (OFFSETS.getD (d.piece i) 0)).any fun j =>
          attackRay d sq (d.piece i) ((OFFSET.getD (d.piece i) []).getD j 0) 8 i
    else false

/-- in_check() from board.rs.  none models the panic taken when side s has
no king on the board. -/
def in_check (d : Data) (s : Nat) : Option Bool :=
  match (List.range 64).find? (fun i => decide (d.piece i = KING ∧ d.color i = s)) with
  | some i => some (attack d i (s ^^^ 1))
  | none => none

/-- A board: the pair of the color and piece square arrays. -/
abbrev Board := (Nat → Nat) × (Nat → Nat)

/-- Move the piece on square f of a board to square t and clear f, the
four-store sequence shared by the rook relocation of a castle move. -/
def boardMove (b : Board) (f t : Nat) : Board :=
  (updf (updf b.1 t (b.1 f)) f EMPTY, updf (updf b.2 t (b.2 f)) f EMPTY)

/-- The castle block that restores the rook in takeback().  none models
the panic on an invalid castling target square in the history record. -/
def castleRestore (m : MoveB) (side : Nat) (b : Board) : Option Board :=
  if m.bits &&& 2 ≠ 0 then
    (if m.toSq = 62 then some (F1, H1)
     else if m.toSq = 58 then some (D1, A1)
     else if m.toSq = 6 then some (F8, H8)
     else if m.toSq = 2 then some (D8, A8)
     else (none : Option (Nat × Nat))).map fun (ft : Nat × Nat) =>
      (updf (updf b.1 ft.2 side) ft.1 EMPTY, updf (updf b.2 ft.2 ROOK) ft.1 EMPTY)
  else some b

/-- The en-passant block of takeback(): put the captured pawn back one rank
behind the destination.  none models the aborting square arithmetic when
the computed square leaves the board. -/
def epRestore (m : MoveB) (side xside : Nat) (b : Board) : Option Board :=
  if m.bits &&& 4 ≠ 0 then
    let psq : Int := if side = LIGHT then (m.toSq : Int) + 8 else (m.toSq : Int) - 8
    if psq < 0 ∨ 63 < psq then none
    else some (updf b.1 psq.toNat xside, updf b.2 psq.toNat PAWN)
  else some b

/-- takeback() from board.rs.  none models the panic on an invalid castling
target square recorded in the history, or an en-passant restore square off
the board.  When hply is 0 the Rust decrement would abort; callers only
invoke takeback with hply nonzero, which all theorems below respect. -/
def takeback (d : Data) : Option Data :=
  let hply := d.hply - 1
  let h := d.histDat hply
  let m := h.m
  let side := d.side ^^^ 1
  let xside := d.xside ^^^ 1
  let c2 := updf d.color m.fromSq side
  let p2 := updf d.piece m.fromSq (if m.bits &&& 32 ≠ 0 then PAWN else d.piece m.toSq)
  let b3 : Board :=
    if h.capture = EMPTY then (updf c2 m.toSq EMPTY, updf p2 m.toSq EMPTY)
    else (updf c2 m.toSq xside, updf p2 m.toSq h.capture)
  (castleRestore m side b3).bind fun b4 =>
    (epRestore m side xside b4).map fun b5 =>
      { d with
        color := b5.1, piece := b5.2, side := side, xside := xside,
        ply := d.ply - 1, hply := hply, castle := h.castle, ep := h.ep,
        fifty := h.fifty, hash := h.hash }

/-- The castling pre-step of makemove(): when the move carries the castle
bit, test legality (not in check, path squares empty and unattacked) and
relocate the rook.  The outer none models the panics (no king, or an
invalid castling target); some none is a failed pre-check, which makes the
whole move fail with no mutation; some (some b) is the board with the rook
moved. -/
def castlePre (d : Data) (m : MoveB) : Option (Option Board) :=
  if m.bits &&& 2 ≠ 0 then
    match in_check d d.side with
    | none => none
    | some true => some none
    | some false =>
      if m.toSq = 62 then
        if d.color F1 ≠ EMPTY ∨ d.color G1 ≠ EMPTY ∨
           attack d F1 d.xside ∨ attack d G1 d.xside then some none
        else some (some (boardMove (d.color, d.piece) H1 F1))
      else if m.toSq = 58 then
        if d.color B1 ≠ EMPTY ∨ d.color C1 ≠ EMPTY ∨ d.color D1 ≠ EMPTY ∨
           attack d C1 d.xside ∨ attack d D1 d.xside then some none
        else some (some (boardMove (d.color, d.piece) A1 D1))
      else if m.toSq = 6 then
        if d.color F8 ≠ EMPTY ∨ d.color G8 ≠ EMPTY ∨
           attack d F8 d.xside ∨ attack d G8 d.xside then some none
        else some (some (boardMove (d.color, d.piece) H8 F8))
      else if m.toSq = 2 then
        if d.color B8 ≠ EMPTY ∨ d.color C8 ≠ EMPTY ∨ d.color D8 ≠ EMPTY ∨
           attack d C8 d.xside ∨ attack d D8 d.xside then some none
        else some (some (boardMove (d.color, d.piece) A8 D8))
      else none
  else some (some (d.color, d.piece))

/-- The en-passant block of makemove(): erase the captured pawn one rank
behind the destination.  none models the aborting square arithmetic when
the computed square leaves the board. -/
def epClear (d : Data) (m : MoveB) (b : Board) : Option Board :=
  if m.bits &&& 4 ≠ 0 then
    let psq : Int := if d.side = LIGHT then (m.toSq : Int) + 8 else (m.toSq : Int) - 8
    if psq < 0 ∨ 63 < psq then none
    else some (updf b.1 psq.toNat EMPTY, updf b.2 psq.toNat EMPTY)
  else some b

/-- makemove() from board.rs.  Result none models a panic (invalid castling
target, history stack overflow, en-passant square off the board, missing
king); some (d, false) is an illegal move with the state already rolled
back; some (d, true) is a successfully applied move.  The sequential field
stores of the source between the history push and the side switch touch
pairwise distinct fields and are combined into one record update, each
right-hand side reading exactly the values the source statement reads. -/
def makemoveMid (d : Data) (m : MoveB) (b0 : Board) : Option Data :=
  let pieceTo := if m.bits &&& 32 ≠ 0 then m.promote else b0.2 m.fromSq
  let b1 : Board :=
    (updf (updf b0.1 m.toSq d.side) m.fromSq EMPTY,
     updf (updf b0.2 m.toSq pieceTo) m.fromSq EMPTY)
  (epClear d m b1).map fun b2 =>
    { d with
      color := b2.1, piece := b2.2,
      histDat := updf d.histDat d.hply
        (Hist.mk m (b0.2 m.toSq) d.castle d.ep d.fifty d.hash),
      ply := d.ply + 1, hply := d.hply + 1,
      castle := d.castle &&& (CASTLE_MASK.getD m.fromSq 15 &&& CASTLE_MASK.getD m.toSq 15),
      ep := if m.bits &&& 8 ≠ 0 then
              (if d.side = LIGHT then (m.toSq : Int) + 8 else (m.toSq : Int) - 8)
            else -1,
      fifty := if m.bits &&& 17 ≠ 0 then 0 else d.fifty + 1,
      side := d.side ^^^ 1, xside := d.xside ^^^ 1 }

def makemove (d : Data) (m : MoveB) : Option (Data × Bool) :=
  match castlePre d m with
  | none => none
  | some none => some (d, false)
  | some (some b0) =>
    if HIST_STACK ≤ d.hply then none
    else
      match makemoveMid d m b0 with
      | none => none
      | some d5 =>
        match in_check d5 d5.xside with
        | none => none
        | some true => (takeback d5).map fun d6 => (d6, false)
        | some false => some (set_hash d5, true)

/-- init_board() from board.rs, over an arbitrary base state (the base
carries the hash tables produced by init_hash, which the model leaves
arbitrary). -/
def init_board (d : Data) : Data :=
  set_hash
    { d with
      color := fun i => INIT_COLOR.getD i EMPTY,
      piece := fun i => INIT_PIECE.getD i EMPTY,
      side := LIGHT, xside := DARK, castle := 15, ep := -1,
      fifty := 0, ply := 0, hply := 0 }

/-- A concrete base state: empty board, zero hash tables. -/
def baseData : Data where
  color := fun _ => EMPTY
  piece := fun _ => EMPTY
  side := LIGHT
  xside := DARK
  castle := 0
  ep := -1
  fifty := 0
  hash := 0
  ply := 0
  hply := 0
  histDat := fun _ => ⟨⟨0, 0, 0, 0⟩, 0, 0, 0, 0, 0⟩
  history := fun _ _ => 0
  hashPiece := fun _ _ _ => 0
  hashSide := 0
  hashEp := fun _ => 0
  pv := fun _ _ => ⟨0, 0, 0, 0⟩
  pvLength := fun _ => 0
  followPv := false
  nodes := 0
  maxDepth := 0

/-- The standard starting position. -/
def initData : Data := init_board baseData

/-- gen_promote() from board.rs: four promotion entries, knight to queen,
each scored 1000000 + piece * 10. -/
def gen_promote (d : Data) (f t : Nat) (bits : Nat) : List Gen :=
  [KNIGHT, BISHOP, ROOK, QUEEN].map fun i =>
    ⟨⟨f, t, i, bits ||| 32⟩, 1000000 + (i : Int) * 10⟩

/-- gen_push() from board.rs, as the list of entries appended to the move
stack: a pawn move into the final rank expands into the four promotions,
and otherwise a single entry is pushed, scored by MVV/LVA when the target
square is occupied and by the history table otherwise. -/
def gen_push (d : Data) (f t : Nat) (bits : Nat) : List Gen :=
  if bits &&& 16 ≠ 0 ∧ (if d.side = LIGHT then t ≤ H8 else A1 ≤ t) then
    gen_promote d f t bits
  else
    [⟨⟨f, t, 0, bits⟩,
      if d.color t ≠ EMPTY then 1000000 + (d.piece t : Int) * 10 - (d.piece f : Int)
      else d.history f t⟩]

/-- One direction of the non-pawn generation loop of gen() in board.rs:
walk the mailbox ray, pushing a capture and stopping on any occupied
square, pushing a quiet move and continuing on empty squares while the
piece slides.  Fuel 8 dominates every ray of the 8-wide board. -/
def genRay (d : Data) (i p : Nat) (off : Int) : Nat → Nat → List Gen
  | 0, _ => []
  | fuel + 1, n =>
    let n' := MAILBOX.getD ((MAILBOX64.getD n 0 : Int) + off).toNat (-1)
    if n' = -1 then []
    else if d.color n'.toNat ≠ EMPTY then
      (if d.color n'.toNat = d.xside then gen_push d i n'.toNat 1 else [])
    else
      gen_push d i n'.toNat 0 ++
        (if SLIDE.getD p false then genRay d i p off fuel n'.toNat else [])

/-- The light-pawn block of gen().  The reads at i - 9, i - 7, i - 8 use
Nat subtraction; the Rust usize subtraction would abort for a light pawn
on the top rank, a board no theorem below supplies. -/
def genPawnLight (d : Data) (i : Nat) : List Gen :=
  (if col i ≠ 0 ∧ d.color (i - 9) = DARK then gen_push d i (i - 9) 17 else []) ++
  (if col i ≠ 7 ∧ d.color (i - 7) = DARK then gen_push d i (i - 7) 17 else []) ++
  (if d.color (i - 8) = EMPTY then
    gen_push d i (i - 8) 16 ++
      (if 48 ≤ i ∧ d.color (i - 16) = EMPTY then gen_push d i (i - 16) 24 else [])
   else [])

/-- The dark-pawn block of gen(). -/
def genPawnDark (d : Data) (i : Nat) : List Gen :=
  (if col i ≠ 0 ∧ d.color (i + 7) = LIGHT then gen_push d i (i + 7) 17 else []) ++
  (if col i ≠ 7 ∧ d.color (i + 9) = LIGHT then gen_push d i (i + 9) 17 else []) ++
  (if d.color (i + 8) = EMPTY then
    gen_push d i (i + 8) 16 ++
      (if i ≤ 15 ∧ d.color (i + 16) = EMPTY then gen_push d i (i + 16) 24 else [])
   else [])

/-- The non-pawn block of gen(): all mailbox directions of the piece. -/
def genPieceMoves (d : Data) (i : Nat) : List Gen :=
  (List.range (OFFSETS.getD (d.piece i) 0)).flatMap fun j =>
    genRay d i (d.piece i) ((OFFSET.getD (d.piece i) []).getD j 0) 8 i

/-- The castle block of gen(): candidate moves pushed whenever the rights
bit is set, with no occupancy or attack test at generation time. -/
def genCastle (d : Data) : List Gen :=
  if d.side = LIGHT then
    (if d.castle &&& 1 ≠ 0 then gen_push d E1 G1 2 else []) ++
    (if d.castle &&& 2 ≠ 0 then gen_push d E1 C1 2 else [])
  else
    (if d.castle &&& 4 ≠ 0 then gen_push d E8 G8 2 else []) ++
    (if d.castle &&& 8 ≠ 0 then gen_push d E8 C8 2 else [])

/-- The en-passant block of gen(). -/
def genEp (d : Data) : List Gen :=
  if d.ep ≠ -1 then
    let e := d.ep.toNat
    if d.side = LIGHT then
      (if col e ≠ 0 ∧ d.color (e + 7) = LIGHT ∧ d.piece (e + 7) = PAWN then
        gen_push d (e + 7) e 21 else []) ++
      (if col e ≠ 7 ∧ d.color (e + 9) = LIGHT ∧ d.piece (e + 9) = PAWN then
        gen_push d (e + 9) e 21 else [])
    else
      (if col e ≠ 0 ∧ d.color (e - 9) = DARK ∧ d.piece (e - 9) = PAWN then
        gen_push d (e - 9) e 21 else []) ++
      (if col e ≠ 7 ∧ d.color (e - 7) = DARK ∧ d.piece (e - 7) = PAWN then
        gen_push d (e - 7) e 21 else [])
  else []

/-- gen() from board.rs: the pseudo-legal move list the call appends for
the current ply, in push order. -/
def gen (d : Data) : List Gen :=
  ((List.range 64).flatMap fun i =>
    if d.color i = d.side then
      if d.piece i = PAWN then
        (if d.side = LIGHT then genPawnLight d i else genPawnDark d i)
      else genPieceMoves d i
    else []) ++ genCastle d ++ genEp d

/-- One direction of the non-pawn loop of gen_caps(): like genRay but quiet
moves are not pushed. -/
def genCapsRay (d : Data) (i p : Nat) (off : Int) : Nat → Nat → List Gen
  | 0, _ => []
  | fuel + 1, n =>
    let n' := MAILBOX.getD ((MAILBOX64.getD n 0 : Int) + off).toNat (-1)
    if n' = -1 then []
    else if d.color n'.toNat ≠ EMPTY then
      (if d.color n'.toNat = d.xside then gen_push d i n'.toNat 1 else [])
    else if SLIDE.getD p false then genCapsRay d i p off fuel n'.toNat
    else []

/-- The pawn block of gen_caps(): captures, plus the quiet push of a pawn
standing one step from promotion. -/
def genCapsPawn (d : Data) (i : Nat) : List Gen :=
  (if d.side = LIGHT then
    (if col i ≠ 0 ∧ d.color (i - 9) = DARK then gen_push d i (i - 9) 17 else []) ++
    (if col i ≠ 7 ∧ d.color (i - 7) = DARK then gen_push d i (i - 7) 17 else []) ++
    (if i ≤ 15 ∧ d.color (i - 8) = EMPTY then gen_push d i (i - 8) 16 else [])
   else []) ++
  (if d.side = DARK then
    (if col i ≠ 0 ∧ d.color (i + 7) = LIGHT then gen_push d i (i + 7) 17 else []) ++
    (if col i ≠ 7 ∧ d.color (i + 9) = LIGHT then gen_push d i (i + 9) 17 else []) ++
    (if 48 ≤ i ∧ d.color (i + 8) = EMPTY then gen_push d i (i + 8) 16 else [])
   else [])

/-- gen_caps() from board.rs: capture and promotion moves only. -/
def gen_caps (d : Data) : List Gen :=
  ((List.range 64).flatMap fun i =>
    if d.color i = d.side then
      if d.piece i = PAWN then genCapsPawn d i
      else
        (List.range (OFFSETS.getD (d.piece i) 0)).flatMap fun j =>
          genCapsRay d i (d.piece i) ((OFFSET.getD (d.piece i) []).getD j 0) 8 i
    else []) ++ genEp d

/-- Positions reachable from the initial board through successfully applied
generated moves: legal play. -/
inductive Reachable : Data → Prop where
  | init (d : Data) : Reachable (init_board d)
  | step {d : Data} {g : Gen} {d' : Data} : Reachable d → g ∈ gen d →
      makemove d g.m = some (d', true) → Reachable d'

/-- States reachable from the initial board by any sequence of successful
makemove calls (with arbitrary move arguments) and stack-disciplined
takeback calls, the reachability notion of the underflow claim. -/
inductive ReachableU : Data → Prop where
  | init (d : Data) : ReachableU (init_board d)
  | step {d : Data} {m : MoveB} {d' : Data} : ReachableU d →
      makemove d m = some (d', true) → ReachableU d'
  | undo {d : Data} {d' : Data} : ReachableU d → d.hply ≠ 0 →
      takeback d = some d' → ReachableU d'

/-- reps() from search.rs: count the history entries in the window
[hply - fifty, hply) whose stored hash equals the current hash.  none
models the abort of the unsigned subtraction hply - fifty when
fifty > hply. -/
def reps (d : Data) : Option Nat :=
  if d.fifty ≤ d.hply then
    some ((List.range' (d.hply - d.fifty) d.fifty).foldl
      (fun r i => if (d.histDat i).hash = d.hash then r + 1 else r) 0)
  else none

/-- Evaluation constants and piece-square tables from eval.rs. -/
def DOUBLED_PAWN_PENALTY : Int := 10
def ISOLATED_PAWN_PENALTY : Int := 20
def BACKWARDS_PAWN_PENALTY : Int := 8
def PASSED_PAWN_BONUS : Int := 20
def ROOK_SEMI_OPEN_FILE_BONUS : Int := 10
def ROOK_OPEN_FILE_BONUS : Int := 15
def ROOK_ON_SEVENTH_BONUS : Int := 20

def PIECE_VALUE : List Int := [100, 300, 300, 500, 900, 0]

def PAWN_PCSQ : List Int :=
  [0,   0,   0,   0,   0,   0,   0,   0,
   5,  10,  15,  20,  20,  15,  10,   5,
   4,   8,  12,  16,  16,  12,   8,   4,
   3,   6,   9,  12,  12,   9,   6,   3,
   2,   4,   6,   8,   8,   6,   4,   2,
   1,   2,   3, -10, -10,   3,   2,   1,
   0,   0,   0, -40, -40,   0,   0,   0,
   0,   0,   0,   0,   0,   0,   0,   0]

def KNIGHT_PCSQ : List Int :=
  [-10, -10, -10, -10, -10, -10, -10, -10,
   -10,   0,   0,   0,   0,   0,   0, -10,
   -10,   0,   5,   5,   5,   5,   0, -10,
   -10,   0,   5,  10,  10,   5,   0, -10,
   -10,   0,   5,  10,  10,   5,   0, -10,
   -10,   0,   5,   5,   5,   5,   0, -10,
   -10,   0,   0,   0,   0,   0,   0, -10,
   -10, -30, -10, -10, -10, -10, -30, -10]

def BISHOP_PCSQ : List Int :=
  [-10, -10, -10, -10, -10, -10, -10, -10,
   -10,   0,   0,   0,   0,   0,   0, -10,
   -10,   0,   5,   5,   5,   5,   0, -10,
   -10,   0,   5,  10,  10,   5,   0, -10,
   -10,   0,   5,  10,  10,   5,   0, -10,
   -10,   0,   5,   5,   5,   5,   0, -10,
   -10,   0,   0,   0,   0,   0,   0, -10,
   -10, -10, -20, -10, -10, -20, -10, -10]

def KING_PCSQ : List Int :=
  [-40, -40, -40, -40, -40, -40, -40, -40,
   -40, -40, -40, -40, -40, -40, -40, -40,
   -40, -40, -40, -40, -40, -40, -40, -40,
   -40, -40, -40, -40, -40, -40, -40, -40,
   -40, -40, -40, -40, -40, -40, -40, -40,
   -40, -40, -40, -40, -40, -40, -40, -40,
   -20, -20, -20, -20, -20, -20, -20, -20,
     0,  20,  40, -20,   0, -20,  40,  20]

def KING_ENDGAME_PCSQ : List Int :=
  [ 0,  10,  20,  30,  30,  20,  10,   0,
   10,  20,  30,  40,  40,  30,  20,  10,
   20,  30,  40,  50,  50,  40,  30,  20,
   30,  40,  50,  60,  60,  50,  40,  30,
   30,  40,  50,  60,  60,  50,  40,  30,
   20,  30,  40,  50,  50,  40,  30,  20,
   10,  20,  30,  40,  40,  30,  20,  10,
    0,  10,  20,  30,  30,  20,  10,   0]

def FLIP : List Nat :=
  [56,  57,  58,  59,  60,  61,  62,  63,
   48,  49,  50,  51,  52,  53,  54,  55,
   40,  41,  42,  43,  44,  45,  46,  47,
   32,  33,  34,  35,  36,  37,  38,  39,
   24,  25,  26,  27,  28,  29,  30,  31,
   16,  17,  18,  19,  20,  21,  22,  23,
    8,   9,  10,  11,  12,  13,  14,  15,
    0,   1,   2,   3,   4,   5,   6,   7]

/-- The accumulators of the first pass of eval(): the PAWN_RANK tables (ten
files each, one buffer file on each edge) and the piece and pawn material
of each side. -/
structure Pass1 where
  pawnRankL : List Int
  pawnRankD : List Int
  pieceMatL : Int
  pieceMatD : Int
  pawnMatL : Int
  pawnMatD : Int
deriving Repr

/-- The first pass of eval() over the boards c (color) and p (piece): set up
PAWN_RANK, PIECE_MAT and PAWN_MAT.  The source indexes the per-side arrays
by the color value, which aborts on a corrupted color; the model routes
every non-LIGHT color to the DARK accumulators, which agrees on boards
whose colors are LIGHT, DARK or EMPTY. -/
def pass1 (c p : Nat → Nat) : Pass1 :=
  (List.range 64).foldl
    (fun s i =>
      if c i = EMPTY then s
      else if p i = PAWN then
        let f := col i + 1
        if c i = LIGHT then
          { s with
            pawnMatL := s.pawnMatL + PIECE_VALUE.getD PAWN 0,
            pawnRankL := if s.pawnRankL.getD f 0 < (row i : Int) then
                           s.pawnRankL.set f (row i) else s.pawnRankL }
        else
          { s with
            pawnMatD := s.pawnMatD + PIECE_VALUE.getD PAWN 0,
            pawnRankD := if (row i : Int) < s.pawnRankD.getD f 0 then
                           s.pawnRankD.set f (row i) else s.pawnRankD }
      else
        if c i = LIGHT then
          { s with pieceMatL := s.pieceMatL + PIECE_VALUE.getD (p i) 0 }
        else
          { s with pieceMatD := s.pieceMatD + PIECE_VALUE.getD (p i) 0 })
    (Pass1.mk (List.replicate 10 0) (List.replicate 10 7) 0 0 0 0)

/-- eval_light_pawn() from eval.rs. -/
def eval_light_pawn (s : Pass1) (sq : Nat) : Int :=
  let f := col sq + 1
  let r0 : Int := PAWN_PCSQ.getD sq 0
  let r1 := if (row sq : Int) < s.pawnRankL.getD f 0 then r0 - DOUBLED_PAWN_PENALTY else r0
  let r2 :=
    if s.pawnRankL.getD (f - 1) 0 = 0 ∧ s.pawnRankL.getD (f + 1) 0 = 0 then
      r1 - ISOLATED_PAWN_PENALTY
    else if s.pawnRankL.getD (f - 1) 0 < (row sq : Int) ∧
            s.pawnRankL.getD (f + 1) 0 < (row sq : Int) then
      r1 - BACKWARDS_PAWN_PENALTY
    else r1
  if (row sq : Int) ≤ s.pawnRankD.getD (f - 1) 0 ∧
     (row sq : Int) ≤ s.pawnRankD.getD f 0 ∧
     (row sq : Int) ≤ s.pawnRankD.getD (f + 1) 0 then
    r2 + (7 - (row sq : Int)) * PASSED_PAWN_BONUS
  else r2

/-- eval_dark_pawn() from eval.rs.  The passed-pawn test keeps the strict
comparison of the source on the upper adjacent file. -/
def eval_dark_pawn (s : Pass1) (sq : Nat) : Int :=
  let f := col sq + 1
  let r0 : Int := PAWN_PCSQ.getD (FLIP.getD sq 0) 0
  let r1 := if s.pawnRankD.getD f 0 < (row sq : Int) then r0 - DOUBLED_PAWN_PENALTY else r0
  let r2 :=
    if s.pawnRankD.getD (f - 1) 0 = 7 ∧ s.pawnRankD.getD (f + 1) 0 = 7 then
      r1 - ISOLATED_PAWN_PENALTY
    else if (row sq : Int) < s.pawnRankD.getD (f - 1) 0 ∧
            (row sq : Int) < s.pawnRankD.getD (f + 1) 0 then
      r1 - BACKWARDS_PAWN_PENALTY
    else r1
  if s.pawnRankL.getD (f - 1) 0 ≤ (row sq : Int) ∧
     s.pawnRankL.getD f 0 ≤ (row sq : Int) ∧
     s.pawnRankL.getD (f + 1) 0 < (row sq : Int) then
    r2 + (row sq : Int) * PASSED_PAWN_BONUS
  else r2

/-- eval_lkp() from eval.rs: the light king pawn assessment on file f. -/
def eval_lkp (s : Pass1) (f : Nat) : Int :=
  let rl := s.pawnRankL.getD f 0
  let r1 : Int :=
    if rl = 6 then 0
    else if rl = 5 then -10
    else if rl ≠ 0 then -20
    else -25
  let rd := s.pawnRankD.getD f 0
  if rd = 7 then r1 - 15
  else if rd = 5 then r1 - 10
  else if rd = 4 then r1 - 5
  else r1

/-- eval_dkp() from eval.rs. -/
def eval_dkp (s : Pass1) (f : Nat) : Int :=
  let rd := s.pawnRankD.getD f 0
  let r1 : Int :=
    if rd = 1 then 0
    else if rd = 2 then -10
    else if rd ≠ 7 then -20
    else -25
  let rl := s.pawnRankL.getD f 0
  if rl = 0 then r1 - 15
  else if rl = 2 then r1 - 10
  else if rl = 3 then r1 - 5
  else r1

/-- eval_light_king() from eval.rs.  Division is the truncating i64
division of Rust, Int.tdiv. -/
def eval_light_king (s : Pass1) (sq : Nat) : Int :=
  let r0 : Int := KING_PCSQ.getD sq 0
  let c := col sq
  let r1 :=
    if c < 3 then r0 + eval_lkp s 1 + eval_lkp s 2 + Int.tdiv (eval_lkp s 3) 2
    else if 4 < c then r0 + eval_lkp s 8 + eval_lkp s 7 + Int.tdiv (eval_lkp s 6) 2
    else
      [c, c + 1, c + 2].foldl
        (fun r i => if s.pawnRankL.getD i 0 = 0 ∧ s.pawnRankD.getD i 0 = 7 then r - 10 else r)
        r0
  Int.tdiv (r1 * s.pieceMatD) 3100

/-- eval_dark_king() from eval.rs. -/
def eval_dark_king (s : Pass1) (sq : Nat) : Int :=
  let r0 : Int := KING_PCSQ.getD (FLIP.getD sq 0) 0
  let c := col sq
  let r1 :=
    if c < 3 then r0 + eval_dkp s 1 + eval_dkp s 2 + Int.tdiv (eval_dkp s 3) 2
    else if 4 < c then r0 + eval_dkp s 8 + eval_dkp s 7 + Int.tdiv (eval_dkp s 6) 2
    else
      [c, c + 1, c + 2].foldl
        (fun r i => if s.pawnRankL.getD i 0 = 0 ∧ s.pawnRankD.getD i 0 = 7 then r - 10 else r)
        r0
  Int.tdiv (r1 * s.pieceMatL) 3100

/-- The second pass of eval() over the boards c and p: the per-side score
totals, starting from material and accumulating the per-piece terms.  The
light rook open-file and semi-open-file branches ASSIGN the bonus to the
light total (score[LIGHT] = ...), as eval.rs lines 168 and 170 do, and the
dark rook has no semi-open-file branch, as at eval.rs lines 197 to 202;
both faithfully reproduce the source. -/
def evalScores (c p : Nat → Nat) : Int × Int :=
  let s := pass1 c p
  (List.range 64).foldl
    (fun sc i =>
      if c i = EMPTY then sc
      else if c i = LIGHT then
        if p i = PAWN then (sc.1 + eval_light_pawn s i, sc.2)
        else if p i = KNIGHT then (sc.1 + KNIGHT_PCSQ.getD i 0, sc.2)
        else if p i = BISHOP then (sc.1 + BISHOP_PCSQ.getD i 0, sc.2)
        else if p i = ROOK then
          let sc1 :=
            if s.pawnRankL.getD (col i + 1) 0 = 0 then
              if s.pawnRankD.getD (col i + 1) 0 = 7 then (ROOK_OPEN_FILE_BONUS, sc.2)
              else (ROOK_SEMI_OPEN_FILE_BONUS, sc.2)
            else sc
          if row i = 1 then (sc1.1 + ROOK_ON_SEVENTH_BONUS, sc1.2) else sc1
        else if p i = KING then
          if s.pieceMatD ≤ 1200 then (sc.1 + KING_ENDGAME_PCSQ.getD i 0, sc.2)
          else (sc.1 + eval_light_king s i, sc.2)
        else sc
      else
        if p i = PAWN then (sc.1, sc.2 + eval_dark_pawn s i)
        else if p i = KNIGHT then (sc.1, sc.2 + KNIGHT_PCSQ.getD (FLIP.getD i 0) 0)
        else if p i = BISHOP then (sc.1, sc.2 + BISHOP_PCSQ.getD (FLIP.getD i 0) 0)
        else if p i = ROOK then
          let sc1 :=
            if s.pawnRankD.getD (col i + 1) 0 = 7 then
              if s.pawnRankL.getD (col i + 1) 0 = 0 then (sc.1, sc.2 + ROOK_OPEN_FILE_BONUS)
              else sc
            else sc
          if row i = 6 then (sc1.1, sc1.2 + ROOK_ON_SEVENTH_BONUS) else sc1
        else if p i = KING then
          if s.pieceMatL ≤ 1200 then (sc.1, sc.2 + KING_ENDGAME_PCSQ.getD (FLIP.getD i 0) 0)
          else (sc.1, sc.2 + eval_dark_king s i)
        else sc)
    (s.pieceMatL + s.pawnMatL, s.pieceMatD + s.pawnMatD)

/-- eval() from eval.rs: the score of the position relative to the side to
move. -/
def eval (d : Data) : Int :=
  let sc := evalScores d.color d.piece
  if d.side = LIGHT then sc.1 - sc.2 else sc.2 - sc.1

/-- An endgame-like position: light rook a1, light queen d1, light king e1
against a lone dark king e8.  The a-file is open: no pawn of either side. -/
def rookOpenA : Data :=
  { baseData with
    color := fun i => if i = 56 then LIGHT else if i = 59 then LIGHT else if i = 60 then LIGHT
                      else if i = 4 then DARK else EMPTY,
    piece := fun i => if i = 56 then ROOK else if i = 59 then QUEEN else if i = 60 then KING
                      else if i = 4 then KING else EMPTY }

/-- rookOpenA without the light rook. -/
def rookOpenB : Data :=
  { baseData with
    color := fun i => if i = 59 then LIGHT else if i = 60 then LIGHT
                      else if i = 4 then DARK else EMPTY,
    piece := fun i => if i = 59 then QUEEN else if i = 60 then KING
                      else if i = 4 then KING else EMPTY }

/-- A position whose a-file is semi-open for the dark rook on a8: no dark
pawn on the file, but a light pawn on a2. -/
def darkSemi : Data :=
  { baseData with
    color := fun i => if i = 0 then DARK else if i = 4 then DARK
                      else if i = 48 then LIGHT else if i = 60 then LIGHT else EMPTY,
    piece := fun i => if i = 0 then ROOK else if i = 4 then KING
                      else if i = 48 then PAWN else if i = 60 then KING else EMPTY }

/-- The inductive invariant behind the underflow claim: the halfmove clock
never exceeds the history length, and every pushed history record stores a
clock bounded by its own index. -/
def ClockInv (d : Data) : Prop :=
  d.fifty ≤ d.hply ∧ ∀ i, i < d.hply → (d.histDat i).fifty ≤ i

/-- A crafted position for the C2 counterexample: a light rook on e4
shields the light king on e1 from a dark rook on e8; the dark king stands
on a8. -/
def pinData : Data :=
  { baseData with
    color := fun i => if i = 36 then LIGHT else if i = 60 then LIGHT
                      else if i = 4 then DARK else if i = 0 then DARK else EMPTY,
    piece := fun i => if i = 36 then ROOK else if i = 60 then KING
                      else if i = 4 then ROOK else if i = 0 then KING else EMPTY }


/-- The guard facts available at each gen_push call site of gen(), recorded
per pushed move: one disjunct per family of call sites. -/
def GoodSite (d : Data) (f t bits : Nat) : Prop :=
  (d.side = LIGHT ∧ d.color f = d.side ∧ d.piece f = PAWN ∧ f < 64 ∧
    ((bits = 17 ∧ d.color t = DARK ∧ ((col f ≠ 0 ∧ t = f - 9) ∨ (col f ≠ 7 ∧ t = f - 7))) ∨
     (bits = 16 ∧ t = f - 8 ∧ d.color t = EMPTY) ∨
     (bits = 24 ∧ t = f - 16 ∧ 48 ≤ f ∧ d.color (f - 8) = EMPTY ∧ d.color t = EMPTY))) ∨
  (d.side ≠ LIGHT ∧ d.color f = d.side ∧ d.piece f = PAWN ∧ f < 64 ∧
    ((bits = 17 ∧ d.color t = LIGHT ∧ ((col f ≠ 0 ∧ t = f + 7) ∨ (col f ≠ 7 ∧ t = f + 9))) ∨
     (bits = 16 ∧ t = f + 8 ∧ d.color t = EMPTY) ∨
     (bits = 24 ∧ t = f + 16 ∧ f ≤ 15 ∧ d.color (f + 8) = EMPTY ∧ d.color t = EMPTY))) ∨
  (d.color f = d.side ∧ d.piece f ≠ PAWN ∧ f < 64 ∧ t < 64 ∧
    ((bits = 1 ∧ d.color t ≠ EMPTY ∧ d.color t = d.xside) ∨ (bits = 0 ∧ d.color t = EMPTY))) ∨
  (bits = 2 ∧
    ((d.side = LIGHT ∧ f = E1 ∧ ((t = G1 ∧ d.castle &&& 1 ≠ 0) ∨ (t = C1 ∧ d.castle &&& 2 ≠ 0))) ∨
     (d.side ≠ LIGHT ∧ f = E8 ∧ ((t = G8 ∧ d.castle &&& 4 ≠ 0) ∨ (t = C8 ∧ d.castle &&& 8 ≠ 0))))) ∨
  (bits = 21 ∧ d.ep ≠ -1 ∧ t = d.ep.toNat ∧
    ((d.side = LIGHT ∧ d.color f = LIGHT ∧ d.piece f = PAWN ∧
       ((col t ≠ 0 ∧ f = t + 7) ∨ (col t ≠ 7 ∧ f = t + 9))) ∨
     (d.side ≠ LIGHT ∧ d.color f = DARK ∧ d.piece f = PAWN ∧
       ((col t ≠ 0 ∧ f = t - 9) ∨ (col t ≠ 7 ∧ f = t - 7)))))

/-- A position with an en-passant capture available: dark just pushed the
d-pawn two squares past the light pawn on e5; the en-passant square is d6
(index 19). -/
def epData : Data :=
  { baseData with
    color := fun i => if i = 28 then LIGHT else if i = 27 then DARK
                      else if i = 60 then LIGHT else if i = 4 then DARK else EMPTY,
    piece := fun i => if i = 28 then PAWN else if i = 27 then PAWN
                      else if i = 60 then KING else if i = 4 then KING else EMPTY,
    ep := 19 }


/-- A move as gen produces it: a gen_push call site whose facts GoodSite
records, packaged either unchanged (promotion piece 0) or expanded by
gen_promote (promotion bit added, promotion piece 1 to 4). -/
def GenMove (d : Data) (m : MoveB) : Prop :=
  ∃ bits0, GoodSite d m.fromSq m.toSq bits0 ∧
    ((m.bits = bits0 ∧ m.promote = 0 ∧
        ¬(bits0 &&& 16 ≠ 0 ∧ (if d.side = LIGHT then m.toSq ≤ H8 else A1 ≤ m.toSq))) ∨
     (m.bits = bits0 ||| 32 ∧
        (m.promote = 1 ∨ m.promote = 2 ∨ m.promote = 3 ∨ m.promote = 4) ∧
        bits0 &&& 16 ≠ 0 ∧ (if d.side = LIGHT then m.toSq ≤ H8 else A1 ≤ m.toSq)))

/-- Equality of the position fields of two states: the board arrays, the
side fields, castle rights, en-passant square, halfmove clock, hash, and
the ply counters. -/
def SamePos (a b : Data) : Prop :=
  a.color = b.color ∧ a.piece = b.piece ∧ a.side = b.side ∧ a.xside = b.xside ∧
  a.castle = b.castle ∧ a.ep = b.ep ∧ a.fifty = b.fifty ∧ a.hash = b.hash ∧
  a.ply = b.ply ∧ a.hply = b.hply

/-- Well-formedness of legally reachable positions: complementary side
fields; a square is color-empty exactly when it is piece-empty; colors are
LIGHT, DARK or EMPTY; pawns stay on the interior ranks; a live castling
bit keeps its king and rook on their home squares; a set en-passant square
lies in the correct rank band, is empty, and has the doubled pawn one rank
behind it. -/
def WF (d : Data) : Prop :=
  ((d.side = LIGHT ∧ d.xside = DARK) ∨ (d.side = DARK ∧ d.xside = LIGHT)) ∧
  (∀ i, i < 64 → (d.color i = EMPTY ↔ d.piece i = EMPTY)) ∧
  (∀ i, i < 64 → d.color i = LIGHT ∨ d.color i = DARK ∨ d.color i = EMPTY) ∧
  (∀ i, i < 64 → d.color i ≠ EMPTY → d.piece i = PAWN → 8 ≤ i ∧ i < 56) ∧
  (d.castle &&& 1 ≠ 0 →
    d.color 60 = LIGHT ∧ d.piece 60 = KING ∧ d.color 63 = LIGHT ∧ d.piece 63 = ROOK) ∧
  (d.castle &&& 2 ≠ 0 →
    d.color 60 = LIGHT ∧ d.piece 60 = KING ∧ d.color 56 = LIGHT ∧ d.piece 56 = ROOK) ∧
  (d.castle &&& 4 ≠ 0 →
    d.color 4 = DARK ∧ d.piece 4 = KING ∧ d.color 7 = DARK ∧ d.piece 7 = ROOK) ∧
  (d.castle &&& 8 ≠ 0 →
    d.color 4 = DARK ∧ d.piece 4 = KING ∧ d.color 0 = DARK ∧ d.piece 0 = ROOK) ∧
  (d.ep ≠ -1 →
    (d.side = LIGHT ∧ 16 ≤ d.ep.toNat ∧ d.ep.toNat ≤ 23 ∧ d.color d.ep.toNat = EMPTY ∧
       d.color (d.ep.toNat + 8) = DARK ∧ d.piece (d.ep.toNat + 8) = PAWN) ∨
    (d.side = DARK ∧ 40 ≤ d.ep.toNat ∧ d.ep.toNat ≤ 47 ∧ d.color d.ep.toNat = EMPTY ∧
       d.color (d.ep.toNat - 8) = LIGHT ∧ d.piece (d.ep.toNat - 8) = PAWN))


/-- A board write: a square and the color and piece values stored there. -/
structure Wr where
  sq : Nat
  cv : Nat
  pv : Nat

/-- Apply a list of board writes to a board, the head of the list written
last. -/
def applyW : Board → List Wr → Board
  | b, [] => b
  | b, w :: ws => (updf (applyW b ws).1 w.sq w.cv, updf (applyW b ws).2 w.sq w.pv)

/-- The state after playing the pawn push a2 to a3 from the initial
position, extracted from the makemove result. -/
def c1d : Data := ((makemove initData (MoveB.mk 48 40 0 16)).getD (initData, false)).1

/-- The state returned by the failing castling attempt e1 to g1 on the
initial position, extracted from the makemove result. -/
def c2d : Data := ((makemove initData (MoveB.mk 60 62 0 2)).getD (initData, true)).1


/-- SearchResult from search.rs: a score, or the timeout signal that
unwinds the recursion. -/
inductive SR where
  | Value (x : Int)
  | Timeout
deriving Repr, DecidableEq

/-- The scan of sort() from search.rs: running best score starts at -1,
strictly greater scores win, the first maximiser is kept.  Returns the
index of the selected entry. -/
def bestIdx (ms : List Gen) : Nat :=
  (ms.foldl (fun (st : Int × Nat × Nat) g =>
    if st.1 < g.score then (g.score, st.2.2, st.2.2 + 1) else (st.1, st.2.1, st.2.2 + 1))
    (-1, 0, 0)).2.1

/-- sort() from search.rs as one selection step on the rest of the move
list: the entry chosen by bestIdx is swapped with the front entry. -/
def selStep (g0 : Gen) (gs : List Gen) : Gen × List Gen :=
  let bi := bestIdx (g0 :: gs)
  if bi = 0 then (g0, gs)
  else ((g0 :: gs).getD bi g0, gs.set (bi - 1) g0)

/-- The scan of sort_pv() from search.rs: find the first entry whose move
equals the PV move and add 10,000,000 to its score; none when the PV move
is not in the list. -/
def bumpPv (pvm : MoveB) : List Gen → Option (List Gen)
  | [] => none
  | g :: gs =>
    if g.m = pvm then some ({ g with score := g.score + 10000000 } :: gs)
    else (bumpPv pvm gs).map (g :: ·)

/-- sort_pv() from search.rs: follow_pv becomes true exactly when the PV
move of the current ply was found and bumped. -/
def sort_pv (d : Data) (ms : List Gen) : Bool × List Gen :=
  match bumpPv (d.pv 0 d.ply) ms with
  | some ms2 => (true, ms2)
  | none => (false, ms)

/-- n successive takeback() calls. -/
def takebackN : Nat → Data → Option Data
  | 0, d => some d
  | n + 1, d => (takeback d).bind (takebackN n)

/-- The unwind loop of think() on timeout: take back until ply is 0.  The
fuel argument bounds the number of loop iterations; none models a loop
that would not finish within it. -/
def unwind0 : Nat → Data → Option Data
  | 0, d => if d.ply = 0 then some d else none
  | fuel + 1, d =>
    if d.ply = 0 then some d
    else (takeback d).bind (unwind0 fuel)

mutual

/-- search() from search.rs.  The oracle o gives the checkup() result as a
function of the node counter; fuel bounds the recursion depth and none
models exceeding it; none also propagates the makemove and takeback
panics.  The state threading is explicit: the returned Data is the state
at the return statement of the source. -/
def searchF : Nat → (Nat → Bool) → Data → Int → Int → Int → Option (SR × Data)
  | 0, _, _, _, _, _ => none
  | fuel + 1, o, d, alpha, beta, depth =>
    if depth = 0 then quiesceF fuel o d alpha beta
    else
      let d1 := { d with nodes := d.nodes + 1 }
      if d1.nodes &&& 1023 = 0 ∧ o d1.nodes = false then some (SR.Timeout, d1)
      else
        let d2 := { d1 with pvLength := updf d1.pvLength d1.ply d1.ply }
        match (if d2.ply ≠ 0 then reps d2 else some 0) with
        | none => none
        | some r =>
          if d2.ply ≠ 0 ∧ r ≠ 0 then some (SR.Value 0, d2)
          else if MAX_PLY - 1 ≤ d2.ply then some (SR.Value (eval d2), d2)
          else if HIST_STACK - 1 ≤ d2.hply then some (SR.Value (eval d2), d2)
          else
            match in_check d2 d2.side with
            | none => none
            | some c =>
              let pr := if d2.followPv then sort_pv d2 (gen d2) else (d2.followPv, gen d2)
              searchLoopF fuel o { d2 with followPv := pr.1 } pr.2 alpha beta
                (if c then depth + 1 else depth) c false

/-- The move loop of search(), running on the not yet searched rest of the
move list; f records whether a legal move was found, and the list-empty
case carries the checkmate, stalemate, fifty-move and alpha returns that
follow the loop in the source. -/
def searchLoopF : Nat → (Nat → Bool) → Data → List Gen → Int → Int → Int → Bool → Bool →
    Option (SR × Data)
  | 0, _, _, _, _, _, _, _, _ => none
  | _ + 1, _, d, [], alpha, _, _, c, f =>
    if f = false then
      some (SR.Value (if c then -10000 + (d.ply : Int) else 0), d)
    else if 100 ≤ d.fifty then some (SR.Value 0, d)
    else some (SR.Value alpha, d)
  | fuel + 1, o, d, g0 :: gs, alpha, beta, depth, c, f =>
    let sel := selStep g0 gs
    match makemove d sel.1.m with
    | none => none
    | some (d1, false) => searchLoopF fuel o d1 sel.2 alpha beta depth c f
    | some (d1, true) =>
      match searchF fuel o d1 (-beta) (-alpha) (depth - 1) with
      | none => none
      | some (SR.Timeout, d2) => some (SR.Timeout, d2)
      | some (SR.Value v, d2) =>
        match takeback d2 with
        | none => none
        | some d3 =>
          if alpha < -v then
            let hist2 : Nat → Nat → Int := fun a b =>
              if a = sel.1.m.fromSq ∧ b = sel.1.m.toSq then d3.history a b + depth
              else d3.history a b
            let d4 := { d3 with history := hist2 }
            if beta ≤ -v then some (SR.Value beta, d4)
            else
              let pv2 : Nat → Nat → MoveB := fun r j =>
                if r = d4.ply ∧ j = d4.ply then sel.1.m
                else if r = d4.ply ∧ d4.ply + 1 ≤ j ∧ j < d4.pvLength (d4.ply + 1) then
                  d4.pv (d4.ply + 1) j
                else d4.pv r j
              let d5 :=
                { d4 with
                  pv := pv2,
                  pvLength := updf d4.pvLength d4.ply (d4.pvLength (d4.ply + 1)) }
              searchLoopF fuel o d5 sel.2 (-v) beta depth c true
          else searchLoopF fuel o d3 sel.2 alpha beta depth c true

/-- quiesce() from search.rs, with the same conventions as searchF. -/
def quiesceF : Nat → (Nat → Bool) → Data → Int → Int → Option (SR × Data)
  | 0, _, _, _, _ => none
  | fuel + 1, o, d, alpha, beta =>
    let d1 := { d with nodes := d.nodes + 1 }
    if d1.nodes &&& 1023 = 0 ∧ o d1.nodes = false then some (SR.Timeout, d1)
    else
      let d2 := { d1 with pvLength := updf d1.pvLength d1.ply d1.ply }
      if MAX_PLY - 1 ≤ d2.ply then some (SR.Value (eval d2), d2)
      else if HIST_STACK - 1 ≤ d2.hply then some (SR.Value (eval d2), d2)
      else if beta ≤ eval d2 then some (SR.Value beta, d2)
      else
        let alpha2 := if alpha < eval d2 then eval d2 else alpha
        let pr := if d2.followPv then sort_pv d2 (gen_caps d2) else (d2.followPv, gen_caps d2)
        quiesceLoopF fuel o { d2 with followPv := pr.1 } pr.2 alpha2 beta

/-- The capture loop of quiesce(). -/
def quiesceLoopF : Nat → (Nat → Bool) → Data → List Gen → Int → Int → Option (SR × Data)
  | 0, _, _, _, _, _ => none
  | _ + 1, _, d, [], alpha, _ => some (SR.Value alpha, d)
  | fuel + 1, o, d, g0 :: gs, alpha, beta =>
    let sel := selStep g0 gs
    match makemove d sel.1.m with
    | none => none
    | some (d1, false) => quiesceLoopF fuel o d1 sel.2 alpha beta
    | some (d1, true) =>
      match quiesceF fuel o d1 (-beta) (-alpha) with
      | none => none
      | some (SR.Timeout, d2) => some (SR.Timeout, d2)
      | some (SR.Value v, d2) =>
        match takeback d2 with
        | none => none
        | some d3 =>
          if alpha < -v then
            if beta ≤ -v then some (SR.Value beta, d3)
            else
              let pv2 : Nat → Nat → MoveB := fun r j =>
                if r = d3.ply ∧ j = d3.ply then sel.1.m
                else if r = d3.ply ∧ d3.ply + 1 ≤ j ∧ j < d3.pvLength (d3.ply + 1) then
                  d3.pv (d3.ply + 1) j
                else d3.pv r j
              let d5 :=
                { d3 with
                  pv := pv2,
                  pvLength := updf d3.pvLength d3.ply (d3.pvLength (d3.ply + 1)) }
              quiesceLoopF fuel o d5 sel.2 (-v) beta
          else quiesceLoopF fuel o d3 sel.2 alpha beta

end

/-- The iterative deepening loop of think(): depth i runs from 1 to
maxDepth; follow_pv is set before each iteration; a timeout triggers the
unwind loop; a mate-range score ends the iteration early. -/
def thinkIter : Nat → (Nat → Bool) → Data → Int → Int → Option Data
  | 0, _, _, _, _ => none
  | fuel + 1, o, d, i, maxd =>
    if maxd < i then some d
    else
      match searchF fuel o { d with followPv := true } (-10000) 10000 i with
      | none => none
      | some (SR.Timeout, d2) => unwind0 fuel d2
      | some (SR.Value x, d2) =>
        if 9000 < x ∨ x < -9000 then some d2
        else thinkIter fuel o d2 (i + 1) maxd

/-- think() from search.rs in the no-output mode: the opening book answer
is a parameter (the book lives outside the engine state); when it supplies
a move, the move is stored in the principal variation slot 0 and think
returns at once; otherwise ply, the node counter, the principal variation
and the history table are reset and the deepening loop runs. -/
def think (bkm : Option MoveB) (o : Nat → Bool) (fuel : Nat) (d : Data) : Option Data :=
  match bkm with
  | some m => some { d with pv := fun r j => if r = 0 ∧ j = 0 then m else d.pv r j }
  | none =>
    let d1 :=
      { d with
        ply := 0, nodes := 0, pv := fun _ _ => ⟨0, 0, 0, 0⟩,
        history := fun _ _ => 0 }
    thinkIter fuel o d1 1 d.maxDepth

/-- A stalemate position: light king a1, dark king a3, dark queen b3,
light to move with no legal moves and not in check. -/
def staleData : Data :=
  { baseData with
    color := fun i => if i = 56 then LIGHT else if i = 40 then DARK
                      else if i = 41 then DARK else EMPTY,
    piece := fun i => if i = 56 then KING else if i = 40 then KING
                      else if i = 41 then QUEEN else EMPTY }

/-- The state returned by search on the stalemate position, extracted
from the searchF result. -/
def c4d : Data :=
  ((searchF 11 (fun _ => true) staleData (-10000) 10000 1).getD
    (SR.Value 0, staleData)).2

/-- The history records strictly below the hply of b agree between a
and b: deeper search calls only write at or above their entry hply. -/
def SameBelow (a b : Data) : Prop := ∀ i, i < b.hply → a.histDat i = b.histDat i

/-- The unwinding contract of a search call started at state d: a Value
return restores the position fields of d and the history below; a Timeout
return leaves ply at or above d and taking back exactly the surplus ply
restores the position fields of d and the history below. -/
def SOK (d : Data) : Option (SR × Data) → Prop
  | none => True
  | some (SR.Value _, d2) => SamePos d2 d ∧ SameBelow d2 d
  | some (SR.Timeout, d2) =>
      d.ply ≤ d2.ply ∧
      ∃ d3, takebackN (d2.ply - d.ply) d2 = some d3 ∧ SamePos d3 d ∧ SameBelow d3 d

/-- The state think returns on the initial position with search depth 0,
extracted from the think result. -/
def c3d : Data := (think none (fun _ => false) 5 initData).getD initData

/-- A position with the repetition window full of matching hashes: two
history entries, both recording hash 0, the current hash; ply 1. -/
def repData : Data := { baseData with ply := 1, hply := 2, fifty := 2 }

/-!  ## Theorems  -/

theorem mailbox_entry (idx : Nat) :
    MAILBOX.getD idx (-1) = -1 ∨ (MAILBOX.getD idx (-1)).toNat < 64 := by
  by_cases h : idx < 120
  · have hall : ∀ j, j < 120 → MAILBOX.getD j (-1) = -1 ∨ (MAILBOX.getD j (-1)).toNat < 64 := by
      decide
    exact hall idx h
  · left
    rw [List.getD_eq_default]
    simp only [MAILBOX, List.length_cons, List.length_nil]
    omega

theorem genRay_elim {d : Data} {i p : Nat} {off : Int} {g : Gen} :
    ∀ {fuel n}, g ∈ genRay d i p off fuel n →
    ∃ t, t < 64 ∧
      ((d.color t ≠ EMPTY ∧ d.color t = d.xside ∧ g ∈ gen_push d i t 1) ∨
       (d.color t = EMPTY ∧ g ∈ gen_push d i t 0)) := by
  intro fuel
  induction fuel with
  | zero => intro n hg; simp [genRay] at hg
  | succ fuel ih =>
    intro n hg
    rw [genRay] at hg
    by_cases h1 : MAILBOX.getD ((MAILBOX64.getD n 0 : Int) + off).toNat (-1) = -1
    · rw [if_pos h1] at hg; simp at hg
    · rw [if_neg h1] at hg
      have hlt : (MAILBOX.getD ((MAILBOX64.getD n 0 : Int) + off).toNat (-1)).toNat < 64 :=
        (mailbox_entry _).resolve_left h1
      by_cases h2 : d.color (MAILBOX.getD ((MAILBOX64.getD n 0 : Int) + off).toNat (-1)).toNat ≠ EMPTY
      · rw [if_pos h2] at hg
        by_cases h3 : d.color (MAILBOX.getD ((MAILBOX64.getD n 0 : Int) + off).toNat (-1)).toNat = d.xside
        · rw [if_pos h3] at hg
          exact ⟨_, hlt, Or.inl ⟨h2, h3, hg⟩⟩
        · rw [if_neg h3] at hg; simp at hg
      · rw [if_neg h2] at hg
        push_neg at h2
        rcases List.mem_append.mp hg with hg | hg
        · exact ⟨_, hlt, Or.inr ⟨h2, hg⟩⟩
        · by_cases h4 : SLIDE.getD p false
          · rw [if_pos h4] at hg
            exact ih hg
          · rw [if_neg h4] at hg; simp at hg

theorem genCapsRay_elim {d : Data} {i p : Nat} {off : Int} {g : Gen} :
    ∀ {fuel n}, g ∈ genCapsRay d i p off fuel n →
    ∃ t, t < 64 ∧ d.color t ≠ EMPTY ∧ d.color t = d.xside ∧ g ∈ gen_push d i t 1 := by
  intro fuel
  induction fuel with
  | zero => intro n hg; simp [genCapsRay] at hg
  | succ fuel ih =>
    intro n hg
    rw [genCapsRay] at hg
    by_cases h1 : MAILBOX.getD ((MAILBOX64.getD n 0 : Int) + off).toNat (-1) = -1
    · rw [if_pos h1] at hg; simp at hg
    · rw [if_neg h1] at hg
      have hlt : (MAILBOX.getD ((MAILBOX64.getD n 0 : Int) + off).toNat (-1)).toNat < 64 :=
        (mailbox_entry _).resolve_left h1
      by_cases h2 : d.color (MAILBOX.getD ((MAILBOX64.getD n 0 : Int) + off).toNat (-1)).toNat ≠ EMPTY
      · rw [if_pos h2] at hg
        by_cases h3 : d.color (MAILBOX.getD ((MAILBOX64.getD n 0 : Int) + off).toNat (-1)).toNat = d.xside
        · rw [if_pos h3] at hg
          exact ⟨_, hlt, h2, h3, hg⟩
        · rw [if_neg h3] at hg; simp at hg
      · rw [if_neg h2] at hg
        by_cases h4 : SLIDE.getD p false
        · rw [if_pos h4] at hg
          exact ih hg
        · rw [if_neg h4] at hg; simp at hg

theorem mem_genEp_sites {d : Data} {g : Gen} (hg : g ∈ genEp d) :
    ∃ f t bits, g ∈ gen_push d f t bits ∧ GoodSite d f t bits := by
  unfold genEp at hg
  by_cases hep : d.ep ≠ -1
  · rw [if_pos hep] at hg
    by_cases hs : d.side = LIGHT
    · rw [if_pos hs] at hg
      rcases List.mem_append.mp hg with hg | hg
      · by_cases hc : col d.ep.toNat ≠ 0 ∧ d.color (d.ep.toNat + 7) = LIGHT ∧
            d.piece (d.ep.toNat + 7) = PAWN
        · rw [if_pos hc] at hg
          exact ⟨_, _, 21, hg, Or.inr (Or.inr (Or.inr (Or.inr
            ⟨rfl, hep, rfl, Or.inl ⟨hs, hc.2.1, hc.2.2, Or.inl ⟨hc.1, rfl⟩⟩⟩)))⟩
        · rw [if_neg hc] at hg; simp at hg
      · by_cases hc : col d.ep.toNat ≠ 7 ∧ d.color (d.ep.toNat + 9) = LIGHT ∧
            d.piece (d.ep.toNat + 9) = PAWN
        · rw [if_pos hc] at hg
          exact ⟨_, _, 21, hg, Or.inr (Or.inr (Or.inr (Or.inr
            ⟨rfl, hep, rfl, Or.inl ⟨hs, hc.2.1, hc.2.2, Or.inr ⟨hc.1, rfl⟩⟩⟩)))⟩
        · rw [if_neg hc] at hg; simp at hg
    · rw [if_neg hs] at hg
      rcases List.mem_append.mp hg with hg | hg
      · by_cases hc : col d.ep.toNat ≠ 0 ∧ d.color (d.ep.toNat - 9) = DARK ∧
            d.piece (d.ep.toNat - 9) = PAWN
        · rw [if_pos hc] at hg
          exact ⟨_, _, 21, hg, Or.inr (Or.inr (Or.inr (Or.inr
            ⟨rfl, hep, rfl, Or.inr ⟨hs, hc.2.1, hc.2.2, Or.inl ⟨hc.1, rfl⟩⟩⟩)))⟩
        · rw [if_neg hc] at hg; simp at hg
      · by_cases hc : col d.ep.toNat ≠ 7 ∧ d.color (d.ep.toNat - 7) = DARK ∧
            d.piece (d.ep.toNat - 7) = PAWN
        · rw [if_pos hc] at hg
          exact ⟨_, _, 21, hg, Or.inr (Or.inr (Or.inr (Or.inr
            ⟨rfl, hep, rfl, Or.inr ⟨hs, hc.2.1, hc.2.2, Or.inr ⟨hc.1, rfl⟩⟩⟩)))⟩
        · rw [if_neg hc] at hg; simp at hg
  · rw [if_neg hep] at hg; simp at hg

theorem mem_genCastle_sites {d : Data} {g : Gen} (hg : g ∈ genCastle d) :
    ∃ f t bits, g ∈ gen_push d f t bits ∧ GoodSite d f t bits := by
  unfold genCastle at hg
  by_cases hs : d.side = LIGHT
  · rw [if_pos hs] at hg
    rcases List.mem_append.mp hg with hg | hg
    · by_cases hc : d.castle &&& 1 ≠ 0
      · rw [if_pos hc] at hg
        exact ⟨_, _, 2, hg, Or.inr (Or.inr (Or.inr (Or.inl
          ⟨rfl, Or.inl ⟨hs, rfl, Or.inl ⟨rfl, hc⟩⟩⟩)))⟩
      · rw [if_neg hc] at hg; simp at hg
    · by_cases hc : d.castle &&& 2 ≠ 0
      · rw [if_pos hc] at hg
        exact ⟨_, _, 2, hg, Or.inr (Or.inr (Or.inr (Or.inl
          ⟨rfl, Or.inl ⟨hs, rfl, Or.inr ⟨rfl, hc⟩⟩⟩)))⟩
      · rw [if_neg hc] at hg; simp at hg
  · rw [if_neg hs] at hg
    rcases List.mem_append.mp hg with hg | hg
    · by_cases hc : d.castle &&& 4 ≠ 0
      · rw [if_pos hc] at hg
        exact ⟨_, _, 2, hg, Or.inr (Or.inr (Or.inr (Or.inl
          ⟨rfl, Or.inr ⟨hs, rfl, Or.inl ⟨rfl, hc⟩⟩⟩)))⟩
      · rw [if_neg hc] at hg; simp at hg
    · by_cases hc : d.castle &&& 8 ≠ 0
      · rw [if_pos hc] at hg
        exact ⟨_, _, 2, hg, Or.inr (Or.inr (Or.inr (Or.inl
          ⟨rfl, Or.inr ⟨hs, rfl, Or.inr ⟨rfl, hc⟩⟩⟩)))⟩
      · rw [if_neg hc] at hg; simp at hg

theorem mem_genPawnLight_sites {d : Data} {g : Gen} {i : Nat} (hi : i < 64)
    (hcol : d.color i = d.side) (hp : d.piece i = PAWN) (hs : d.side = LIGHT)
    (hg : g ∈ genPawnLight d i) :
    ∃ f t bits, g ∈ gen_push d f t bits ∧ GoodSite d f t bits := by
  unfold genPawnLight at hg
  rcases List.mem_append.mp hg with hg | hg
  rcases List.mem_append.mp hg with hg | hg
  · by_cases hc : col i ≠ 0 ∧ d.color (i - 9) = DARK
    · rw [if_pos hc] at hg
      exact ⟨_, _, 17, hg, Or.inl ⟨hs, hcol, hp, hi, Or.inl ⟨rfl, hc.2, Or.inl ⟨hc.1, rfl⟩⟩⟩⟩
    · rw [if_neg hc] at hg; simp at hg
  · by_cases hc : col i ≠ 7 ∧ d.color (i - 7) = DARK
    · rw [if_pos hc] at hg
      exact ⟨_, _, 17, hg, Or.inl ⟨hs, hcol, hp, hi, Or.inl ⟨rfl, hc.2, Or.inr ⟨hc.1, rfl⟩⟩⟩⟩
    · rw [if_neg hc] at hg; simp at hg
  · by_cases hc : d.color (i - 8) = EMPTY
    · rw [if_pos hc] at hg
      rcases List.mem_append.mp hg with hg | hg
      · exact ⟨_, _, 16, hg, Or.inl ⟨hs, hcol, hp, hi, Or.inr (Or.inl ⟨rfl, rfl, hc⟩)⟩⟩
      · by_cases hc2 : 48 ≤ i ∧ d.color (i - 16) = EMPTY
        · rw [if_pos hc2] at hg
          exact ⟨_, _, 24, hg,
            Or.inl ⟨hs, hcol, hp, hi, Or.inr (Or.inr ⟨rfl, rfl, hc2.1, hc, hc2.2⟩)⟩⟩
        · rw [if_neg hc2] at hg; simp at hg
    · rw [if_neg hc] at hg; simp at hg

theorem mem_genPawnDark_sites {d : Data} {g : Gen} {i : Nat} (hi : i < 64)
    (hcol : d.color i = d.side) (hp : d.piece i = PAWN) (hs : d.side ≠ LIGHT)
    (hg : g ∈ genPawnDark d i) :
    ∃ f t bits, g ∈ gen_push d f t bits ∧ GoodSite d f t bits := by
  unfold genPawnDark at hg
  rcases List.mem_append.mp hg with hg | hg
  rcases List.mem_append.mp hg with hg | hg
  · by_cases hc : col i ≠ 0 ∧ d.color (i + 7) = LIGHT
    · rw [if_pos hc] at hg
      exact ⟨_, _, 17, hg,
        Or.inr (Or.inl ⟨hs, hcol, hp, hi, Or.inl ⟨rfl, hc.2, Or.inl ⟨hc.1, rfl⟩⟩⟩)⟩
    · rw [if_neg hc] at hg; simp at hg
  · by_cases hc : col i ≠ 7 ∧ d.color (i + 9) = LIGHT
    · rw [if_pos hc] at hg
      exact ⟨_, _, 17, hg,
        Or.inr (Or.inl ⟨hs, hcol, hp, hi, Or.inl ⟨rfl, hc.2, Or.inr ⟨hc.1, rfl⟩⟩⟩)⟩
    · rw [if_neg hc] at hg; simp at hg
  · by_cases hc : d.color (i + 8) = EMPTY
    · rw [if_pos hc] at hg
      rcases List.mem_append.mp hg with hg | hg
      · exact ⟨_, _, 16, hg, Or.inr (Or.inl ⟨hs, hcol, hp, hi, Or.inr (Or.inl ⟨rfl, rfl, hc⟩)⟩)⟩
      · by_cases hc2 : i ≤ 15 ∧ d.color (i + 16) = EMPTY
        · rw [if_pos hc2] at hg
          exact ⟨_, _, 24, hg,
            Or.inr (Or.inl ⟨hs, hcol, hp, hi, Or.inr (Or.inr ⟨rfl, rfl, hc2.1, hc, hc2.2⟩)⟩)⟩
        · rw [if_neg hc2] at hg; simp at hg
    · rw [if_neg hc] at hg; simp at hg

theorem mem_gen_sites {d : Data} {g : Gen} (hg : g ∈ gen d) :
    ∃ f t bits, g ∈ gen_push d f t bits ∧ GoodSite d f t bits := by
  unfold gen at hg
  rcases List.mem_append.mp hg with hg | hg
  rcases List.mem_append.mp hg with hg | hg
  · obtain ⟨i, hi, hg⟩ := List.mem_flatMap.mp hg
    have hi64 : i < 64 := List.mem_range.mp hi
    by_cases hcol : d.color i = d.side
    · rw [if_pos hcol] at hg
      by_cases hp : d.piece i = PAWN
      · rw [if_pos hp] at hg
        by_cases hs : d.side = LIGHT
        · rw [if_pos hs] at hg
          exact mem_genPawnLight_sites hi64 hcol hp hs hg
        · rw [if_neg hs] at hg
          exact mem_genPawnDark_sites hi64 hcol hp hs hg
      · rw [if_neg hp] at hg
        obtain ⟨j, hj, hg⟩ := List.mem_flatMap.mp (by exact hg)
        obtain ⟨t, ht, hcase⟩ := genRay_elim hg
        rcases hcase with ⟨h1, h2, hg⟩ | ⟨h1, hg⟩
        · exact ⟨_, _, 1, hg, Or.inr (Or.inr (Or.inl
            ⟨hcol, hp, hi64, ht, Or.inl ⟨rfl, h1, h2⟩⟩))⟩
        · exact ⟨_, _, 0, hg, Or.inr (Or.inr (Or.inl
            ⟨hcol, hp, hi64, ht, Or.inr ⟨rfl, h1⟩⟩))⟩
    · rw [if_neg hcol] at hg; simp at hg
  · exact mem_genCastle_sites hg
  · exact mem_genEp_sites hg

theorem mem_genCapsPawn_sites {d : Data} {g : Gen} {i : Nat} (hi : i < 64)
    (hcol : d.color i = d.side) (hp : d.piece i = PAWN)
    (hg : g ∈ genCapsPawn d i) :
    ∃ f t bits, g ∈ gen_push d f t bits ∧ GoodSite d f t bits := by
  unfold genCapsPawn at hg
  rcases List.mem_append.mp hg with hg | hg
  · by_cases hs : d.side = LIGHT
    · rw [if_pos hs] at hg
      rcases List.mem_append.mp hg with hg | hg
      rcases List.mem_append.mp hg with hg | hg
      · by_cases hc : col i ≠ 0 ∧ d.color (i - 9) = DARK
        · rw [if_pos hc] at hg
          exact ⟨_, _, 17, hg, Or.inl ⟨hs, hcol, hp, hi, Or.inl ⟨rfl, hc.2, Or.inl ⟨hc.1, rfl⟩⟩⟩⟩
        · rw [if_neg hc] at hg; simp at hg
      · by_cases hc : col i ≠ 7 ∧ d.color (i - 7) = DARK
        · rw [if_pos hc] at hg
          exact ⟨_, _, 17, hg, Or.inl ⟨hs, hcol, hp, hi, Or.inl ⟨rfl, hc.2, Or.inr ⟨hc.1, rfl⟩⟩⟩⟩
        · rw [if_neg hc] at hg; simp at hg
      · by_cases hc : i ≤ 15 ∧ d.color (i - 8) = EMPTY
        · rw [if_pos hc] at hg
          exact ⟨_, _, 16, hg, Or.inl ⟨hs, hcol, hp, hi, Or.inr (Or.inl ⟨rfl, rfl, hc.2⟩)⟩⟩
        · rw [if_neg hc] at hg; simp at hg
    · rw [if_neg hs] at hg; simp at hg
  · by_cases hs : d.side = DARK
    · rw [if_pos hs] at hg
      have hs' : d.side ≠ LIGHT := by rw [hs]; decide
      rcases List.mem_append.mp hg with hg | hg
      rcases List.mem_append.mp hg with hg | hg
      · by_cases hc : col i ≠ 0 ∧ d.color (i + 7) = LIGHT
        · rw [if_pos hc] at hg
          exact ⟨_, _, 17, hg,
            Or.inr (Or.inl ⟨hs', hcol, hp, hi, Or.inl ⟨rfl, hc.2, Or.inl ⟨hc.1, rfl⟩⟩⟩)⟩
        · rw [if_neg hc] at hg; simp at hg
      · by_cases hc : col i ≠ 7 ∧ d.color (i + 9) = LIGHT
        · rw [if_pos hc] at hg
          exact ⟨_, _, 17, hg,
            Or.inr (Or.inl ⟨hs', hcol, hp, hi, Or.inl ⟨rfl, hc.2, Or.inr ⟨hc.1, rfl⟩⟩⟩)⟩
        · rw [if_neg hc] at hg; simp at hg
      · by_cases hc : 48 ≤ i ∧ d.color (i + 8) = EMPTY
        · rw [if_pos hc] at hg
          exact ⟨_, _, 16, hg,
            Or.inr (Or.inl ⟨hs', hcol, hp, hi, Or.inr (Or.inl ⟨rfl, rfl, hc.2⟩)⟩)⟩
        · rw [if_neg hc] at hg; simp at hg
    · rw [if_neg hs] at hg; simp at hg

theorem mem_gen_caps_sites {d : Data} {g : Gen} (hg : g ∈ gen_caps d) :
    ∃ f t bits, g ∈ gen_push d f t bits ∧ GoodSite d f t bits := by
  unfold gen_caps at hg
  rcases List.mem_append.mp hg with hg | hg
  · obtain ⟨i, hi, hg⟩ := List.mem_flatMap.mp hg
    have hi64 : i < 64 := List.mem_range.mp hi
    by_cases hcol : d.color i = d.side
    · rw [if_pos hcol] at hg
      by_cases hp : d.piece i = PAWN
      · rw [if_pos hp] at hg
        exact mem_genCapsPawn_sites hi64 hcol hp hg
      · rw [if_neg hp] at hg
        obtain ⟨j, hj, hg⟩ := List.mem_flatMap.mp (by exact hg)
        obtain ⟨t, ht, h1, h2, hg⟩ := genCapsRay_elim hg
        exact ⟨_, _, 1, hg, Or.inr (Or.inr (Or.inl
          ⟨hcol, hp, hi64, ht, Or.inl ⟨rfl, h1, h2⟩⟩))⟩
    · rw [if_neg hcol] at hg; simp at hg
  · exact mem_genEp_sites hg

theorem goodSite_bits {d : Data} {f t bits : Nat} (h : GoodSite d f t bits) :
    bits = 17 ∨ bits = 16 ∨ bits = 24 ∨ bits = 1 ∨ bits = 0 ∨ bits = 2 ∨ bits = 21 := by
  rcases h with ⟨-, -, -, -, hc⟩ | ⟨-, -, -, -, hc⟩ | ⟨-, -, -, -, hc⟩ | ⟨hb, -⟩ | ⟨hb, -⟩
  · rcases hc with ⟨hb, -⟩ | ⟨hb, -⟩ | ⟨hb, -⟩ <;> subst hb <;> simp
  · rcases hc with ⟨hb, -⟩ | ⟨hb, -⟩ | ⟨hb, -⟩ <;> subst hb <;> simp
  · rcases hc with ⟨hb, -⟩ | ⟨hb, -⟩ <;> subst hb <;> decide
  · subst hb; decide
  · subst hb; decide

theorem gen_push_elim {d : Data} {f t bits : Nat} {g : Gen} (hg : g ∈ gen_push d f t bits) :
    (g.m = MoveB.mk f t 0 bits ∧
      ¬(bits &&& 16 ≠ 0 ∧ (if d.side = LIGHT then t ≤ H8 else A1 ≤ t)) ∧
      g.score = (if d.color t ≠ EMPTY then 1000000 + (d.piece t : Int) * 10 - (d.piece f : Int)
                 else d.history f t)) ∨
    (∃ i, (i = 1 ∨ i = 2 ∨ i = 3 ∨ i = 4) ∧ g.m = MoveB.mk f t i (bits ||| 32) ∧
      bits &&& 16 ≠ 0 ∧ (if d.side = LIGHT then t ≤ H8 else A1 ≤ t) ∧
      g.score = 1000000 + (i : Int) * 10) := by
  unfold gen_push at hg
  by_cases hc : bits &&& 16 ≠ 0 ∧ (if d.side = LIGHT then t ≤ H8 else A1 ≤ t)
  · rw [if_pos hc] at hg
    unfold gen_promote at hg
    simp only [List.mem_map] at hg
    obtain ⟨i, hi, hgeq⟩ := hg
    subst hgeq
    fin_cases hi
    · exact Or.inr ⟨1, by simp, rfl, hc.1, hc.2, rfl⟩
    · exact Or.inr ⟨2, by simp, rfl, hc.1, hc.2, rfl⟩
    · exact Or.inr ⟨3, by simp, rfl, hc.1, hc.2, rfl⟩
    · exact Or.inr ⟨4, by simp, rfl, hc.1, hc.2, rfl⟩
  · rw [if_neg hc] at hg
    simp only [List.mem_singleton] at hg
    subst hg
    exact Or.inl ⟨rfl, hc, rfl⟩

/-- The score assigned by gen to every pushed entry, by gen_push occupancy:
promotions score 1000000 + piece * 10; a move whose destination square is
occupied scores MVV/LVA from the board; a move to an empty square scores
the history table value. -/
theorem gen_score_formula {d : Data} {g : Gen} (hg : g ∈ gen d) :
    (g.m.bits &&& 32 ≠ 0 ∧ (g.m.promote = 1 ∨ g.m.promote = 2 ∨ g.m.promote = 3 ∨ g.m.promote = 4) ∧
      g.score = 1000000 + (g.m.promote : Int) * 10) ∨
    (g.m.bits &&& 32 = 0 ∧ d.color g.m.toSq ≠ EMPTY ∧
      g.score = 1000000 + (d.piece g.m.toSq : Int) * 10 - (d.piece g.m.fromSq : Int)) ∨
    (g.m.bits &&& 32 = 0 ∧ d.color g.m.toSq = EMPTY ∧
      g.score = d.history g.m.fromSq g.m.toSq) := by
  obtain ⟨f, t, bits, hpush, hsite⟩ := mem_gen_sites hg
  have hbits := goodSite_bits hsite
  rcases gen_push_elim hpush with ⟨hm, -, hsc⟩ | ⟨i, hi, hm, -, -, hsc⟩
  · rw [hm, hsc]
    have h32 : bits &&& 32 = 0 := by
      rcases hbits with rfl | rfl | rfl | rfl | rfl | rfl | rfl <;> decide
    by_cases hocc : d.color t ≠ EMPTY
    · exact Or.inr (Or.inl ⟨h32, hocc, by rw [if_pos hocc]⟩)
    · push_neg at hocc
      exact Or.inr (Or.inr ⟨h32, hocc, by rw [if_neg (by simpa using hocc)]⟩)
  · rw [hm, hsc]
    have h32 : (bits ||| 32) &&& 32 ≠ 0 := by
      rcases hbits with rfl | rfl | rfl | rfl | rfl | rfl | rfl <;> decide
    exact Or.inl ⟨h32, hi, rfl⟩

/-- Field accounting for takeback: every non-board field of the result. -/
theorem takeback_fields {d d' : Data} (h : takeback d = some d') :
    d'.side = d.side ^^^ 1 ∧ d'.xside = d.xside ^^^ 1 ∧ d'.ply = d.ply - 1 ∧
    d'.hply = d.hply - 1 ∧ d'.castle = (d.histDat (d.hply - 1)).castle ∧
    d'.ep = (d.histDat (d.hply - 1)).ep ∧ d'.fifty = (d.histDat (d.hply - 1)).fifty ∧
    d'.hash = (d.histDat (d.hply - 1)).hash ∧ d'.histDat = d.histDat ∧
    d'.history = d.history ∧ d'.nodes = d.nodes ∧ d'.pv = d.pv ∧
    d'.pvLength = d.pvLength ∧ d'.followPv = d.followPv ∧ d'.maxDepth = d.maxDepth ∧
    d'.hashPiece = d.hashPiece ∧ d'.hashSide = d.hashSide ∧ d'.hashEp = d.hashEp := by
  unfold takeback at h
  simp only [Option.bind_eq_some, Option.map_eq_some'] at h
  obtain ⟨b4, _, b5, _, h6⟩ := h
  subst h6
  exact ⟨rfl, rfl, rfl, rfl, rfl, rfl, rfl, rfl, rfl, rfl, rfl, rfl, rfl, rfl, rfl, rfl, rfl, rfl⟩

/-- Field accounting for the mid-state of makemove, before the legality
check: every non-board field. -/
theorem makemoveMid_fields {d : Data} {m : MoveB} {b0 : Board} {d5 : Data}
    (h : makemoveMid d m b0 = some d5) :
    d5.side = d.side ^^^ 1 ∧ d5.xside = d.xside ^^^ 1 ∧ d5.ply = d.ply + 1 ∧
    d5.hply = d.hply + 1 ∧
    (d5.fifty = if m.bits &&& 17 ≠ 0 then 0 else d.fifty + 1) ∧
    d5.castle = d.castle &&& (CASTLE_MASK.getD m.fromSq 15 &&& CASTLE_MASK.getD m.toSq 15) ∧
    (d5.ep = if m.bits &&& 8 ≠ 0 then
               (if d.side = LIGHT then (m.toSq : Int) + 8 else (m.toSq : Int) - 8)
             else -1) ∧
    d5.hash = d.hash ∧
    d5.histDat = updf d.histDat d.hply (Hist.mk m (b0.2 m.toSq) d.castle d.ep d.fifty d.hash) ∧
    d5.history = d.history ∧ d5.nodes = d.nodes ∧ d5.pv = d.pv ∧
    d5.pvLength = d.pvLength ∧ d5.followPv = d.followPv ∧ d5.maxDepth = d.maxDepth ∧
    d5.hashPiece = d.hashPiece ∧ d5.hashSide = d.hashSide ∧ d5.hashEp = d.hashEp := by
  unfold makemoveMid at h
  simp only [Option.map_eq_some'] at h
  obtain ⟨b2, -, h7⟩ := h
  subst h7
  exact ⟨rfl, rfl, rfl, rfl, rfl, rfl, rfl, rfl, rfl, rfl, rfl, rfl, rfl, rfl, rfl, rfl, rfl, rfl⟩

/-- Unfolding a successful makemove into its stages. -/
theorem makemove_true_elim {d : Data} {m : MoveB} {d' : Data}
    (h : makemove d m = some (d', true)) :
    ∃ b0 d5, castlePre d m = some (some b0) ∧ d.hply < HIST_STACK ∧
      makemoveMid d m b0 = some d5 ∧ in_check d5 d5.xside = some false ∧
      d' = set_hash d5 := by
  unfold makemove at h
  cases hc : castlePre d m with
  | none => rw [hc] at h; exact absurd h (by simp)
  | some ob =>
    cases ob with
    | none => rw [hc] at h; dsimp only at h; simp at h
    | some b0 =>
      rw [hc] at h
      dsimp only at h
      by_cases hg : HIST_STACK ≤ d.hply
      · rw [if_pos hg] at h; exact absurd h (by simp)
      · rw [if_neg hg] at h
        cases hm : makemoveMid d m b0 with
        | none => rw [hm] at h; exact absurd h (by simp)
        | some d5 =>
          rw [hm] at h
          dsimp only at h
          cases hk : in_check d5 d5.xside with
          | none => rw [hk] at h; exact absurd h (by simp)
          | some bk =>
            cases bk with
            | true =>
              rw [hk] at h
              dsimp only at h
              simp only [Option.map_eq_some'] at h
              obtain ⟨d6, -, h7⟩ := h
              exact absurd (congrArg Prod.snd h7) (by simp)
            | false =>
              rw [hk] at h
              dsimp only at h
              simp only [Option.some_inj, Prod.mk.injEq] at h
              exact ⟨b0, d5, rfl, by omega, hm, hk, h.1.symm⟩

/-- Unfolding a failed makemove into its two stages: a failed castle
pre-check with no mutation, or a failed legality check followed by the
internal takeback. -/
theorem makemove_false_elim {d : Data} {m : MoveB} {d' : Data}
    (h : makemove d m = some (d', false)) :
    (castlePre d m = some none ∧ d' = d) ∨
    (∃ b0 d5, castlePre d m = some (some b0) ∧ d.hply < HIST_STACK ∧
      makemoveMid d m b0 = some d5 ∧ in_check d5 d5.xside = some true ∧
      takeback d5 = some d') := by
  unfold makemove at h
  cases hc : castlePre d m with
  | none => rw [hc] at h; exact absurd h (by simp)
  | some ob =>
    cases ob with
    | none =>
      rw [hc] at h
      dsimp only at h
      simp only [Option.some_inj, Prod.mk.injEq] at h
      exact Or.inl ⟨rfl, h.1.symm⟩
    | some b0 =>
      rw [hc] at h
      dsimp only at h
      by_cases hg : HIST_STACK ≤ d.hply
      · rw [if_pos hg] at h; exact absurd h (by simp)
      · rw [if_neg hg] at h
        cases hm : makemoveMid d m b0 with
        | none => rw [hm] at h; exact absurd h (by simp)
        | some d5 =>
          rw [hm] at h
          dsimp only at h
          cases hk : in_check d5 d5.xside with
          | none => rw [hk] at h; exact absurd h (by simp)
          | some bk =>
            cases bk with
            | true =>
              rw [hk] at h
              dsimp only at h
              simp only [Option.map_eq_some'] at h
              obtain ⟨d6, h6, h7⟩ := h
              have h8 : d6 = d' := congrArg Prod.fst h7
              exact Or.inr ⟨b0, d5, rfl, by omega, hm, hk, h8 ▸ h6⟩
            | false =>
              rw [hk] at h
              dsimp only at h
              simp only [Option.some_inj, Prod.mk.injEq] at h
              exact absurd h.2 (by simp)

/-- Field accounting for a successful makemove: the non-board fields of the
result, the shape of the pushed history record, and the stack guard. -/
theorem makemove_true_fields {d : Data} {m : MoveB} {d' : Data}
    (h : makemove d m = some (d', true)) :
    d'.side = d.side ^^^ 1 ∧ d'.xside = d.xside ^^^ 1 ∧ d'.ply = d.ply + 1 ∧
    d'.hply = d.hply + 1 ∧
    (d'.fifty = if m.bits &&& 17 ≠ 0 then 0 else d.fifty + 1) ∧
    (∃ cap, d'.histDat = updf d.histDat d.hply (Hist.mk m cap d.castle d.ep d.fifty d.hash)) ∧
    d'.history = d.history ∧ d'.nodes = d.nodes ∧ d'.pv = d.pv ∧
    d'.pvLength = d.pvLength ∧ d'.followPv = d.followPv ∧ d'.maxDepth = d.maxDepth ∧
    d'.hashPiece = d.hashPiece ∧ d'.hashSide = d.hashSide ∧ d'.hashEp = d.hashEp ∧
    d.hply < HIST_STACK := by
  obtain ⟨b0, d5, hc, hg, hm, hk, h7⟩ := makemove_true_elim h
  obtain ⟨h1, h2, h3, h4, h5, -, -, -, h9, h10, h11, h12, h13, h14, h15, h16, h17, h18⟩ :=
    makemoveMid_fields hm
  subst h7
  exact ⟨h1, h2, h3, h4, h5, ⟨_, h9⟩, h10, h11, h12, h13, h14, h15, h16, h17, h18, hg⟩

theorem clockInv_init (d : Data) : ClockInv (init_board d) :=
  ⟨Nat.le_refl 0, fun i hi => absurd hi (Nat.not_lt_zero i)⟩

theorem clockInv_step {d : Data} {m : MoveB} {d' : Data}
    (h : makemove d m = some (d', true)) (hI : ClockInv d) : ClockInv d' := by
  obtain ⟨-, -, -, h4, h5, ⟨cap, h6⟩, -⟩ := makemove_true_fields h
  constructor
  · rw [h5, h4]
    have := hI.1
    split
    · omega
    · omega
  · intro i hi
    rw [h6]
    rw [h4] at hi
    by_cases hieq : i = d.hply
    · subst hieq
      simpa [updf] using hI.1
    · rw [updf_other _ _ _ _ hieq]
      exact hI.2 i (by omega)

theorem clockInv_undo {d d' : Data} (h : takeback d = some d') (h0 : d.hply ≠ 0)
    (hI : ClockInv d) : ClockInv d' := by
  obtain ⟨-, -, -, h4, -, -, h7, -, h9, -⟩ := takeback_fields h
  constructor
  · rw [h7, h4]
    exact hI.2 _ (by omega)
  · intro i hi
    rw [h9]
    rw [h4] at hi
    exact hI.2 i (by omega)

theorem reachableU_clockInv {d : Data} (h : ReachableU d) : ClockInv d := by
  induction h with
  | init d => exact clockInv_init d
  | step _ hm ih => exact clockInv_step hm ih
  | undo _ h0 ht ih => exact clockInv_undo ht h0 ih

theorem xor_one_xor_one (n : Nat) : n ^^^ 1 ^^^ 1 = n := by
  rw [Nat.xor_assoc, Nat.xor_self, Nat.xor_zero]

theorem Data.ext' {a b : Data}
    (h1 : a.color = b.color) (h2 : a.piece = b.piece) (h3 : a.side = b.side)
    (h4 : a.xside = b.xside) (h5 : a.castle = b.castle) (h6 : a.ep = b.ep)
    (h7 : a.fifty = b.fifty) (h8 : a.hash = b.hash) (h9 : a.ply = b.ply)
    (h10 : a.hply = b.hply) (h11 : a.histDat = b.histDat) (h12 : a.history = b.history)
    (h13 : a.hashPiece = b.hashPiece) (h14 : a.hashSide = b.hashSide)
    (h15 : a.hashEp = b.hashEp) (h16 : a.pv = b.pv) (h17 : a.pvLength = b.pvLength)
    (h18 : a.followPv = b.followPv) (h19 : a.nodes = b.nodes)
    (h20 : a.maxDepth = b.maxDepth) : a = b := by
  cases a
  cases b
  simp only at h1 h2 h3 h4 h5 h6 h7 h8 h9 h10 h11 h12 h13 h14 h15 h16 h17 h18 h19 h20
  subst h1 h2 h3 h4 h5 h6 h7 h8 h9 h10 h11 h12 h13 h14 h15 h16 h17 h18 h19 h20
  rfl

theorem takeback_set_hash (d : Data) : takeback (set_hash d) = takeback d := rfl

theorem castlePre_true_elim {d : Data} {m : MoveB} {b0 : Board}
    (h : castlePre d m = some (some b0)) :
    (m.bits &&& 2 = 0 ∧ b0 = (d.color, d.piece)) ∨
    (m.bits &&& 2 ≠ 0 ∧ in_check d d.side = some false ∧
      ((m.toSq = 62 ∧ d.color F1 = EMPTY ∧ d.color G1 = EMPTY ∧
         b0 = boardMove (d.color, d.piece) H1 F1) ∨
       (m.toSq = 58 ∧ d.color B1 = EMPTY ∧ d.color C1 = EMPTY ∧ d.color D1 = EMPTY ∧
         b0 = boardMove (d.color, d.piece) A1 D1) ∨
       (m.toSq = 6 ∧ d.color F8 = EMPTY ∧ d.color G8 = EMPTY ∧
         b0 = boardMove (d.color, d.piece) H8 F8) ∨
       (m.toSq = 2 ∧ d.color B8 = EMPTY ∧ d.color C8 = EMPTY ∧ d.color D8 = EMPTY ∧
         b0 = boardMove (d.color, d.piece) A8 D8))) := by
  unfold castlePre at h
  by_cases hb : m.bits &&& 2 ≠ 0
  · rw [if_pos hb] at h
    refine Or.inr ⟨hb, ?_⟩
    cases hk : in_check d d.side with
    | none => rw [hk] at h; exact absurd h (by simp)
    | some bk =>
      rw [hk] at h
      cases bk with
      | true => dsimp only at h; simp at h
      | false =>
        dsimp only at h
        refine ⟨rfl, ?_⟩
        by_cases ht1 : m.toSq = 62
        · rw [if_pos ht1] at h
          split at h
          · exact absurd h (by simp)
          · rename_i hc
            push_neg at hc
            simp only [Option.some_inj] at h
            exact Or.inl ⟨ht1, hc.1, hc.2.1, h.symm⟩
        · rw [if_neg ht1] at h
          by_cases ht2 : m.toSq = 58
          · rw [if_pos ht2] at h
            split at h
            · exact absurd h (by simp)
            · rename_i hc
              push_neg at hc
              simp only [Option.some_inj] at h
              exact Or.inr (Or.inl ⟨ht2, hc.1, hc.2.1, hc.2.2.1, h.symm⟩)
          · rw [if_neg ht2] at h
            by_cases ht3 : m.toSq = 6
            · rw [if_pos ht3] at h
              split at h
              · exact absurd h (by simp)
              · rename_i hc
                push_neg at hc
                simp only [Option.some_inj] at h
                exact Or.inr (Or.inr (Or.inl ⟨ht3, hc.1, hc.2.1, h.symm⟩))
            · rw [if_neg ht3] at h
              by_cases ht4 : m.toSq = 2
              · rw [if_pos ht4] at h
                split at h
                · exact absurd h (by simp)
                · rename_i hc
                  push_neg at hc
                  simp only [Option.some_inj] at h
                  exact Or.inr (Or.inr (Or.inr ⟨ht4, hc.1, hc.2.1, hc.2.2.1, h.symm⟩))
              · rw [if_neg ht4] at h
                exact absurd h (by simp)
  · rw [if_neg hb] at h
    push_neg at hb
    simp only [Option.some_inj] at h
    exact Or.inl ⟨hb, h.symm⟩

theorem castleRestore_id {m : MoveB} (h : m.bits &&& 2 = 0) (side : Nat) (b : Board) :
    castleRestore m side b = some b := by
  unfold castleRestore
  rw [if_neg (by simp [h])]

theorem epRestore_id {m : MoveB} (h : m.bits &&& 4 = 0) (side xside : Nat) (b : Board) :
    epRestore m side xside b = some b := by
  unfold epRestore
  rw [if_neg (by simp [h])]

theorem epClear_id {d : Data} {m : MoveB} (h : m.bits &&& 4 = 0) (b : Board) :
    epClear d m b = some b := by
  unfold epClear
  rw [if_neg (by simp [h])]

theorem updf_updf_same {α : Type} (f : Nat → α) (i : Nat) (x y : α) :
    updf (updf f i x) i y = updf f i y := by
  funext j
  simp only [updf]
  split <;> rfl

theorem takeback_mid_basic {d : Data} {m : MoveB} {d5 : Data}
    (hb2 : m.bits &&& 2 = 0) (hb4 : m.bits &&& 4 = 0)
    (hside : (d.side = LIGHT ∧ d.xside = DARK) ∨ (d.side = DARK ∧ d.xside = LIGHT))
    (hW1 : ∀ i, i < 64 → (d.color i = EMPTY ↔ d.piece i = EMPTY))
    (hf : m.fromSq < 64) (ht : m.toSq < 64)
    (hcf : d.color m.fromSq = d.side)
    (hct : d.color m.toSq = d.xside ∨ d.color m.toSq = EMPTY)
    (hpr : m.bits &&& 32 ≠ 0 → d.piece m.fromSq = PAWN)
    (hmid : makemoveMid d m (d.color, d.piece) = some d5) :
    ∃ d'', takeback d5 = some d'' ∧ SamePos d'' d := by
  have hxe : d.xside ≠ EMPTY := by
    rcases hside with ⟨h1, h2⟩ | ⟨h1, h2⟩ <;> rw [h2] <;> decide
  have hse : d.side ≠ EMPTY := by
    rcases hside with ⟨h1, h2⟩ | ⟨h1, h2⟩ <;> rw [h1] <;> decide
  have hsx : d.side ≠ d.xside := by
    rcases hside with ⟨h1, h2⟩ | ⟨h1, h2⟩ <;> rw [h1, h2] <;> decide
  have hft : m.fromSq ≠ m.toSq := by
    intro he
    rw [he] at hcf
    rcases hct with hc | hc
    · exact hsx (hcf.symm.trans hc)
    · exact hse (hcf.symm.trans hc)
  unfold makemoveMid at hmid
  simp only [epClear_id hb4, Option.map_some', Option.some_inj] at hmid
  subst hmid
  unfold takeback
  simp only [Nat.add_sub_cancel, updf_same, xor_one_xor_one]
  rw [castleRestore_id hb2]
  simp only [Option.some_bind]
  rw [epRestore_id hb4]
  simp only [Option.map_some']
  refine ⟨_, rfl, ?_, ?_, rfl, rfl, rfl, rfl, rfl, rfl, rfl, rfl⟩
  · -- the color board is restored
    by_cases hcap : d.piece m.toSq = EMPTY
    · rw [if_pos hcap]
      funext j
      simp only [updf]
      by_cases hjt : j = m.toSq
      · rw [if_pos hjt, hjt]
        exact ((hW1 m.toSq ht).mpr hcap).symm
      · rw [if_neg hjt]
        by_cases hjf : j = m.fromSq
        · rw [if_pos hjf, hjf]
          exact hcf.symm
        · rw [if_neg hjf, if_neg hjf, if_neg hjt]
    · rw [if_neg hcap]
      funext j
      simp only [updf]
      by_cases hjt : j = m.toSq
      · rw [if_pos hjt, hjt]
        rcases hct with hc | hc
        · exact hc.symm
        · exact absurd ((hW1 m.toSq ht).mp hc) hcap
      · rw [if_neg hjt]
        by_cases hjf : j = m.fromSq
        · rw [if_pos hjf, hjf]
          exact hcf.symm
        · rw [if_neg hjf, if_neg hjf, if_neg hjt]
  · -- the piece board is restored
    by_cases hcap : d.piece m.toSq = EMPTY
    · rw [if_pos hcap]
      funext j
      simp only [updf]
      by_cases hjt : j = m.toSq
      · rw [if_pos hjt, hjt]
        exact hcap.symm
      · rw [if_neg hjt]
        by_cases hjf : j = m.fromSq
        · rw [if_pos hjf, hjf]
          by_cases h32 : m.bits &&& 32 ≠ 0
          · rw [if_pos h32]
            exact (hpr h32).symm
          · rw [if_neg h32, if_neg (fun he : m.toSq = m.fromSq => hft he.symm)]
            simp [h32]
        · rw [if_neg hjf, if_neg hjf, if_neg hjt]
    · rw [if_neg hcap]
      funext j
      simp only [updf]
      by_cases hjt : j = m.toSq
      · rw [if_pos hjt, hjt]
      · rw [if_neg hjt]
        by_cases hjf : j = m.fromSq
        · rw [if_pos hjf, hjf]
          by_cases h32 : m.bits &&& 32 ≠ 0
          · rw [if_pos h32]
            exact (hpr h32).symm
          · rw [if_neg h32, if_neg (fun he : m.toSq = m.fromSq => hft he.symm)]
            simp [h32]
        · rw [if_neg hjf, if_neg hjf, if_neg hjt]

theorem epClear_eq {d : Data} {m : MoveB} {q : Nat} (b : Board)
    (hb4 : m.bits &&& 4 ≠ 0)
    (hq : (if d.side = LIGHT then (m.toSq : Int) + 8 else (m.toSq : Int) - 8) = (q : Int))
    (hq63 : q ≤ 63) :
    epClear d m b = some (updf b.1 q EMPTY, updf b.2 q EMPTY) := by
  unfold epClear
  rw [if_pos hb4]
  simp only [hq]
  rw [if_neg (by omega)]
  simp

theorem epRestore_eq {m : MoveB} {side : Nat} (xside : Nat) {q : Nat} (b : Board)
    (hb4 : m.bits &&& 4 ≠ 0)
    (hq : (if side = LIGHT then (m.toSq : Int) + 8 else (m.toSq : Int) - 8) = (q : Int))
    (hq63 : q ≤ 63) :
    epRestore m side xside b = some (updf b.1 q xside, updf b.2 q PAWN) := by
  unfold epRestore
  rw [if_pos hb4]
  simp only [hq]
  rw [if_neg (by omega)]
  simp

theorem takeback_mid_ep {d : Data} {m : MoveB} {d5 : Data} {q : Nat}
    (hbits : m.bits = 21)
    (hside : (d.side = LIGHT ∧ d.xside = DARK) ∨ (d.side = DARK ∧ d.xside = LIGHT))
    (hW1 : ∀ i, i < 64 → (d.color i = EMPTY ↔ d.piece i = EMPTY))
    (ht : m.toSq < 64)
    (hcf : d.color m.fromSq = d.side)
    (hcte : d.color m.toSq = EMPTY)
    (hq : (if d.side = LIGHT then (m.toSq : Int) + 8 else (m.toSq : Int) - 8) = (q : Int))
    (hq63 : q ≤ 63)
    (hcq : d.color q = d.xside)
    (hpq : d.piece q = PAWN)
    (hmid : makemoveMid d m (d.color, d.piece) = some d5) :
    ∃ d'', takeback d5 = some d'' ∧ SamePos d'' d := by
  have hxe : d.xside ≠ EMPTY := by
    rcases hside with ⟨h1, h2⟩ | ⟨h1, h2⟩ <;> rw [h2] <;> decide
  have hse : d.side ≠ EMPTY := by
    rcases hside with ⟨h1, h2⟩ | ⟨h1, h2⟩ <;> rw [h1] <;> decide
  have hsx : d.side ≠ d.xside := by
    rcases hside with ⟨h1, h2⟩ | ⟨h1, h2⟩ <;> rw [h1, h2] <;> decide
  have hb2 : m.bits &&& 2 = 0 := by rw [hbits]; decide
  have hb4 : m.bits &&& 4 ≠ 0 := by rw [hbits]; decide
  have hb32 : ¬(m.bits &&& 32 ≠ 0) := by rw [hbits]; decide
  have hft : m.fromSq ≠ m.toSq := fun he => hse (hcf.symm.trans (he ▸ hcte))
  have hqf : q ≠ m.fromSq := by
    intro he
    rw [he, hcf] at hcq
    exact hsx hcq
  have hqt : q ≠ m.toSq := by
    intro he
    rw [he, hcte] at hcq
    exact hxe hcq.symm
  have hpte : d.piece m.toSq = EMPTY := (hW1 m.toSq ht).mp hcte
  unfold makemoveMid at hmid
  simp only [epClear_eq _ hb4 hq hq63, Option.map_some', Option.some_inj] at hmid
  subst hmid
  unfold takeback
  simp only [Nat.add_sub_cancel, updf_same, xor_one_xor_one]
  rw [castleRestore_id hb2]
  simp only [Option.some_bind]
  rw [epRestore_eq _ _ hb4 hq hq63]
  simp only [Option.map_some']
  refine ⟨_, rfl, ?_, ?_, rfl, rfl, rfl, rfl, rfl, rfl, rfl, rfl⟩
  · -- the color board is restored
    rw [if_pos hpte]
    funext j
    simp only [updf]
    by_cases hjq : j = q
    · rw [if_pos hjq, hjq]
      exact hcq.symm
    · rw [if_neg hjq]
      by_cases hjt : j = m.toSq
      · rw [if_pos hjt, hjt]
        exact hcte.symm
      · rw [if_neg hjt]
        by_cases hjf : j = m.fromSq
        · rw [if_pos hjf, hjf]
          exact hcf.symm
        · rw [if_neg hjf, if_neg hjq, if_neg hjf, if_neg hjt]
  · -- the piece board is restored
    rw [if_pos hpte]
    funext j
    simp only [updf]
    by_cases hjq : j = q
    · rw [if_pos hjq, hjq]
      exact hpq.symm
    · rw [if_neg hjq]
      by_cases hjt : j = m.toSq
      · rw [if_pos hjt, hjt]
        exact hpte.symm
      · rw [if_neg hjt]
        by_cases hjf : j = m.fromSq
        · rw [if_pos hjf, hjf]
          rw [if_neg hb32, if_neg (fun he : m.toSq = q => hqt he.symm),
              if_neg (fun he : m.toSq = m.fromSq => hft he.symm)]
          simp [hb32]
        · rw [if_neg hjf, if_neg hjq, if_neg hjf, if_neg hjt]

theorem castleRestore_eq62 {m : MoveB} (hb : m.bits &&& 2 ≠ 0) (hmt : m.toSq = 62)
    (side : Nat) (b : Board) :
    castleRestore m side b =
      some (updf (updf b.1 H1 side) F1 EMPTY, updf (updf b.2 H1 ROOK) F1 EMPTY) := by
  unfold castleRestore
  rw [if_pos hb, if_pos hmt]
  rfl

theorem takeback_mid_c62 {d : Data} {d5 : Data} {m : MoveB}
    (hmb : m.bits = 2) (hmf : m.fromSq = 60) (hmt : m.toSq = 62)
    (hs : d.side = LIGHT)
    (hW1 : ∀ i, i < 64 → (d.color i = EMPTY ↔ d.piece i = EMPTY))
    (hk : d.color 60 = LIGHT)
    (h61 : d.color 61 = EMPTY) (h62 : d.color 62 = EMPTY)
    (hrc : d.color 63 = LIGHT) (hrp : d.piece 63 = ROOK)
    (hmid : makemoveMid d m (boardMove (d.color, d.piece) H1 F1) = some d5) :
    ∃ d'', takeback d5 = some d'' ∧ SamePos d'' d := by
  have h61p : d.piece 61 = EMPTY := (hW1 61 (by decide)).mp h61
  have h62p : d.piece 62 = EMPTY := (hW1 62 (by decide)).mp h62
  have hb2 : m.bits &&& 2 ≠ 0 := by rw [hmb]; decide
  have hb4 : m.bits &&& 4 = 0 := by rw [hmb]; decide
  have hb32 : ¬(m.bits &&& 32 ≠ 0) := by rw [hmb]; decide
  have hcap : (boardMove (d.color, d.piece) H1 F1).2 m.toSq = EMPTY := by
    rw [hmt]
    show updf (updf d.piece F1 (d.piece H1)) H1 EMPTY 62 = EMPTY
    rw [updf_other _ _ _ _ (by decide), updf_other _ _ _ _ (by decide)]
    exact h62p
  unfold makemoveMid at hmid
  simp only [epClear_id hb4, Option.map_some', Option.some_inj] at hmid
  subst hmid
  unfold takeback
  simp only [Nat.add_sub_cancel, updf_same, xor_one_xor_one]
  rw [if_pos hcap]
  rw [castleRestore_eq62 hb2 hmt]
  simp only [Option.some_bind]
  rw [epRestore_id hb4]
  simp only [Option.map_some']
  refine ⟨_, rfl, ?_, ?_, rfl, rfl, rfl, rfl, rfl, rfl, rfl, rfl⟩
  · -- the color board is restored
    rw [hmf, hmt]
    funext j
    simp only [boardMove, updf, F1, H1]
    by_cases h1 : j = 61
    · rw [if_pos h1, h1]
      exact h61.symm
    · rw [if_neg h1]
      by_cases h2 : j = 63
      · rw [if_pos h2, h2, hs]
        exact hrc.symm
      · rw [if_neg h2]
        by_cases h3 : j = 62
        · rw [if_pos h3, h3]
          exact h62.symm
        · rw [if_neg h3]
          by_cases h4 : j = 60
          · rw [if_pos h4, h4, hs]
            exact hk.symm
          · rw [if_neg h4, if_neg h4, if_neg h3, if_neg h2, if_neg h1]
  · -- the piece board is restored
    rw [hmf, hmt]
    funext j
    simp only [boardMove, updf, F1, H1]
    by_cases h1 : j = 61
    · rw [if_pos h1, h1]
      exact h61p.symm
    · rw [if_neg h1]
      by_cases h2 : j = 63
      · rw [if_pos h2, h2]
        exact hrp.symm
      · rw [if_neg h2]
        by_cases h3 : j = 62
        · rw [if_pos h3, h3]
          exact h62p.symm
        · rw [if_neg h3]
          by_cases h4 : j = 60
          · rw [if_pos h4, h4]
            simp [hb32]
          · rw [if_neg h4, if_neg h4, if_neg h3, if_neg h2, if_neg h1]

theorem castleRestore_eq58 {m : MoveB} (hb : m.bits &&& 2 ≠ 0) (hmt : m.toSq = 58)
    (side : Nat) (b : Board) :
    castleRestore m side b =
      some (updf (updf b.1 A1 side) D1 EMPTY, updf (updf b.2 A1 ROOK) D1 EMPTY) := by
  unfold castleRestore
  rw [if_pos hb]
  rw [if_neg (by rw [hmt]; decide), if_pos hmt]
  rfl

theorem castleRestore_eq6 {m : MoveB} (hb : m.bits &&& 2 ≠ 0) (hmt : m.toSq = 6)
    (side : Nat) (b : Board) :
    castleRestore m side b =
      some (updf (updf b.1 H8 side) F8 EMPTY, updf (updf b.2 H8 ROOK) F8 EMPTY) := by
  unfold castleRestore
  rw [if_pos hb]
  rw [if_neg (by rw [hmt]; decide), if_neg (by rw [hmt]; decide), if_pos hmt]
  rfl

theorem castleRestore_eq2 {m : MoveB} (hb : m.bits &&& 2 ≠ 0) (hmt : m.toSq = 2)
    (side : Nat) (b : Board) :
    castleRestore m side b =
      some (updf (updf b.1 A8 side) D8 EMPTY, updf (updf b.2 A8 ROOK) D8 EMPTY) := by
  unfold castleRestore
  rw [if_pos hb]
  rw [if_neg (by rw [hmt]; decide), if_neg (by rw [hmt]; decide),
      if_neg (by rw [hmt]; decide), if_pos hmt]
  rfl

theorem takeback_mid_c58 {d : Data} {d5 : Data} {m : MoveB}
    (hmb : m.bits = 2) (hmf : m.fromSq = 60) (hmt : m.toSq = 58)
    (hs : d.side = LIGHT)
    (hW1 : ∀ i, i < 64 → (d.color i = EMPTY ↔ d.piece i = EMPTY))
    (hk : d.color 60 = LIGHT)
    (h58 : d.color 58 = EMPTY) (h59 : d.color 59 = EMPTY)
    (hrc : d.color 56 = LIGHT) (hrp : d.piece 56 = ROOK)
    (hmid : makemoveMid d m (boardMove (d.color, d.piece) A1 D1) = some d5) :
    ∃ d'', takeback d5 = some d'' ∧ SamePos d'' d := by
  have h58p : d.piece 58 = EMPTY := (hW1 58 (by decide)).mp h58
  have h59p : d.piece 59 = EMPTY := (hW1 59 (by decide)).mp h59
  have hb2 : m.bits &&& 2 ≠ 0 := by rw [hmb]; decide
  have hb4 : m.bits &&& 4 = 0 := by rw [hmb]; decide
  have hb32 : ¬(m.bits &&& 32 ≠ 0) := by rw [hmb]; decide
  have hcap : (boardMove (d.color, d.piece) A1 D1).2 m.toSq = EMPTY := by
    rw [hmt]
    show updf (updf d.piece D1 (d.piece A1)) A1 EMPTY 58 = EMPTY
    rw [updf_other _ _ _ _ (by decide), updf_other _ _ _ _ (by decide)]
    exact h58p
  unfold makemoveMid at hmid
  simp only [epClear_id hb4, Option.map_some', Option.some_inj] at hmid
  subst hmid
  unfold takeback
  simp only [Nat.add_sub_cancel, updf_same, xor_one_xor_one]
  rw [if_pos hcap]
  rw [castleRestore_eq58 hb2 hmt]
  simp only [Option.some_bind]
  rw [epRestore_id hb4]
  simp only [Option.map_some']
  refine ⟨_, rfl, ?_, ?_, rfl, rfl, rfl, rfl, rfl, rfl, rfl, rfl⟩
  · -- the color board is restored
    rw [hmf, hmt]
    funext j
    simp only [boardMove, updf, A1, D1]
    by_cases h1 : j = 59
    · rw [if_pos h1, h1]
      exact h59.symm
    · rw [if_neg h1]
      by_cases h2 : j = 56
      · rw [if_pos h2, h2, hs]
        exact hrc.symm
      · rw [if_neg h2]
        by_cases h3 : j = 58
        · rw [if_pos h3, h3]
          exact h58.symm
        · rw [if_neg h3]
          by_cases h4 : j = 60
          · rw [if_pos h4, h4, hs]
            exact hk.symm
          · rw [if_neg h4, if_neg h4, if_neg h3, if_neg h2, if_neg h1]
  · -- the piece board is restored
    rw [hmf, hmt]
    funext j
    simp only [boardMove, updf, A1, D1]
    by_cases h1 : j = 59
    · rw [if_pos h1, h1]
      exact h59p.symm
    · rw [if_neg h1]
      by_cases h2 : j = 56
      · rw [if_pos h2, h2]
        exact hrp.symm
      · rw [if_neg h2]
        by_cases h3 : j = 58
        · rw [if_pos h3, h3]
          exact h58p.symm
        · rw [if_neg h3]
          by_cases h4 : j = 60
          · rw [if_pos h4, h4]
            simp [hb32]
          · rw [if_neg h4, if_neg h4, if_neg h3, if_neg h2, if_neg h1]

theorem takeback_mid_c6 {d : Data} {d5 : Data} {m : MoveB}
    (hmb : m.bits = 2) (hmf : m.fromSq = 4) (hmt : m.toSq = 6)
    (hs : d.side = DARK)
    (hW1 : ∀ i, i < 64 → (d.color i = EMPTY ↔ d.piece i = EMPTY))
    (hk : d.color 4 = DARK)
    (h5 : d.color 5 = EMPTY) (h6 : d.color 6 = EMPTY)
    (hrc : d.color 7 = DARK) (hrp : d.piece 7 = ROOK)
    (hmid : makemoveMid d m (boardMove (d.color, d.piece) H8 F8) = some d5) :
    ∃ d'', takeback d5 = some d'' ∧ SamePos d'' d := by
  have h5p : d.piece 5 = EMPTY := (hW1 5 (by decide)).mp h5
  have h6p : d.piece 6 = EMPTY := (hW1 6 (by decide)).mp h6
  have hb2 : m.bits &&& 2 ≠ 0 := by rw [hmb]; decide
  have hb4 : m.bits &&& 4 = 0 := by rw [hmb]; decide
  have hb32 : ¬(m.bits &&& 32 ≠ 0) := by rw [hmb]; decide
  have hcap : (boardMove (d.color, d.piece) H8 F8).2 m.toSq = EMPTY := by
    rw [hmt]
    show updf (updf d.piece F8 (d.piece H8)) H8 EMPTY 6 = EMPTY
    rw [updf_other _ _ _ _ (by decide), updf_other _ _ _ _ (by decide)]
    exact h6p
  unfold makemoveMid at hmid
  simp only [epClear_id hb4, Option.map_some', Option.some_inj] at hmid
  subst hmid
  unfold takeback
  simp only [Nat.add_sub_cancel, updf_same, xor_one_xor_one]
  rw [if_pos hcap]
  rw [castleRestore_eq6 hb2 hmt]
  simp only [Option.some_bind]
  rw [epRestore_id hb4]
  simp only [Option.map_some']
  refine ⟨_, rfl, ?_, ?_, rfl, rfl, rfl, rfl, rfl, rfl, rfl, rfl⟩
  · -- the color board is restored
    rw [hmf, hmt]
    funext j
    simp only [boardMove, updf, F8, H8]
    by_cases h1 : j = 5
    · rw [if_pos h1, h1]
      exact h5.symm
    · rw [if_neg h1]
      by_cases h2 : j = 7
      · rw [if_pos h2, h2, hs]
        exact hrc.symm
      · rw [if_neg h2]
        by_cases h3 : j = 6
        · rw [if_pos h3, h3]
          exact h6.symm
        · rw [if_neg h3]
          by_cases h4 : j = 4
          · rw [if_pos h4, h4, hs]
            exact hk.symm
          · rw [if_neg h4, if_neg h4, if_neg h3, if_neg h2, if_neg h1]
  · -- the piece board is restored
    rw [hmf, hmt]
    funext j
    simp only [boardMove, updf, F8, H8]
    by_cases h1 : j = 5
    · rw [if_pos h1, h1]
      exact h5p.symm
    · rw [if_neg h1]
      by_cases h2 : j = 7
      · rw [if_pos h2, h2]
        exact hrp.symm
      · rw [if_neg h2]
        by_cases h3 : j = 6
        · rw [if_pos h3, h3]
          exact h6p.symm
        · rw [if_neg h3]
          by_cases h4 : j = 4
          · rw [if_pos h4, h4]
            simp [hb32]
          · rw [if_neg h4, if_neg h4, if_neg h3, if_neg h2, if_neg h1]

theorem takeback_mid_c2 {d : Data} {d5 : Data} {m : MoveB}
    (hmb : m.bits = 2) (hmf : m.fromSq = 4) (hmt : m.toSq = 2)
    (hs : d.side = DARK)
    (hW1 : ∀ i, i < 64 → (d.color i = EMPTY ↔ d.piece i = EMPTY))
    (hk : d.color 4 = DARK)
    (hc2 : d.color 2 = EMPTY) (hc3 : d.color 3 = EMPTY)
    (hrc : d.color 0 = DARK) (hrp : d.piece 0 = ROOK)
    (hmid : makemoveMid d m (boardMove (d.color, d.piece) A8 D8) = some d5) :
    ∃ d'', takeback d5 = some d'' ∧ SamePos d'' d := by
  have hc2p : d.piece 2 = EMPTY := (hW1 2 (by decide)).mp hc2
  have hc3p : d.piece 3 = EMPTY := (hW1 3 (by decide)).mp hc3
  have hb2 : m.bits &&& 2 ≠ 0 := by rw [hmb]; decide
  have hb4 : m.bits &&& 4 = 0 := by rw [hmb]; decide
  have hb32 : ¬(m.bits &&& 32 ≠ 0) := by rw [hmb]; decide
  have hcap : (boardMove (d.color, d.piece) A8 D8).2 m.toSq = EMPTY := by
    rw [hmt]
    show updf (updf d.piece D8 (d.piece A8)) A8 EMPTY 2 = EMPTY
    rw [updf_other _ _ _ _ (by decide), updf_other _ _ _ _ (by decide)]
    exact hc2p
  unfold makemoveMid at hmid
  simp only [epClear_id hb4, Option.map_some', Option.some_inj] at hmid
  subst hmid
  unfold takeback
  simp only [Nat.add_sub_cancel, updf_same, xor_one_xor_one]
  rw [if_pos hcap]
  rw [castleRestore_eq2 hb2 hmt]
  simp only [Option.some_bind]
  rw [epRestore_id hb4]
  simp only [Option.map_some']
  refine ⟨_, rfl, ?_, ?_, rfl, rfl, rfl, rfl, rfl, rfl, rfl, rfl⟩
  · -- the color board is restored
    rw [hmf, hmt]
    funext j
    simp only [boardMove, updf, A8, D8]
    by_cases h1 : j = 3
    · rw [if_pos h1, h1]
      exact hc3.symm
    · rw [if_neg h1]
      by_cases h2 : j = 0
      · rw [if_pos h2, h2, hs]
        exact hrc.symm
      · rw [if_neg h2]
        by_cases h3 : j = 2
        · rw [if_pos h3, h3]
          exact hc2.symm
        · rw [if_neg h3]
          by_cases h4 : j = 4
          · rw [if_pos h4, h4, hs]
            exact hk.symm
          · rw [if_neg h4, if_neg h4, if_neg h3, if_neg h2, if_neg h1]
  · -- the piece board is restored
    rw [hmf, hmt]
    funext j
    simp only [boardMove, updf, A8, D8]
    by_cases h1 : j = 3
    · rw [if_pos h1, h1]
      exact hc3p.symm
    · rw [if_neg h1]
      by_cases h2 : j = 0
      · rw [if_pos h2, h2]
        exact hrp.symm
      · rw [if_neg h2]
        by_cases h3 : j = 2
        · rw [if_pos h3, h3]
          exact hc2p.symm
        · rw [if_neg h3]
          by_cases h4 : j = 4
          · rw [if_pos h4, h4]
            simp [hb32]
          · rw [if_neg h4, if_neg h4, if_neg h3, if_neg h2, if_neg h1]

theorem applyW_cons_eq (b : Board) (w : Wr) (ws : List Wr) :
    (applyW b (w :: ws)).1 w.sq = w.cv ∧ (applyW b (w :: ws)).2 w.sq = w.pv := by
  constructor <;> simp [applyW, updf]

theorem applyW_cons_ne {s : Nat} (b : Board) (w : Wr) (ws : List Wr) (h : s ≠ w.sq) :
    (applyW b (w :: ws)).1 s = (applyW b ws).1 s ∧
    (applyW b (w :: ws)).2 s = (applyW b ws).2 s := by
  constructor <;> simp [applyW, updf, h]

theorem applyW_untouched {b : Board} {s : Nat} :
    ∀ ws : List Wr, (∀ w ∈ ws, s ≠ w.sq) →
      (applyW b ws).1 s = b.1 s ∧ (applyW b ws).2 s = b.2 s := by
  intro ws
  induction ws with
  | nil => intro h; exact ⟨rfl, rfl⟩
  | cons w ws ih =>
    intro h
    have h1 := applyW_cons_ne b w ws (h w (List.mem_cons_self w ws))
    have h2 := ih fun w' hw' => h w' (List.mem_cons_of_mem _ hw')
    exact ⟨h1.1.trans h2.1, h1.2.trans h2.2⟩

theorem applyW_W1 {c p : Nat → Nat}
    (h : ∀ i, i < 64 → (c i = EMPTY ↔ p i = EMPTY)) :
    ∀ ws : List Wr, (∀ w ∈ ws, (w.cv = EMPTY ↔ w.pv = EMPTY)) →
      ∀ i, i < 64 →
        ((applyW (c, p) ws).1 i = EMPTY ↔ (applyW (c, p) ws).2 i = EMPTY) := by
  intro ws
  induction ws with
  | nil => intro _ i hi; exact h i hi
  | cons w ws ih =>
    intro hall i hi
    by_cases hiw : i = w.sq
    · subst hiw
      rw [(applyW_cons_eq _ w ws).1, (applyW_cons_eq _ w ws).2]
      exact hall w (List.mem_cons_self w ws)
    · rw [(applyW_cons_ne _ w ws hiw).1, (applyW_cons_ne _ w ws hiw).2]
      exact ih (fun w' hw' => hall w' (List.mem_cons_of_mem _ hw')) i hi

theorem applyW_CV {c p : Nat → Nat}
    (h : ∀ i, i < 64 → c i = LIGHT ∨ c i = DARK ∨ c i = EMPTY) :
    ∀ ws : List Wr, (∀ w ∈ ws, w.cv = LIGHT ∨ w.cv = DARK ∨ w.cv = EMPTY) →
      ∀ i, i < 64 →
        ((applyW (c, p) ws).1 i = LIGHT ∨ (applyW (c, p) ws).1 i = DARK ∨
         (applyW (c, p) ws).1 i = EMPTY) := by
  intro ws
  induction ws with
  | nil => intro _ i hi; exact h i hi
  | cons w ws ih =>
    intro hall i hi
    by_cases hiw : i = w.sq
    · subst hiw
      rw [(applyW_cons_eq _ w ws).1]
      exact hall w (List.mem_cons_self w ws)
    · rw [(applyW_cons_ne _ w ws hiw).1]
      exact ih (fun w' hw' => hall w' (List.mem_cons_of_mem _ hw')) i hi

theorem applyW_PR {c p : Nat → Nat}
    (h : ∀ i, i < 64 → c i ≠ EMPTY → p i = PAWN → 8 ≤ i ∧ i < 56) :
    ∀ ws : List Wr, (∀ w ∈ ws, w.cv ≠ EMPTY → w.pv = PAWN → 8 ≤ w.sq ∧ w.sq < 56) →
      ∀ i, i < 64 →
        (applyW (c, p) ws).1 i ≠ EMPTY → (applyW (c, p) ws).2 i = PAWN →
          8 ≤ i ∧ i < 56 := by
  intro ws
  induction ws with
  | nil => intro _ i hi; exact h i hi
  | cons w ws ih =>
    intro hall i hi hc hp
    by_cases hiw : i = w.sq
    · subst hiw
      rw [(applyW_cons_eq _ w ws).1] at hc
      rw [(applyW_cons_eq _ w ws).2] at hp
      exact hall w (List.mem_cons_self w ws) hc hp
    · rw [(applyW_cons_ne _ w ws hiw).1] at hc
      rw [(applyW_cons_ne _ w ws hiw).2] at hp
      exact ih (fun w' hw' => hall w' (List.mem_cons_of_mem _ hw')) i hi hc hp

theorem and_pow2_ne {x j : Nat} : x &&& 2 ^ j ≠ 0 ↔ x.testBit j := by
  rw [Nat.and_two_pow]
  cases h : x.testBit j <;> simp

theorem and_mask_bit {a M k : Nat} (hp : k = 1 ∨ k = 2 ∨ k = 4 ∨ k = 8)
    (h : a &&& M &&& k ≠ 0) : a &&& k ≠ 0 ∧ M &&& k ≠ 0 := by
  have h1 : ∃ j, k = 2 ^ j := by
    rcases hp with rfl | rfl | rfl | rfl
    · exact ⟨0, rfl⟩
    · exact ⟨1, rfl⟩
    · exact ⟨2, rfl⟩
    · exact ⟨3, rfl⟩
  obtain ⟨j, rfl⟩ := h1
  have h2 := and_pow2_ne.mp h
  rw [Nat.testBit_and] at h2
  rw [Bool.and_eq_true] at h2
  exact ⟨and_pow2_ne.mpr h2.1, and_pow2_ne.mpr h2.2⟩

theorem side_flip {s x : Nat} (h : (s = LIGHT ∧ x = DARK) ∨ (s = DARK ∧ x = LIGHT)) :
    (s ^^^ 1 = LIGHT ∧ x ^^^ 1 = DARK) ∨ (s ^^^ 1 = DARK ∧ x ^^^ 1 = LIGHT) := by
  rcases h with ⟨h1, h2⟩ | ⟨h1, h2⟩ <;> subst h1 <;> subst h2
  · exact Or.inr ⟨rfl, rfl⟩
  · exact Or.inl ⟨rfl, rfl⟩

theorem mask_bit1 {s : Nat} (h : CASTLE_MASK.getD s 15 &&& 1 ≠ 0) : s ≠ 60 ∧ s ≠ 63 := by
  constructor <;> rintro rfl <;> exact h (by decide)

theorem mask_bit2 {s : Nat} (h : CASTLE_MASK.getD s 15 &&& 2 ≠ 0) : s ≠ 60 ∧ s ≠ 56 := by
  constructor <;> rintro rfl <;> exact h (by decide)

theorem mask_bit4 {s : Nat} (h : CASTLE_MASK.getD s 15 &&& 4 ≠ 0) : s ≠ 4 ∧ s ≠ 7 := by
  constructor <;> rintro rfl <;> exact h (by decide)

theorem mask_bit8 {s : Nat} (h : CASTLE_MASK.getD s 15 &&& 8 ≠ 0) : s ≠ 4 ∧ s ≠ 0 := by
  constructor <;> rintro rfl <;> exact h (by decide)

theorem makemoveMid_boards_noep {d : Data} {m : MoveB} {b0 : Board} {d5 : Data}
    (hb4 : m.bits &&& 4 = 0) (hmid : makemoveMid d m b0 = some d5) :
    d5.color = (applyW b0 [⟨m.fromSq, EMPTY, EMPTY⟩,
      ⟨m.toSq, d.side, if m.bits &&& 32 ≠ 0 then m.promote else b0.2 m.fromSq⟩]).1 ∧
    d5.piece = (applyW b0 [⟨m.fromSq, EMPTY, EMPTY⟩,
      ⟨m.toSq, d.side, if m.bits &&& 32 ≠ 0 then m.promote else b0.2 m.fromSq⟩]).2 := by
  unfold makemoveMid at hmid
  simp only [epClear_id hb4, Option.map_some', Option.some_inj] at hmid
  subst hmid
  exact ⟨rfl, rfl⟩

theorem makemoveMid_boards_ep {d : Data} {m : MoveB} {b0 : Board} {d5 : Data} {q : Nat}
    (hb4 : m.bits &&& 4 ≠ 0)
    (hq : (if d.side = LIGHT then (m.toSq : Int) + 8 else (m.toSq : Int) - 8) = (q : Int))
    (hq63 : q ≤ 63)
    (hmid : makemoveMid d m b0 = some d5) :
    d5.color = (applyW b0 [⟨q, EMPTY, EMPTY⟩, ⟨m.fromSq, EMPTY, EMPTY⟩,
      ⟨m.toSq, d.side, if m.bits &&& 32 ≠ 0 then m.promote else b0.2 m.fromSq⟩]).1 ∧
    d5.piece = (applyW b0 [⟨q, EMPTY, EMPTY⟩, ⟨m.fromSq, EMPTY, EMPTY⟩,
      ⟨m.toSq, d.side, if m.bits &&& 32 ≠ 0 then m.promote else b0.2 m.fromSq⟩]).2 := by
  unfold makemoveMid at hmid
  simp only [epClear_eq _ hb4 hq hq63, Option.map_some', Option.some_inj] at hmid
  subst hmid
  exact ⟨rfl, rfl⟩

theorem WF_mid_plain {d : Data} {m : MoveB} {d5 : Data}
    (hW : WF d)
    (hb4 : m.bits &&& 4 = 0)
    (hcf : d.color m.fromSq = d.side)
    (hPT : (if m.bits &&& 32 ≠ 0 then m.promote else d.piece m.fromSq) ≠ EMPTY)
    (hPR : (if m.bits &&& 32 ≠ 0 then m.promote else d.piece m.fromSq) = PAWN →
           8 ≤ m.toSq ∧ m.toSq < 56)
    (hep : m.bits &&& 8 ≠ 0 →
      m.bits &&& 32 = 0 ∧ d.piece m.fromSq = PAWN ∧
      ((d.side = LIGHT ∧ m.toSq + 16 = m.fromSq ∧ 48 ≤ m.fromSq ∧ m.fromSq < 56 ∧
         d.color (m.fromSq - 8) = EMPTY) ∨
       (d.side = DARK ∧ m.toSq = m.fromSq + 16 ∧ 8 ≤ m.fromSq ∧ m.fromSq ≤ 15 ∧
         d.color (m.fromSq + 8) = EMPTY)))
    (hmid : makemoveMid d m (d.color, d.piece) = some d5) :
    WF d5 := by
  obtain ⟨hW1, hW2, hW3, hW4, hW5, hW6, hW7, hW8, hW9⟩ := hW
  obtain ⟨hbc, hbp⟩ := makemoveMid_boards_noep hb4 hmid
  obtain ⟨hsd, hxs, _, _, _, hcst, hepv, _, _, _, _, _, _, _, _, _, _, _⟩ :=
    makemoveMid_fields hmid
  have hse : d.side ≠ EMPTY := by
    rcases hW1 with ⟨h1, _⟩ | ⟨h1, _⟩ <;> rw [h1] <;> decide
  have hpres : ∀ s, s ≠ m.fromSq → s ≠ m.toSq →
      d5.color s = d.color s ∧ d5.piece s = d.piece s := by
    intro s hsf hst
    rw [hbc, hbp]
    exact applyW_untouched _ (by
      intro w hw
      simp only [List.mem_cons, List.not_mem_nil, or_false] at hw
      rcases hw with rfl | rfl
      · exact hsf
      · exact hst)
  refine ⟨?_, ?_, ?_, ?_, ?_, ?_, ?_, ?_, ?_⟩
  · rw [hsd, hxs]
    exact side_flip hW1
  · rw [hbc, hbp]
    apply applyW_W1 hW2
    intro w hw
    simp only [List.mem_cons, List.not_mem_nil, or_false] at hw
    rcases hw with rfl | rfl
    · simp
    · exact iff_of_false hse hPT
  · rw [hbc]
    apply applyW_CV hW3
    intro w hw
    simp only [List.mem_cons, List.not_mem_nil, or_false] at hw
    rcases hw with rfl | rfl
    · exact Or.inr (Or.inr rfl)
    · rcases hW1 with ⟨h1, _⟩ | ⟨h1, _⟩
      · exact Or.inl h1
      · exact Or.inr (Or.inl h1)
  · rw [hbc, hbp]
    apply applyW_PR hW4
    intro w hw
    simp only [List.mem_cons, List.not_mem_nil, or_false] at hw
    rcases hw with rfl | rfl
    · intro hc
      exact absurd rfl hc
    · intro _ hp
      exact hPR hp
  · intro h1
    rw [hcst] at h1
    obtain ⟨ha, hM⟩ := and_mask_bit (Or.inl rfl) h1
    obtain ⟨hMf, hMt⟩ := and_mask_bit (Or.inl rfl) hM
    obtain ⟨hf1, hf2⟩ := mask_bit1 hMf
    obtain ⟨ht1, ht2⟩ := mask_bit1 hMt
    obtain ⟨o1, o2, o3, o4⟩ := hW5 ha
    have pA := hpres 60 (Ne.symm hf1) (Ne.symm ht1)
    have pB := hpres 63 (Ne.symm hf2) (Ne.symm ht2)
    exact ⟨pA.1.trans o1, pA.2.trans o2, pB.1.trans o3, pB.2.trans o4⟩
  · intro h1
    rw [hcst] at h1
    obtain ⟨ha, hM⟩ := and_mask_bit (Or.inr (Or.inl rfl)) h1
    obtain ⟨hMf, hMt⟩ := and_mask_bit (Or.inr (Or.inl rfl)) hM
    obtain ⟨hf1, hf2⟩ := mask_bit2 hMf
    obtain ⟨ht1, ht2⟩ := mask_bit2 hMt
    obtain ⟨o1, o2, o3, o4⟩ := hW6 ha
    have pA := hpres 60 (Ne.symm hf1) (Ne.symm ht1)
    have pB := hpres 56 (Ne.symm hf2) (Ne.symm ht2)
    exact ⟨pA.1.trans o1, pA.2.trans o2, pB.1.trans o3, pB.2.trans o4⟩
  · intro h1
    rw [hcst] at h1
    obtain ⟨ha, hM⟩ := and_mask_bit (Or.inr (Or.inr (Or.inl rfl))) h1
    obtain ⟨hMf, hMt⟩ := and_mask_bit (Or.inr (Or.inr (Or.inl rfl))) hM
    obtain ⟨hf1, hf2⟩ := mask_bit4 hMf
    obtain ⟨ht1, ht2⟩ := mask_bit4 hMt
    obtain ⟨o1, o2, o3, o4⟩ := hW7 ha
    have pA := hpres 4 (Ne.symm hf1) (Ne.symm ht1)
    have pB := hpres 7 (Ne.symm hf2) (Ne.symm ht2)
    exact ⟨pA.1.trans o1, pA.2.trans o2, pB.1.trans o3, pB.2.trans o4⟩
  · intro h1
    rw [hcst] at h1
    obtain ⟨ha, hM⟩ := and_mask_bit (Or.inr (Or.inr (Or.inr rfl))) h1
    obtain ⟨hMf, hMt⟩ := and_mask_bit (Or.inr (Or.inr (Or.inr rfl))) hM
    obtain ⟨hf1, hf2⟩ := mask_bit8 hMf
    obtain ⟨ht1, ht2⟩ := mask_bit8 hMt
    obtain ⟨o1, o2, o3, o4⟩ := hW8 ha
    have pA := hpres 4 (Ne.symm hf1) (Ne.symm ht1)
    have pB := hpres 0 (Ne.symm hf2) (Ne.symm ht2)
    exact ⟨pA.1.trans o1, pA.2.trans o2, pB.1.trans o3, pB.2.trans o4⟩
  · intro hne
    by_cases h8 : m.bits &&& 8 ≠ 0
    · obtain ⟨h32z, hpf, hcase⟩ := hep h8
      have htf : m.toSq ≠ m.fromSq := by
        rcases hcase with ⟨_, h16, h48, _, _⟩ | ⟨_, h16, h8f, _, _⟩ <;> omega
      have hread : d5.color m.toSq = d.side ∧ d5.piece m.toSq = d.piece m.fromSq := by
        constructor
        · rw [hbc, (applyW_cons_ne _ _ _ htf).1]
          exact (applyW_cons_eq _ _ _).1
        · rw [hbp, (applyW_cons_ne _ _ _ htf).2]
          have h32n : ¬(m.bits &&& 32 ≠ 0) := by simp [h32z]
          have := (applyW_cons_eq ((d.color, d.piece) : Board)
            (⟨m.toSq, d.side, if m.bits &&& 32 ≠ 0 then m.promote
              else (d.color, d.piece).2 m.fromSq⟩ : Wr) []).2
          rw [this, if_neg h32n]
      rcases hcase with ⟨hsl, h16, h48, h56, hmid8⟩ | ⟨hsdk, h16, h8f, h15, hmid8⟩
      · rw [hepv, if_pos h8, if_pos hsl]
        have he : ((m.toSq : Int) + 8).toNat = m.toSq + 8 := by omega
        rw [he]
        refine Or.inr ⟨by rw [hsd, hsl]; decide, by omega, by omega, ?_, ?_, ?_⟩
        · rw [show m.toSq + 8 = m.fromSq - 8 by omega]
          exact (hpres _ (by omega) (by omega)).1.trans hmid8
        · rw [Nat.add_sub_cancel, hread.1, hsl]
        · rw [Nat.add_sub_cancel, hread.2]
          exact hpf
      · have hsnl : ¬(d.side = LIGHT) := by rw [hsdk]; decide
        rw [hepv, if_pos h8, if_neg hsnl]
        have he : ((m.toSq : Int) - 8).toNat = m.toSq - 8 := by omega
        rw [he]
        refine Or.inl ⟨by rw [hsd, hsdk]; decide, by omega, by omega, ?_, ?_, ?_⟩
        · rw [show m.toSq - 8 = m.fromSq + 8 by omega]
          exact (hpres _ (by omega) (by omega)).1.trans hmid8
        · rw [show m.toSq - 8 + 8 = m.toSq by omega, hread.1, hsdk]
        · rw [show m.toSq - 8 + 8 = m.toSq by omega, hread.2]
          exact hpf
    · rw [hepv, if_neg h8] at hne
      exact absurd rfl hne

theorem WF_mid_ep {d : Data} {m : MoveB} {d5 : Data} {q : Nat}
    (hW : WF d)
    (hbits : m.bits = 21)
    (hpf : d.piece m.fromSq = PAWN)
    (hq : (if d.side = LIGHT then (m.toSq : Int) + 8 else (m.toSq : Int) - 8) = (q : Int))
    (hq63 : q ≤ 63)
    (ht8 : 8 ≤ m.toSq) (ht56 : m.toSq < 56)
    (hqb : 24 ≤ q ∧ q ≤ 39)
    (hmid : makemoveMid d m (d.color, d.piece) = some d5) :
    WF d5 := by
  obtain ⟨hW1, hW2, hW3, hW4, hW5, hW6, hW7, hW8, hW9⟩ := hW
  have hb4 : m.bits &&& 4 ≠ 0 := by rw [hbits]; decide
  have h32n : ¬(m.bits &&& 32 ≠ 0) := by rw [hbits]; decide
  have h8n : ¬(m.bits &&& 8 ≠ 0) := by rw [hbits]; decide
  obtain ⟨hbc, hbp⟩ := makemoveMid_boards_ep hb4 hq hq63 hmid
  obtain ⟨hsd, hxs, _, _, _, hcst, hepv, _, _, _, _, _, _, _, _, _, _, _⟩ :=
    makemoveMid_fields hmid
  have hse : d.side ≠ EMPTY := by
    rcases hW1 with ⟨h1, _⟩ | ⟨h1, _⟩ <;> rw [h1] <;> decide
  have hPT : (if m.bits &&& 32 ≠ 0 then m.promote
      else ((d.color, d.piece) : Board).2 m.fromSq) ≠ EMPTY := by
    rw [if_neg h32n]
    show d.piece m.fromSq ≠ EMPTY
    rw [hpf]
    decide
  have hpres : ∀ s, s ≠ q → s ≠ m.fromSq → s ≠ m.toSq →
      d5.color s = d.color s ∧ d5.piece s = d.piece s := by
    intro s hsq hsf hst
    rw [hbc, hbp]
    exact applyW_untouched _ (by
      intro w hw
      simp only [List.mem_cons, List.not_mem_nil, or_false] at hw
      rcases hw with rfl | rfl | rfl
      · exact hsq
      · exact hsf
      · exact hst)
  refine ⟨?_, ?_, ?_, ?_, ?_, ?_, ?_, ?_, ?_⟩
  · rw [hsd, hxs]
    exact side_flip hW1
  · rw [hbc, hbp]
    apply applyW_W1 hW2
    intro w hw
    simp only [List.mem_cons, List.not_mem_nil, or_false] at hw
    rcases hw with rfl | rfl | rfl
    · simp
    · simp
    · exact iff_of_false hse hPT
  · rw [hbc]
    apply applyW_CV hW3
    intro w hw
    simp only [List.mem_cons, List.not_mem_nil, or_false] at hw
    rcases hw with rfl | rfl | rfl
    · exact Or.inr (Or.inr rfl)
    · exact Or.inr (Or.inr rfl)
    · rcases hW1 with ⟨h1, _⟩ | ⟨h1, _⟩
      · exact Or.inl h1
      · exact Or.inr (Or.inl h1)
  · rw [hbc, hbp]
    apply applyW_PR hW4
    intro w hw
    simp only [List.mem_cons, List.not_mem_nil, or_false] at hw
    rcases hw with rfl | rfl | rfl
    · intro hc
      exact absurd rfl hc
    · intro hc
      exact absurd rfl hc
    · intro _ _
      exact ⟨ht8, ht56⟩
  · intro h1
    rw [hcst] at h1
    obtain ⟨ha, hM⟩ := and_mask_bit (Or.inl rfl) h1
    obtain ⟨hMf, hMt⟩ := and_mask_bit (Or.inl rfl) hM
    obtain ⟨hf1, hf2⟩ := mask_bit1 hMf
    obtain ⟨ht1, ht2⟩ := mask_bit1 hMt
    obtain ⟨o1, o2, o3, o4⟩ := hW5 ha
    have pA := hpres 60 (by omega) (Ne.symm hf1) (Ne.symm ht1)
    have pB := hpres 63 (by omega) (Ne.symm hf2) (Ne.symm ht2)
    exact ⟨pA.1.trans o1, pA.2.trans o2, pB.1.trans o3, pB.2.trans o4⟩
  · intro h1
    rw [hcst] at h1
    obtain ⟨ha, hM⟩ := and_mask_bit (Or.inr (Or.inl rfl)) h1
    obtain ⟨hMf, hMt⟩ := and_mask_bit (Or.inr (Or.inl rfl)) hM
    obtain ⟨hf1, hf2⟩ := mask_bit2 hMf
    obtain ⟨ht1, ht2⟩ := mask_bit2 hMt
    obtain ⟨o1, o2, o3, o4⟩ := hW6 ha
    have pA := hpres 60 (by omega) (Ne.symm hf1) (Ne.symm ht1)
    have pB := hpres 56 (by omega) (Ne.symm hf2) (Ne.symm ht2)
    exact ⟨pA.1.trans o1, pA.2.trans o2, pB.1.trans o3, pB.2.trans o4⟩
  · intro h1
    rw [hcst] at h1
    obtain ⟨ha, hM⟩ := and_mask_bit (Or.inr (Or.inr (Or.inl rfl))) h1
    obtain ⟨hMf, hMt⟩ := and_mask_bit (Or.inr (Or.inr (Or.inl rfl))) hM
    obtain ⟨hf1, hf2⟩ := mask_bit4 hMf
    obtain ⟨ht1, ht2⟩ := mask_bit4 hMt
    obtain ⟨o1, o2, o3, o4⟩ := hW7 ha
    have pA := hpres 4 (by omega) (Ne.symm hf1) (Ne.symm ht1)
    have pB := hpres 7 (by omega) (Ne.symm hf2) (Ne.symm ht2)
    exact ⟨pA.1.trans o1, pA.2.trans o2, pB.1.trans o3, pB.2.trans o4⟩
  · intro h1
    rw [hcst] at h1
    obtain ⟨ha, hM⟩ := and_mask_bit (Or.inr (Or.inr (Or.inr rfl))) h1
    obtain ⟨hMf, hMt⟩ := and_mask_bit (Or.inr (Or.inr (Or.inr rfl))) hM
    obtain ⟨hf1, hf2⟩ := mask_bit8 hMf
    obtain ⟨ht1, ht2⟩ := mask_bit8 hMt
    obtain ⟨o1, o2, o3, o4⟩ := hW8 ha
    have pA := hpres 4 (by omega) (Ne.symm hf1) (Ne.symm ht1)
    have pB := hpres 0 (by omega) (Ne.symm hf2) (Ne.symm ht2)
    exact ⟨pA.1.trans o1, pA.2.trans o2, pB.1.trans o3, pB.2.trans o4⟩
  · intro hne
    rw [hepv, if_neg h8n] at hne
    exact absurd rfl hne

theorem applyW_append (b : Board) (ws1 ws2 : List Wr) :
    applyW b (ws1 ++ ws2) = applyW (applyW b ws2) ws1 := by
  induction ws1 with
  | nil => rfl
  | cons w ws ih => simp [applyW, ih]

theorem WF_mid_castle_core {d : Data} {m : MoveB} {d5 : Data} {rf rt : Nat}
    (hW : WF d)
    (hmb : m.bits = 2)
    (hkp : d.piece m.fromSq = KING)
    (hrc : d.color rf = d.side) (hrp : d.piece rf = ROOK)
    (hrf64 : rf < 64)
    (hfrf : m.fromSq ≠ rf) (hfrt : m.fromSq ≠ rt)
    (hv1 : CASTLE_MASK.getD m.fromSq 15 &&& 1 ≠ 0 →
      (60 : Nat) ≠ rf ∧ (60 : Nat) ≠ rt ∧ (63 : Nat) ≠ rf ∧ (63 : Nat) ≠ rt)
    (hv2 : CASTLE_MASK.getD m.fromSq 15 &&& 2 ≠ 0 →
      (60 : Nat) ≠ rf ∧ (60 : Nat) ≠ rt ∧ (56 : Nat) ≠ rf ∧ (56 : Nat) ≠ rt)
    (hv4 : CASTLE_MASK.getD m.fromSq 15 &&& 4 ≠ 0 →
      (4 : Nat) ≠ rf ∧ (4 : Nat) ≠ rt ∧ (7 : Nat) ≠ rf ∧ (7 : Nat) ≠ rt)
    (hv8 : CASTLE_MASK.getD m.fromSq 15 &&& 8 ≠ 0 →
      (4 : Nat) ≠ rf ∧ (4 : Nat) ≠ rt ∧ (0 : Nat) ≠ rf ∧ (0 : Nat) ≠ rt)
    (hmid : makemoveMid d m (boardMove (d.color, d.piece) rf rt) = some d5) :
    WF d5 := by
  obtain ⟨hW1, hW2, hW3, hW4, hW5, hW6, hW7, hW8, hW9⟩ := hW
  have hb4 : m.bits &&& 4 = 0 := by rw [hmb]; decide
  have h32n : ¬(m.bits &&& 32 ≠ 0) := by rw [hmb]; decide
  have h8n : ¬(m.bits &&& 8 ≠ 0) := by rw [hmb]; decide
  obtain ⟨hbc, hbp⟩ := makemoveMid_boards_noep hb4 hmid
  obtain ⟨hsd, hxs, _, _, _, hcst, hepv, _, _, _, _, _, _, _, _, _, _, _⟩ :=
    makemoveMid_fields hmid
  have hse : d.side ≠ EMPTY := by
    rcases hW1 with ⟨h1, _⟩ | ⟨h1, _⟩ <;> rw [h1] <;> decide
  have hPT : (if m.bits &&& 32 ≠ 0 then m.promote
      else (boardMove (d.color, d.piece) rf rt).2 m.fromSq) = KING := by
    rw [if_neg h32n]
    show updf (updf d.piece rt (d.piece rf)) rf EMPTY m.fromSq = KING
    rw [updf_other _ _ _ _ hfrf, updf_other _ _ _ _ hfrt]
    exact hkp
  have hbc' : d5.color = (applyW ((d.color, d.piece) : Board)
      [⟨m.fromSq, EMPTY, EMPTY⟩,
       ⟨m.toSq, d.side, if m.bits &&& 32 ≠ 0 then m.promote
          else (boardMove (d.color, d.piece) rf rt).2 m.fromSq⟩,
       ⟨rf, EMPTY, EMPTY⟩, ⟨rt, d.color rf, d.piece rf⟩]).1 := by
    rw [hbc]
    exact congrArg Prod.fst ((applyW_append (d.color, d.piece)
      [⟨m.fromSq, EMPTY, EMPTY⟩,
       ⟨m.toSq, d.side, if m.bits &&& 32 ≠ 0 then m.promote
          else (boardMove (d.color, d.piece) rf rt).2 m.fromSq⟩]
      [⟨rf, EMPTY, EMPTY⟩, ⟨rt, d.color rf, d.piece rf⟩]).symm)
  have hbp' : d5.piece = (applyW ((d.color, d.piece) : Board)
      [⟨m.fromSq, EMPTY, EMPTY⟩,
       ⟨m.toSq, d.side, if m.bits &&& 32 ≠ 0 then m.promote
          else (boardMove (d.color, d.piece) rf rt).2 m.fromSq⟩,
       ⟨rf, EMPTY, EMPTY⟩, ⟨rt, d.color rf, d.piece rf⟩]).2 := by
    rw [hbp]
    exact congrArg Prod.snd ((applyW_append (d.color, d.piece)
      [⟨m.fromSq, EMPTY, EMPTY⟩,
       ⟨m.toSq, d.side, if m.bits &&& 32 ≠ 0 then m.promote
          else (boardMove (d.color, d.piece) rf rt).2 m.fromSq⟩]
      [⟨rf, EMPTY, EMPTY⟩, ⟨rt, d.color rf, d.piece rf⟩]).symm)
  have hpres : ∀ s, s ≠ m.fromSq → s ≠ m.toSq → s ≠ rf → s ≠ rt →
      d5.color s = d.color s ∧ d5.piece s = d.piece s := by
    intro s h1 h2 h3 h4
    rw [hbc', hbp']
    exact applyW_untouched _ (by
      intro w hw
      simp only [List.mem_cons, List.not_mem_nil, or_false] at hw
      rcases hw with rfl | rfl | rfl | rfl
      · exact h1
      · exact h2
      · exact h3
      · exact h4)
  refine ⟨?_, ?_, ?_, ?_, ?_, ?_, ?_, ?_, ?_⟩
  · rw [hsd, hxs]
    exact side_flip hW1
  · rw [hbc', hbp']
    apply applyW_W1 hW2
    intro w hw
    simp only [List.mem_cons, List.not_mem_nil, or_false] at hw
    rcases hw with rfl | rfl | rfl | rfl
    · simp
    · refine iff_of_false hse ?_
      rw [hPT]
      show KING ≠ EMPTY
      decide
    · simp
    · exact hW2 rf hrf64
  · rw [hbc']
    apply applyW_CV hW3
    intro w hw
    simp only [List.mem_cons, List.not_mem_nil, or_false] at hw
    rcases hw with rfl | rfl | rfl | rfl
    · exact Or.inr (Or.inr rfl)
    · rcases hW1 with ⟨h1, _⟩ | ⟨h1, _⟩
      · exact Or.inl h1
      · exact Or.inr (Or.inl h1)
    · exact Or.inr (Or.inr rfl)
    · rw [hrc]
      rcases hW1 with ⟨h1, _⟩ | ⟨h1, _⟩
      · exact Or.inl h1
      · exact Or.inr (Or.inl h1)
  · rw [hbc', hbp']
    apply applyW_PR hW4
    intro w hw
    simp only [List.mem_cons, List.not_mem_nil, or_false] at hw
    rcases hw with rfl | rfl | rfl | rfl
    · intro hc
      exact absurd rfl hc
    · intro _ hp
      rw [hPT] at hp
      have hp2 : KING = PAWN := hp
      exact absurd hp2 (by decide)
    · intro hc
      exact absurd rfl hc
    · intro _ hp
      rw [hrp] at hp
      have hp2 : ROOK = PAWN := hp
      exact absurd hp2 (by decide)
  · intro h1
    rw [hcst] at h1
    obtain ⟨ha, hM⟩ := and_mask_bit (Or.inl rfl) h1
    obtain ⟨hMf, hMt⟩ := and_mask_bit (Or.inl rfl) hM
    obtain ⟨hf1, hf2⟩ := mask_bit1 hMf
    obtain ⟨ht1, ht2⟩ := mask_bit1 hMt
    obtain ⟨hr1, hr2, hr3, hr4⟩ := hv1 hMf
    obtain ⟨o1, o2, o3, o4⟩ := hW5 ha
    have pA := hpres 60 (Ne.symm hf1) (Ne.symm ht1) hr1 hr2
    have pB := hpres 63 (Ne.symm hf2) (Ne.symm ht2) hr3 hr4
    exact ⟨pA.1.trans o1, pA.2.trans o2, pB.1.trans o3, pB.2.trans o4⟩
  · intro h1
    rw [hcst] at h1
    obtain ⟨ha, hM⟩ := and_mask_bit (Or.inr (Or.inl rfl)) h1
    obtain ⟨hMf, hMt⟩ := and_mask_bit (Or.inr (Or.inl rfl)) hM
    obtain ⟨hf1, hf2⟩ := mask_bit2 hMf
    obtain ⟨ht1, ht2⟩ := mask_bit2 hMt
    obtain ⟨hr1, hr2, hr3, hr4⟩ := hv2 hMf
    obtain ⟨o1, o2, o3, o4⟩ := hW6 ha
    have pA := hpres 60 (Ne.symm hf1) (Ne.symm ht1) hr1 hr2
    have pB := hpres 56 (Ne.symm hf2) (Ne.symm ht2) hr3 hr4
    exact ⟨pA.1.trans o1, pA.2.trans o2, pB.1.trans o3, pB.2.trans o4⟩
  · intro h1
    rw [hcst] at h1
    obtain ⟨ha, hM⟩ := and_mask_bit (Or.inr (Or.inr (Or.inl rfl))) h1
    obtain ⟨hMf, hMt⟩ := and_mask_bit (Or.inr (Or.inr (Or.inl rfl))) hM
    obtain ⟨hf1, hf2⟩ := mask_bit4 hMf
    obtain ⟨ht1, ht2⟩ := mask_bit4 hMt
    obtain ⟨hr1, hr2, hr3, hr4⟩ := hv4 hMf
    obtain ⟨o1, o2, o3, o4⟩ := hW7 ha
    have pA := hpres 4 (Ne.symm hf1) (Ne.symm ht1) hr1 hr2
    have pB := hpres 7 (Ne.symm hf2) (Ne.symm ht2) hr3 hr4
    exact ⟨pA.1.trans o1, pA.2.trans o2, pB.1.trans o3, pB.2.trans o4⟩
  · intro h1
    rw [hcst] at h1
    obtain ⟨ha, hM⟩ := and_mask_bit (Or.inr (Or.inr (Or.inr rfl))) h1
    obtain ⟨hMf, hMt⟩ := and_mask_bit (Or.inr (Or.inr (Or.inr rfl))) hM
    obtain ⟨hf1, hf2⟩ := mask_bit8 hMf
    obtain ⟨ht1, ht2⟩ := mask_bit8 hMt
    obtain ⟨hr1, hr2, hr3, hr4⟩ := hv8 hMf
    obtain ⟨o1, o2, o3, o4⟩ := hW8 ha
    have pA := hpres 4 (Ne.symm hf1) (Ne.symm ht1) hr1 hr2
    have pB := hpres 0 (Ne.symm hf2) (Ne.symm ht2) hr3 hr4
    exact ⟨pA.1.trans o1, pA.2.trans o2, pB.1.trans o3, pB.2.trans o4⟩
  · intro hne
    rw [hepv, if_neg h8n] at hne
    exact absurd rfl hne

theorem mem_gen_GenMove {d : Data} {g : Gen} (hg : g ∈ gen d) : GenMove d g.m := by
  obtain ⟨f, t, bits, hp, hs⟩ := mem_gen_sites hg
  rcases gen_push_elim hp with ⟨hm, hnp, _⟩ | ⟨i, hi, hm, h16, hrank, _⟩
  · rw [hm]
    exact ⟨bits, hs, Or.inl ⟨rfl, rfl, hnp⟩⟩
  · rw [hm]
    exact ⟨bits, hs, Or.inr ⟨rfl, hi, h16, hrank⟩⟩

theorem mid_main {d : Data} {g : Gen} {b0 : Board} {d5 : Data}
    (hW : WF d) (hGM : GenMove d g.m)
    (hcp : castlePre d g.m = some (some b0))
    (hmid : makemoveMid d g.m b0 = some d5) :
    WF d5 ∧ ∃ d'', takeback d5 = some d'' ∧ SamePos d'' d := by
  obtain ⟨bits0, hsite, hshape⟩ := hGM
  have hTB : WF d5 ∧ ∃ d'', takeback d5 = some d'' ∧ SamePos d'' d := by
    have hcpres : g.m.bits &&& 2 = 0 → b0 = (d.color, d.piece) := by
      intro h2
      rcases castlePre_true_elim hcp with ⟨_, hb0⟩ | ⟨hb2, _⟩
      · exact hb0
      · exact absurd h2 hb2
    rcases hsite with hP | hP | hP | hP | hP
    · -- light pawn call sites
      obtain ⟨hsl, hcf, hpf, hf64, hsub⟩ := hP
      have hxsd : d.xside = DARK := by
        rcases hW.1 with ⟨h1, h2⟩ | ⟨h1, h2⟩
        · exact h2
        · rw [h1] at hsl
          exact absurd hsl (by decide)
      have hf56 : 8 ≤ g.m.fromSq ∧ g.m.fromSq < 56 :=
        hW.2.2.2.1 g.m.fromSq hf64 (by rw [hcf, hsl]; decide) hpf
      rcases hsub with ⟨hb17, hctD, hdir⟩ | ⟨hb16, hteq, hcte⟩ | ⟨hb24, hteq, h48, hmsq, hcte⟩
      · subst hb17
        rcases hshape with ⟨hmb, hmp0, hng⟩ | ⟨hmb, hpi, h16g, hrank⟩
        · have hb0 := hcpres (by rw [hmb]; decide)
          subst hb0
          rw [if_pos hsl] at hng
          have ht8 : 8 ≤ g.m.toSq := by
            by_cases h : g.m.toSq ≤ H8
            · exact absurd ⟨by decide, h⟩ hng
            · simp only [H8] at h
              omega
          have ht64 : g.m.toSq < 64 := by
            rcases hdir with ⟨_, h⟩ | ⟨_, h⟩ <;> omega
          refine ⟨WF_mid_plain hW (by rw [hmb]; decide) hcf ?_ ?_ ?_ hmid, ?_⟩
          · rw [if_neg (show ¬(g.m.bits &&& 32 ≠ 0) by rw [hmb]; decide), hpf]
            decide
          · rw [if_neg (show ¬(g.m.bits &&& 32 ≠ 0) by rw [hmb]; decide), hpf]
            intro _
            refine ⟨ht8, ?_⟩
            rcases hdir with ⟨_, h⟩ | ⟨_, h⟩ <;> omega
          · intro h8
            rw [hmb] at h8
            exact absurd (by decide) h8
          · exact takeback_mid_basic (by rw [hmb]; decide) (by rw [hmb]; decide) hW.1
              hW.2.1 hf64 ht64 hcf (Or.inl (hctD.trans hxsd.symm)) (fun _ => hpf) hmid
        · have hb0 := hcpres (by rw [hmb]; decide)
          subst hb0
          have h32 : g.m.bits &&& 32 ≠ 0 := by rw [hmb]; decide
          have ht64 : g.m.toSq < 64 := by
            rcases hdir with ⟨_, h⟩ | ⟨_, h⟩ <;> omega
          refine ⟨WF_mid_plain hW (by rw [hmb]; decide) hcf ?_ ?_ ?_ hmid, ?_⟩
          · rw [if_pos h32]
            rcases hpi with h | h | h | h <;> rw [h] <;> decide
          · rw [if_pos h32]
            intro hp
            rcases hpi with h | h | h | h <;> rw [h] at hp <;> exact absurd hp (by decide)
          · intro h8
            rw [hmb] at h8
            exact absurd (by decide) h8
          · exact takeback_mid_basic (by rw [hmb]; decide) (by rw [hmb]; decide) hW.1
              hW.2.1 hf64 ht64 hcf (Or.inl (hctD.trans hxsd.symm)) (fun _ => hpf) hmid
      · subst hb16
        rcases hshape with ⟨hmb, hmp0, hng⟩ | ⟨hmb, hpi, h16g, hrank⟩
        · have hb0 := hcpres (by rw [hmb]; decide)
          subst hb0
          rw [if_pos hsl] at hng
          have ht8 : 8 ≤ g.m.toSq := by
            by_cases h : g.m.toSq ≤ H8
            · exact absurd ⟨by decide, h⟩ hng
            · simp only [H8] at h
              omega
          have ht64 : g.m.toSq < 64 := by omega
          refine ⟨WF_mid_plain hW (by rw [hmb]; decide) hcf ?_ ?_ ?_ hmid, ?_⟩
          · rw [if_neg (show ¬(g.m.bits &&& 32 ≠ 0) by rw [hmb]; decide), hpf]
            decide
          · rw [if_neg (show ¬(g.m.bits &&& 32 ≠ 0) by rw [hmb]; decide), hpf]
            intro _
            exact ⟨ht8, by omega⟩
          · intro h8
            rw [hmb] at h8
            exact absurd (by decide) h8
          · exact takeback_mid_basic (by rw [hmb]; decide) (by rw [hmb]; decide) hW.1
              hW.2.1 hf64 ht64 hcf (Or.inr hcte) (fun _ => hpf) hmid
        · have hb0 := hcpres (by rw [hmb]; decide)
          subst hb0
          have h32 : g.m.bits &&& 32 ≠ 0 := by rw [hmb]; decide
          have ht64 : g.m.toSq < 64 := by omega
          refine ⟨WF_mid_plain hW (by rw [hmb]; decide) hcf ?_ ?_ ?_ hmid, ?_⟩
          · rw [if_pos h32]
            rcases hpi with h | h | h | h <;> rw [h] <;> decide
          · rw [if_pos h32]
            intro hp
            rcases hpi with h | h | h | h <;> rw [h] at hp <;> exact absurd hp (by decide)
          · intro h8
            rw [hmb] at h8
            exact absurd (by decide) h8
          · exact takeback_mid_basic (by rw [hmb]; decide) (by rw [hmb]; decide) hW.1
              hW.2.1 hf64 ht64 hcf (Or.inr hcte) (fun _ => hpf) hmid
      · subst hb24
        rcases hshape with ⟨hmb, hmp0, hng⟩ | ⟨hmb, hpi, h16g, hrank⟩
        · have hb0 := hcpres (by rw [hmb]; decide)
          subst hb0
          have ht64 : g.m.toSq < 64 := by omega
          refine ⟨WF_mid_plain hW (by rw [hmb]; decide) hcf ?_ ?_ ?_ hmid, ?_⟩
          · rw [if_neg (show ¬(g.m.bits &&& 32 ≠ 0) by rw [hmb]; decide), hpf]
            decide
          · rw [if_neg (show ¬(g.m.bits &&& 32 ≠ 0) by rw [hmb]; decide), hpf]
            intro _
            exact ⟨by omega, by omega⟩
          · intro _
            exact ⟨by rw [hmb]; decide, hpf,
              Or.inl ⟨hsl, by omega, h48, hf56.2, hmsq⟩⟩
          · exact takeback_mid_basic (by rw [hmb]; decide) (by rw [hmb]; decide) hW.1
              hW.2.1 hf64 ht64 hcf (Or.inr hcte) (fun _ => hpf) hmid
        · rw [if_pos hsl] at hrank
          simp only [H8] at hrank
          exact absurd hrank (by omega)
    · -- dark pawn call sites
      obtain ⟨hsnl, hcf, hpf, hf64, hsub⟩ := hP
      have hsdk : d.side = DARK := by
        rcases hW.1 with ⟨h1, _⟩ | ⟨h1, _⟩
        · exact absurd h1 hsnl
        · exact h1
      have hxsl : d.xside = LIGHT := by
        rcases hW.1 with ⟨h1, _⟩ | ⟨_, h2⟩
        · exact absurd h1 hsnl
        · exact h2
      have hf56 : 8 ≤ g.m.fromSq ∧ g.m.fromSq < 56 :=
        hW.2.2.2.1 g.m.fromSq hf64 (by rw [hcf, hsdk]; decide) hpf
      rcases hsub with ⟨hb17, hctL, hdir⟩ | ⟨hb16, hteq, hcte⟩ | ⟨hb24, hteq, h15, hmsq, hcte⟩
      · subst hb17
        rcases hshape with ⟨hmb, hmp0, hng⟩ | ⟨hmb, hpi, h16g, hrank⟩
        · have hb0 := hcpres (by rw [hmb]; decide)
          subst hb0
          rw [if_neg hsnl] at hng
          have ht55 : g.m.toSq < 56 := by
            by_cases h : A1 ≤ g.m.toSq
            · exact absurd ⟨by decide, h⟩ hng
            · simp only [A1] at h
              omega
          have ht64 : g.m.toSq < 64 := by omega
          refine ⟨WF_mid_plain hW (by rw [hmb]; decide) hcf ?_ ?_ ?_ hmid, ?_⟩
          · rw [if_neg (show ¬(g.m.bits &&& 32 ≠ 0) by rw [hmb]; decide), hpf]
            decide
          · rw [if_neg (show ¬(g.m.bits &&& 32 ≠ 0) by rw [hmb]; decide), hpf]
            intro _
            refine ⟨?_, ht55⟩
            rcases hdir with ⟨_, h⟩ | ⟨_, h⟩ <;> omega
          · intro h8
            rw [hmb] at h8
            exact absurd (by decide) h8
          · exact takeback_mid_basic (by rw [hmb]; decide) (by rw [hmb]; decide) hW.1
              hW.2.1 hf64 ht64 hcf (Or.inl (hctL.trans hxsl.symm)) (fun _ => hpf) hmid
        · have hb0 := hcpres (by rw [hmb]; decide)
          subst hb0
          have h32 : g.m.bits &&& 32 ≠ 0 := by rw [hmb]; decide
          have ht64 : g.m.toSq < 64 := by
            rcases hdir with ⟨h0, h⟩ | ⟨h7, h⟩
            · omega
            · simp only [col] at h7
              omega
          refine ⟨WF_mid_plain hW (by rw [hmb]; decide) hcf ?_ ?_ ?_ hmid, ?_⟩
          · rw [if_pos h32]
            rcases hpi with h | h | h | h <;> rw [h] <;> decide
          · rw [if_pos h32]
            intro hp
            rcases hpi with h | h | h | h <;> rw [h] at hp <;> exact absurd hp (by decide)
          · intro h8
            rw [hmb] at h8
            exact absurd (by decide) h8
          · exact takeback_mid_basic (by rw [hmb]; decide) (by rw [hmb]; decide) hW.1
              hW.2.1 hf64 ht64 hcf (Or.inl (hctL.trans hxsl.symm)) (fun _ => hpf) hmid
      · subst hb16
        rcases hshape with ⟨hmb, hmp0, hng⟩ | ⟨hmb, hpi, h16g, hrank⟩
        · have hb0 := hcpres (by rw [hmb]; decide)
          subst hb0
          rw [if_neg hsnl] at hng
          have ht55 : g.m.toSq < 56 := by
            by_cases h : A1 ≤ g.m.toSq
            · exact absurd ⟨by decide, h⟩ hng
            · simp only [A1] at h
              omega
          have ht64 : g.m.toSq < 64 := by omega
          refine ⟨WF_mid_plain hW (by rw [hmb]; decide) hcf ?_ ?_ ?_ hmid, ?_⟩
          · rw [if_neg (show ¬(g.m.bits &&& 32 ≠ 0) by rw [hmb]; decide), hpf]
            decide
          · rw [if_neg (show ¬(g.m.bits &&& 32 ≠ 0) by rw [hmb]; decide), hpf]
            intro _
            exact ⟨by omega, ht55⟩
          · intro h8
            rw [hmb] at h8
            exact absurd (by decide) h8
          · exact takeback_mid_basic (by rw [hmb]; decide) (by rw [hmb]; decide) hW.1
              hW.2.1 hf64 ht64 hcf (Or.inr hcte) (fun _ => hpf) hmid
        · have hb0 := hcpres (by rw [hmb]; decide)
          subst hb0
          have h32 : g.m.bits &&& 32 ≠ 0 := by rw [hmb]; decide
          have ht64 : g.m.toSq < 64 := by omega
          refine ⟨WF_mid_plain hW (by rw [hmb]; decide) hcf ?_ ?_ ?_ hmid, ?_⟩
          · rw [if_pos h32]
            rcases hpi with h | h | h | h <;> rw [h] <;> decide
          · rw [if_pos h32]
            intro hp
            rcases hpi with h | h | h | h <;> rw [h] at hp <;> exact absurd hp (by decide)
          · intro h8
            rw [hmb] at h8
            exact absurd (by decide) h8
          · exact takeback_mid_basic (by rw [hmb]; decide) (by rw [hmb]; decide) hW.1
              hW.2.1 hf64 ht64 hcf (Or.inr hcte) (fun _ => hpf) hmid
      · subst hb24
        rcases hshape with ⟨hmb, hmp0, hng⟩ | ⟨hmb, hpi, h16g, hrank⟩
        · have hb0 := hcpres (by rw [hmb]; decide)
          subst hb0
          have ht64 : g.m.toSq < 64 := by omega
          refine ⟨WF_mid_plain hW (by rw [hmb]; decide) hcf ?_ ?_ ?_ hmid, ?_⟩
          · rw [if_neg (show ¬(g.m.bits &&& 32 ≠ 0) by rw [hmb]; decide), hpf]
            decide
          · rw [if_neg (show ¬(g.m.bits &&& 32 ≠ 0) by rw [hmb]; decide), hpf]
            intro _
            exact ⟨by omega, by omega⟩
          · intro _
            exact ⟨by rw [hmb]; decide, hpf,
              Or.inr ⟨hsdk, hteq, hf56.1, h15, hmsq⟩⟩
          · exact takeback_mid_basic (by rw [hmb]; decide) (by rw [hmb]; decide) hW.1
              hW.2.1 hf64 ht64 hcf (Or.inr hcte) (fun _ => hpf) hmid
        · rw [if_neg hsnl] at hrank
          simp only [A1] at hrank
          exact absurd hrank (by omega)
    · -- non-pawn piece call sites
      obtain ⟨hcf, hnp, hf64, ht64, hsub⟩ := hP
      have hse : d.side ≠ EMPTY := by
        rcases hW.1 with ⟨h1, _⟩ | ⟨h1, _⟩ <;> rw [h1] <;> decide
      have hfe : d.piece g.m.fromSq ≠ EMPTY := by
        intro he
        exact hse (hcf.symm.trans ((hW.2.1 g.m.fromSq hf64).mpr he))
      rcases hsub with ⟨hb1, hctne, hctx⟩ | ⟨hb0z, hcte⟩
      · subst hb1
        rcases hshape with ⟨hmb, hmp0, hng⟩ | ⟨hmb, hpi, h16g, hrank⟩
        · have hb0 := hcpres (by rw [hmb]; decide)
          subst hb0
          refine ⟨WF_mid_plain hW (by rw [hmb]; decide) hcf ?_ ?_ ?_ hmid, ?_⟩
          · rw [if_neg (show ¬(g.m.bits &&& 32 ≠ 0) by rw [hmb]; decide)]
            exact hfe
          · rw [if_neg (show ¬(g.m.bits &&& 32 ≠ 0) by rw [hmb]; decide)]
            intro hp
            exact absurd hp hnp
          · intro h8
            rw [hmb] at h8
            exact absurd (by decide) h8
          · exact takeback_mid_basic (by rw [hmb]; decide) (by rw [hmb]; decide) hW.1
              hW.2.1 hf64 ht64 hcf (Or.inl hctx)
              (fun h32 => absurd (show g.m.bits &&& 32 = 0 by rw [hmb]; decide) h32) hmid
        · exact absurd h16g (by decide)
      · subst hb0z
        rcases hshape with ⟨hmb, hmp0, hng⟩ | ⟨hmb, hpi, h16g, hrank⟩
        · have hb0 := hcpres (by rw [hmb]; decide)
          subst hb0
          refine ⟨WF_mid_plain hW (by rw [hmb]; decide) hcf ?_ ?_ ?_ hmid, ?_⟩
          · rw [if_neg (show ¬(g.m.bits &&& 32 ≠ 0) by rw [hmb]; decide)]
            exact hfe
          · rw [if_neg (show ¬(g.m.bits &&& 32 ≠ 0) by rw [hmb]; decide)]
            intro hp
            exact absurd hp hnp
          · intro h8
            rw [hmb] at h8
            exact absurd (by decide) h8
          · exact takeback_mid_basic (by rw [hmb]; decide) (by rw [hmb]; decide) hW.1
              hW.2.1 hf64 ht64 hcf (Or.inr hcte)
              (fun h32 => absurd (show g.m.bits &&& 32 = 0 by rw [hmb]; decide) h32) hmid
        · exact absurd h16g (by decide)
    · -- castle call sites
      obtain ⟨hb2v, hsub⟩ := hP
      subst hb2v
      rcases hshape with ⟨hmb, hmp0, hng⟩ | ⟨hmb, hpi, h16g, hrank⟩
      · rcases castlePre_true_elim hcp with ⟨hb2z, _⟩ | ⟨_, hchk0, htgt⟩
        · rw [hmb] at hb2z
          exact absurd hb2z (by decide)
        · rcases hsub with ⟨hsl, hfE, hor⟩ | ⟨hsnl, hfE, hor⟩
          · rcases hor with ⟨htG, hcb⟩ | ⟨htC, hcb⟩
            · rcases htgt with ⟨ht62, hF1, hG1, hb0⟩ | ⟨ht58, _⟩ | ⟨ht6, _⟩ | ⟨ht2, _⟩
              · subst hb0
                obtain ⟨o1, o2, o3, o4⟩ := hW.2.2.2.2.1 hcb
                refine ⟨WF_mid_castle_core hW hmb ?_ ?_ ?_ (by decide) ?_ ?_ ?_ ?_ ?_ ?_
                  hmid, ?_⟩
                · rw [hfE]
                  exact o2
                · rw [hsl]
                  exact o3
                · exact o4
                · rw [hfE]
                  decide
                · rw [hfE]
                  decide
                · rw [hfE]
                  intro h
                  exact absurd h (by decide)
                · rw [hfE]
                  intro h
                  exact absurd h (by decide)
                · intro _
                  exact ⟨by decide, by decide, by decide, by decide⟩
                · intro _
                  exact ⟨by decide, by decide, by decide, by decide⟩
                · exact takeback_mid_c62 hmb hfE htG hsl hW.2.1 o1 hF1 hG1 o3 o4 hmid
              · rw [htG] at ht58
                exact absurd ht58 (by decide)
              · rw [htG] at ht6
                exact absurd ht6 (by decide)
              · rw [htG] at ht2
                exact absurd ht2 (by decide)
            · rcases htgt with ⟨ht62, _⟩ | ⟨ht58, hB1, hC1, hD1, hb0⟩ | ⟨ht6, _⟩ | ⟨ht2, _⟩
              · rw [htC] at ht62
                exact absurd ht62 (by decide)
              · subst hb0
                obtain ⟨o1, o2, o3, o4⟩ := hW.2.2.2.2.2.1 hcb
                refine ⟨WF_mid_castle_core hW hmb ?_ ?_ ?_ (by decide) ?_ ?_ ?_ ?_ ?_ ?_
                  hmid, ?_⟩
                · rw [hfE]
                  exact o2
                · rw [hsl]
                  exact o3
                · exact o4
                · rw [hfE]
                  decide
                · rw [hfE]
                  decide
                · rw [hfE]
                  intro h
                  exact absurd h (by decide)
                · rw [hfE]
                  intro h
                  exact absurd h (by decide)
                · intro _
                  exact ⟨by decide, by decide, by decide, by decide⟩
                · intro _
                  exact ⟨by decide, by decide, by decide, by decide⟩
                · exact takeback_mid_c58 hmb hfE htC hsl hW.2.1 o1 hC1 hD1 o3 o4 hmid
              · rw [htC] at ht6
                exact absurd ht6 (by decide)
              · rw [htC] at ht2
                exact absurd ht2 (by decide)
          · have hsdk : d.side = DARK := by
              rcases hW.1 with ⟨h1, _⟩ | ⟨h1, _⟩
              · exact absurd h1 hsnl
              · exact h1
            rcases hor with ⟨htG, hcb⟩ | ⟨htC, hcb⟩
            · rcases htgt with ⟨ht62, _⟩ | ⟨ht58, _⟩ | ⟨ht6, hF8, hG8e, hb0⟩ | ⟨ht2, _⟩
              · rw [htG] at ht62
                exact absurd ht62 (by decide)
              · rw [htG] at ht58
                exact absurd ht58 (by decide)
              · subst hb0
                obtain ⟨o1, o2, o3, o4⟩ := hW.2.2.2.2.2.2.1 hcb
                refine ⟨WF_mid_castle_core hW hmb ?_ ?_ ?_ (by decide) ?_ ?_ ?_ ?_ ?_ ?_
                  hmid, ?_⟩
                · rw [hfE]
                  exact o2
                · rw [hsdk]
                  exact o3
                · exact o4
                · rw [hfE]
                  decide
                · rw [hfE]
                  decide
                · intro _
                  exact ⟨by decide, by decide, by decide, by decide⟩
                · intro _
                  exact ⟨by decide, by decide, by decide, by decide⟩
                · rw [hfE]
                  intro h
                  exact absurd h (by decide)
                · rw [hfE]
                  intro h
                  exact absurd h (by decide)
                · exact takeback_mid_c6 hmb hfE htG hsdk hW.2.1 o1 hF8 hG8e o3 o4 hmid
              · rw [htG] at ht2
                exact absurd ht2 (by decide)
            · rcases htgt with ⟨ht62, _⟩ | ⟨ht58, _⟩ | ⟨ht6, _⟩ | ⟨ht2, hB8, hC8e, hD8, hb0⟩
              · rw [htC] at ht62
                exact absurd ht62 (by decide)
              · rw [htC] at ht58
                exact absurd ht58 (by decide)
              · rw [htC] at ht6
                exact absurd ht6 (by decide)
              · subst hb0
                obtain ⟨o1, o2, o3, o4⟩ := hW.2.2.2.2.2.2.2.1 hcb
                refine ⟨WF_mid_castle_core hW hmb ?_ ?_ ?_ (by decide) ?_ ?_ ?_ ?_ ?_ ?_
                  hmid, ?_⟩
                · rw [hfE]
                  exact o2
                · rw [hsdk]
                  exact o3
                · exact o4
                · rw [hfE]
                  decide
                · rw [hfE]
                  decide
                · intro _
                  exact ⟨by decide, by decide, by decide, by decide⟩
                · intro _
                  exact ⟨by decide, by decide, by decide, by decide⟩
                · rw [hfE]
                  intro h
                  exact absurd h (by decide)
                · rw [hfE]
                  intro h
                  exact absurd h (by decide)
                · exact takeback_mid_c2 hmb hfE htC hsdk hW.2.1 o1 hC8e hD8 o3 o4 hmid
      · exact absurd h16g (by decide)
    · -- en-passant call sites
      obtain ⟨hb21, hepne, hteq, hsub⟩ := hP
      subst hb21
      have hW9 := hW.2.2.2.2.2.2.2.2 hepne
      rcases hshape with ⟨hmb, hmp0, hng⟩ | ⟨hmb, hpi, h16g, hrank⟩
      · have hb0 := hcpres (by rw [hmb]; decide)
        subst hb0
        rcases hsub with ⟨hsl', hcfL, hpf, hdir⟩ | ⟨hsnl', hcfD, hpf, hdir⟩
        · rcases hW9 with ⟨_, h16, h23, hce, hc8, hp8⟩ | ⟨hsd9, _⟩
          · have hxsd : d.xside = DARK := by
              rcases hW.1 with ⟨_, h2⟩ | ⟨h1, _⟩
              · exact h2
              · rw [h1] at hsl'
                exact absurd hsl' (by decide)
            have hcf : d.color g.m.fromSq = d.side := hcfL.trans hsl'.symm
            have hcte : d.color g.m.toSq = EMPTY := by
              rw [hteq]
              exact hce
            have hq : (if d.side = LIGHT then (g.m.toSq : Int) + 8
                else (g.m.toSq : Int) - 8) = ((g.m.toSq + 8 : Nat) : Int) := by
              rw [if_pos hsl']
              omega
            have hq63 : g.m.toSq + 8 ≤ 63 := by omega
            have hcq : d.color (g.m.toSq + 8) = d.xside := by
              rw [hteq, hxsd]
              exact hc8
            have hpq : d.piece (g.m.toSq + 8) = PAWN := by
              rw [hteq]
              exact hp8
            refine ⟨WF_mid_ep hW hmb hpf hq hq63 (by omega) (by omega)
              ⟨by omega, by omega⟩ hmid, ?_⟩
            exact takeback_mid_ep hmb hW.1 hW.2.1 (by omega) hcf hcte hq hq63 hcq hpq hmid
          · rw [hsl'] at hsd9
            exact absurd hsd9 (by decide)
        · rcases hW9 with ⟨hsd9, _⟩ | ⟨_, h40, h47, hce, hcm8, hpm8⟩
          · exact absurd hsd9 hsnl'
          · have hsdk : d.side = DARK := by
              rcases hW.1 with ⟨h1, _⟩ | ⟨h1, _⟩
              · exact absurd h1 hsnl'
              · exact h1
            have hxsl : d.xside = LIGHT := by
              rcases hW.1 with ⟨h1, _⟩ | ⟨_, h2⟩
              · exact absurd h1 hsnl'
              · exact h2
            have hcf : d.color g.m.fromSq = d.side := hcfD.trans hsdk.symm
            have hcte : d.color g.m.toSq = EMPTY := by
              rw [hteq]
              exact hce
            have hq : (if d.side = LIGHT then (g.m.toSq : Int) + 8
                else (g.m.toSq : Int) - 8) = ((g.m.toSq - 8 : Nat) : Int) := by
              rw [if_neg hsnl']
              omega
            have hq63 : g.m.toSq - 8 ≤ 63 := by omega
            have hcq : d.color (g.m.toSq - 8) = d.xside := by
              rw [hteq, hxsl]
              exact hcm8
            have hpq : d.piece (g.m.toSq - 8) = PAWN := by
              rw [hteq]
              exact hpm8
            refine ⟨WF_mid_ep hW hmb hpf hq hq63 (by omega) (by omega)
              ⟨by omega, by omega⟩ hmid, ?_⟩
            exact takeback_mid_ep hmb hW.1 hW.2.1 (by omega) hcf hcte hq hq63 hcq hpq hmid
      · rcases hsub with ⟨hsl', _, _, _⟩ | ⟨hsnl', _, _, _⟩
        · rw [if_pos hsl'] at hrank
          simp only [H8] at hrank
          rcases hW9 with ⟨_, h16, _⟩ | ⟨hsd9, _⟩
          · exact absurd hrank (by omega)
          · rw [hsl'] at hsd9
            exact absurd hsd9 (by decide)
        · rw [if_neg hsnl'] at hrank
          simp only [A1] at hrank
          rcases hW9 with ⟨hsd9, _⟩ | ⟨_, _, h47, _⟩
          · exact absurd hsd9 hsnl'
          · exact absurd hrank (by omega)
  exact hTB

theorem step_WF {d : Data} {g : Gen} {d' : Data}
    (hW : WF d) (hg : g ∈ gen d) (hmk : makemove d g.m = some (d', true)) :
    WF d' := by
  obtain ⟨b0, d5, hcp, hhply, hmid, hchk, hd'⟩ := makemove_true_elim hmk
  subst hd'
  exact (mid_main hW (mem_gen_GenMove hg) hcp hmid).1

theorem WF_init (d : Data) : WF (init_board d) := by
  refine ⟨Or.inl ⟨rfl, rfl⟩, ?_, ?_, ?_, ?_, ?_, ?_, ?_, ?_⟩
  · have h : ∀ i, i < 64 →
        (INIT_COLOR.getD i EMPTY = EMPTY ↔ INIT_PIECE.getD i EMPTY = EMPTY) := by decide
    exact h
  · have h : ∀ i, i < 64 → INIT_COLOR.getD i EMPTY = LIGHT ∨
        INIT_COLOR.getD i EMPTY = DARK ∨ INIT_COLOR.getD i EMPTY = EMPTY := by decide
    exact h
  · have h : ∀ i, i < 64 → INIT_COLOR.getD i EMPTY ≠ EMPTY →
        INIT_PIECE.getD i EMPTY = PAWN → 8 ≤ i ∧ i < 56 := by decide
    exact h
  · intro _
    exact ⟨rfl, rfl, rfl, rfl⟩
  · intro _
    exact ⟨rfl, rfl, rfl, rfl⟩
  · intro _
    exact ⟨rfl, rfl, rfl, rfl⟩
  · intro _
    exact ⟨rfl, rfl, rfl, rfl⟩
  · intro h
    exact absurd rfl h

theorem reachable_WF {d : Data} (h : Reachable d) : WF d := by
  induction h with
  | init d0 => exact WF_init d0
  | step hR hg hmk ih => exact step_WF ih hg hmk

/-- C1 (amended): on a reachable position, for a move taken from the gen
move list, a successful makemove followed by takeback restores every
position field: boards, side, xside, castle, en passant, fifty, hash, ply
and hply. -/
theorem c1_make_takeback_inverse {d : Data} {g : Gen} {d' : Data}
    (hR : Reachable d) (hg : g ∈ gen d) (hmk : makemove d g.m = some (d', true)) :
    ∃ d'', takeback d' = some d'' ∧ SamePos d'' d := by
  obtain ⟨b0, d5, hcp, hhply, hmid, hchk, hd'⟩ := makemove_true_elim hmk
  subst hd'
  obtain ⟨d'', ht, hs⟩ := (mid_main (reachable_WF hR) (mem_gen_GenMove hg) hcp hmid).2
  refine ⟨d'', ?_, hs⟩
  rw [takeback_set_hash]
  exact ht

theorem c1_witness :
    ∃ d'', takeback c1d = some d'' ∧ SamePos d'' initData :=
  @c1_make_takeback_inverse initData ⟨⟨48, 40, 0, 16⟩, 0⟩ c1d
    (Reachable.init baseData) (by decide) rfl

/-- C2 (amended): on a reachable position, when makemove rejects a move
taken from the gen move list, the state it returns agrees with the
pre-call state on every position field. -/
theorem failed_rollback {d : Data} {g : Gen} {d' : Data}
    (hW : WF d) (hGM : GenMove d g.m) (hmk : makemove d g.m = some (d', false)) :
    SamePos d' d := by
  rcases makemove_false_elim hmk with ⟨_, hd'⟩ | ⟨b0, d5, hcp, hhply, hmid, hchk, htb⟩
  · subst hd'
    exact ⟨rfl, rfl, rfl, rfl, rfl, rfl, rfl, rfl, rfl, rfl⟩
  · obtain ⟨d'', ht, hs⟩ := (mid_main hW hGM hcp hmid).2
    rw [htb] at ht
    obtain rfl : d' = d'' := Option.some.inj ht
    exact hs

theorem c2_failed_makemove_unchanged {d : Data} {g : Gen} {d' : Data}
    (hR : Reachable d) (hg : g ∈ gen d) (hmk : makemove d g.m = some (d', false)) :
    SamePos d' d :=
  failed_rollback (reachable_WF hR) (mem_gen_GenMove hg) hmk

theorem c2_witness : SamePos c2d initData :=
  @c2_failed_makemove_unchanged initData ⟨⟨60, 62, 0, 2⟩, 1000005⟩ c2d
    (Reachable.init baseData) (by decide) rfl

/-- C10: in every state reachable from the initial board by successful
makemove calls and stack-disciplined takeback calls, the halfmove clock
fifty is at most the history length hply, so the start index hply - fifty
computed inside reps never underflows and reps is total on reachable
states. -/
theorem c10_reps_total {d : Data} (h : ReachableU d) :
    d.fifty ≤ d.hply ∧ (reps d).isSome := by
  have hI := reachableU_clockInv h
  refine ⟨hI.1, ?_⟩
  simp [reps, hI.1]

/-- Witness for C10 at the concrete initial position. -/
theorem c10_witness : initData.fifty ≤ initData.hply ∧ (reps initData).isSome :=
  c10_reps_total (ReachableU.init baseData)

/-- C1, counterexample: the claim quantifies over every move accepted by
makemove, but the degenerate move from a2 to a2 (same square, no flag
bits) is accepted on the initial position, and takeback then leaves the
color of a2 DARK instead of LIGHT, so the round trip does not restore the
position. -/
theorem c1_counterexample :
    Reachable initData ∧
    (makemove initData (MoveB.mk 48 48 0 0)).map
        (fun p => (p.2, (takeback p.1).map (fun q => q.color 48))) = some (true, some DARK) ∧
    initData.color 48 = LIGHT ∧ DARK ≠ LIGHT :=
  ⟨Reachable.init baseData, by decide, by decide, by decide⟩

/-- C2, counterexample: the claim quantifies over every position and every
move.  On pinData the degenerate move from e4 to e4 removes the shielding
rook, the legality check fails (the king is exposed), makemove returns
failure, but the internal rollback leaves the color of e4 DARK instead of
LIGHT: the state observably changed. -/
theorem c2_counterexample :
    (makemove pinData (MoveB.mk 36 36 0 0)).map (fun p => (p.2, p.1.color 36)) =
      some (false, DARK) ∧
    pinData.color 36 = LIGHT ∧ DARK ≠ LIGHT :=
  ⟨by decide, by decide, by decide⟩

/-- C8, counterexample: on the standard starting position gen produces 22
entries, not 20: the castling rights bits are set, so both castling
candidates are pushed besides the 16 pawn and 4 knight moves. -/
theorem c8_counterexample :
    (gen initData).length = 22 ∧ (gen initData).length ≠ 20 :=
  ⟨by decide, by decide⟩

/-- C8, amended: on the standard starting position gen produces exactly 22
entries: 16 pawn moves and 4 knight moves, plus 2 castling candidates that
makemove rejects; no generated move carries the capture bit, and exactly
the 20 non-castling moves are accepted by makemove. -/
theorem c8_initial_gen :
    (gen initData).length = 22 ∧
    ((gen initData).filter (fun g => decide (initData.piece g.m.fromSq = PAWN))).length = 16 ∧
    ((gen initData).filter (fun g => decide (initData.piece g.m.fromSq = KNIGHT))).length = 4 ∧
    ((gen initData).filter (fun g => g.m.bits &&& 2 ≠ 0)).length = 2 ∧
    (∀ g ∈ gen initData, g.m.bits &&& 1 = 0) ∧
    ((gen initData).filter
      (fun g => (makemove initData g.m).map Prod.snd = some true)).length = 20 ∧
    (∀ g ∈ gen initData, g.m.bits &&& 2 ≠ 0 →
      (makemove initData g.m).map Prod.snd = some false) :=
  ⟨by decide, by decide, by decide, by decide, by decide, by decide, by decide⟩

/-- C6: evidence of the rook-bonus defect, evaluating the embedded code at
concrete inputs.  On rookOpenA the light side holds 1400 of material, yet
its total collapses to 45 because the open-file branch assigns 15 instead
of adding it; removing the rook (rookOpenB) RAISES the light total to 930,
so the position with the extra rook evaluates lower for the side to move.
On darkSemi the a-file of the dark rook is semi-open (no dark pawn on the
file, a light pawn present), yet the dark total 530 is bare material plus
the king term: no semi-open bonus exists in the dark rook branch. -/
theorem c6_rook_bonus_bug :
    evalScores rookOpenA.color rookOpenA.piece = (45, -13) ∧
    (pass1 rookOpenA.color rookOpenA.piece).pieceMatL = 1400 ∧
    evalScores rookOpenB.color rookOpenB.piece = (930, 30) ∧
    eval rookOpenA < eval rookOpenB ∧
    evalScores darkSemi.color darkSemi.piece = (130, 530) ∧
    (pass1 darkSemi.color darkSemi.piece).pawnRankD.getD 1 0 = 7 ∧
    (pass1 darkSemi.color darkSemi.piece).pawnRankL.getD 1 0 ≠ 0 :=
  ⟨by decide, by decide, by decide, by decide, by decide, by decide, by decide⟩

/-- C9: evaluation antisymmetry.  For a position whose side fields are
complementary, swapping only the side to move and its complement negates
the evaluation, because the per-side score totals do not read the side
fields. -/
theorem c9_eval_antisymmetry (d : Data)
    (h : (d.side = LIGHT ∧ d.xside = DARK) ∨ (d.side = DARK ∧ d.xside = LIGHT)) :
    eval { d with side := d.xside, xside := d.side } = - eval d := by
  rcases h with ⟨h1, h2⟩ | ⟨h1, h2⟩ <;>
    simp [eval, h1, h2, LIGHT, DARK]

/-- Witness for C9 at the concrete position rookOpenA. -/
theorem c9_witness :
    ((rookOpenA.side = LIGHT ∧ rookOpenA.xside = DARK) ∨
      (rookOpenA.side = DARK ∧ rookOpenA.xside = LIGHT)) ∧
    eval { rookOpenA with side := rookOpenA.xside, xside := rookOpenA.side } =
      - eval rookOpenA :=
  ⟨Or.inl ⟨rfl, rfl⟩, c9_eval_antisymmetry rookOpenA (Or.inl ⟨rfl, rfl⟩)⟩


/-- C7, amended: every entry pushed by gen is scored as follows: the four
promotion entries score 1000000 + promotedPieceKind * 10; an entry whose
destination square is occupied (a capture of a piece standing there, or a
castling candidate aimed at an occupied square) scores
1000000 + victimPieceKind * 10 - attackerPieceKind; an entry whose
destination square is empty (quiet moves, and also en-passant captures)
scores the history table value of its from and to squares. -/
theorem c7_gen_scores {d : Data} {g : Gen} (hg : g ∈ gen d) :
    (g.m.bits &&& 32 ≠ 0 ∧ (g.m.promote = 1 ∨ g.m.promote = 2 ∨ g.m.promote = 3 ∨ g.m.promote = 4) ∧
      g.score = 1000000 + (g.m.promote : Int) * 10) ∨
    (g.m.bits &&& 32 = 0 ∧ d.color g.m.toSq ≠ EMPTY ∧
      g.score = 1000000 + (d.piece g.m.toSq : Int) * 10 - (d.piece g.m.fromSq : Int)) ∨
    (g.m.bits &&& 32 = 0 ∧ d.color g.m.toSq = EMPTY ∧
      g.score = d.history g.m.fromSq g.m.toSq) :=
  gen_score_formula hg

/-- Witness for C7 at a concrete generated move of the initial position. -/
theorem c7_witness :
    (⟨⟨48, 40, 0, 16⟩, 0⟩ : Gen) ∈ gen initData ∧
    (((16 : Nat) &&& 32 ≠ 0 ∧ ((0 : Nat) = 1 ∨ (0 : Nat) = 2 ∨ (0 : Nat) = 3 ∨ (0 : Nat) = 4) ∧
       (0 : Int) = 1000000 + ((0 : Nat) : Int) * 10) ∨
     ((16 : Nat) &&& 32 = 0 ∧ initData.color 40 ≠ EMPTY ∧
       (0 : Int) = 1000000 + (initData.piece 40 : Int) * 10 - (initData.piece 48 : Int)) ∨
     ((16 : Nat) &&& 32 = 0 ∧ initData.color 40 = EMPTY ∧
       (0 : Int) = initData.history 48 40)) :=
  ⟨by decide, @c7_gen_scores initData ⟨⟨48, 40, 0, 16⟩, 0⟩ (by decide)⟩

/-- C7, counterexample: on epData the generated en-passant capture carries
the capture bit but scores the history value 0, not the MVV/LVA capture
formula, because its destination square is empty. -/
theorem c7_counterexample :
    (⟨⟨28, 19, 0, 21⟩, 0⟩ : Gen) ∈ gen epData ∧
    (21 : Nat) &&& 1 ≠ 0 ∧
    (0 : Int) ≠ 1000000 + (epData.piece 19 : Int) * 10 - (epData.piece 28 : Int) :=
  ⟨by decide, by decide, by decide⟩

theorem samePos_refl (d : Data) : SamePos d d :=
  ⟨rfl, rfl, rfl, rfl, rfl, rfl, rfl, rfl, rfl, rfl⟩

theorem samePos_trans {a b c : Data} (h1 : SamePos a b) (h2 : SamePos b c) : SamePos a c := by
  obtain ⟨a1, a2, a3, a4, a5, a6, a7, a8, a9, a10⟩ := h1
  obtain ⟨b1, b2, b3, b4, b5, b6, b7, b8, b9, b10⟩ := h2
  exact ⟨a1.trans b1, a2.trans b2, a3.trans b3, a4.trans b4, a5.trans b5,
    a6.trans b6, a7.trans b7, a8.trans b8, a9.trans b9, a10.trans b10⟩

theorem WF_samePos {a b : Data} (h : SamePos a b) (hW : WF b) : WF a := by
  obtain ⟨h1, h2, h3, h4, h5, h6, h7, h8, h9, h10⟩ := h
  unfold WF at hW ⊢
  rw [h1, h2, h3, h4, h5, h6]
  exact hW

theorem GenMove_samePos {a b : Data} {m : MoveB} (h : SamePos a b)
    (hGM : GenMove b m) : GenMove a m := by
  obtain ⟨h1, h2, h3, h4, h5, h6, h7, h8, h9, h10⟩ := h
  unfold GenMove GoodSite at hGM ⊢
  rw [h1, h2, h3, h4, h5, h6]
  exact hGM

theorem attackRay_congr {a b : Data} (h1 : a.color = b.color)
    (sq p : Nat) (off : Int) :
    ∀ fuel n, attackRay a sq p off fuel n = attackRay b sq p off fuel n := by
  intro fuel
  induction fuel with
  | zero => intro n; rfl
  | succ fuel ih =>
    intro n
    simp only [attackRay, h1, ih]

theorem attack_congr {a b : Data} (h1 : a.color = b.color) (h2 : a.piece = b.piece)
    (sq s : Nat) : attack a sq s = attack b sq s := by
  unfold attack
  simp only [h1, h2, attackRay_congr h1]

theorem in_check_congr {a b : Data} (h1 : a.color = b.color) (h2 : a.piece = b.piece)
    (s : Nat) : in_check a s = in_check b s := by
  unfold in_check
  simp only [h1, h2, attack_congr h1 h2]

theorem castlePre_congr {a b : Data} {m : MoveB} (h1 : a.color = b.color)
    (h2 : a.piece = b.piece) (h3 : a.side = b.side) (h4 : a.xside = b.xside) :
    castlePre a m = castlePre b m := by
  unfold castlePre
  simp only [h1, h2, h3, h4, in_check_congr h1 h2, attack_congr h1 h2]

theorem epClear_congr {a b : Data} {m : MoveB} (h3 : a.side = b.side) (bb : Board) :
    epClear a m bb = epClear b m bb := by
  unfold epClear
  simp only [h3]

theorem makemoveMid_congr {a b : Data} {m : MoveB} (h : SamePos a b) (b0 : Board) :
    (makemoveMid a m b0 = none ∧ makemoveMid b m b0 = none) ∨
    (∃ x y, makemoveMid a m b0 = some x ∧ makemoveMid b m b0 = some y ∧ SamePos x y ∧
      x.histDat (x.hply - 1) = y.histDat (y.hply - 1)) := by
  obtain ⟨h1, h2, h3, h4, h5, h6, h7, h8, h9, h10⟩ := h
  unfold makemoveMid
  simp only [epClear_congr h3, h3]
  cases hep : epClear b m (updf (updf b0.1 m.toSq b.side) m.fromSq EMPTY,
      updf (updf b0.2 m.toSq (if m.bits &&& 32 ≠ 0 then m.promote else b0.2 m.fromSq))
        m.fromSq EMPTY) with
  | none => exact Or.inl ⟨rfl, rfl⟩
  | some b2 =>
    refine Or.inr ⟨_, _, rfl, rfl, ⟨rfl, rfl, ?_, ?_, ?_, ?_, ?_, ?_, ?_, ?_⟩, ?_⟩
    · simp only [h3]
    · simp only [h4]
    · simp only [h5]
    · simp only [h3, h6]
    · simp only [h7]
    · simp only [h8]
    · simp only [h9]
    · simp only [h10]
    · simp only [Nat.add_sub_cancel, updf_same, h5, h6, h7, h8, h10]

theorem opt_pair {α : Type} {o : Option α} {f : α → Option α} {F G : α → Data}
    (P : Data → Data → Prop)
    (hFG : ∀ z, P (F z) (G z)) :
    ((o.bind fun w => (f w).map F) = none ∧ (o.bind fun w => (f w).map G) = none) ∨
    (∃ x y, (o.bind fun w => (f w).map F) = some x ∧
      (o.bind fun w => (f w).map G) = some y ∧ P x y) := by
  cases o with
  | none => exact Or.inl ⟨rfl, rfl⟩
  | some w =>
    simp only [Option.some_bind]
    cases hf : f w with
    | none => exact Or.inl ⟨rfl, rfl⟩
    | some z =>
      simp only [Option.map_some']
      exact Or.inr ⟨F z, G z, rfl, rfl, hFG z⟩

theorem takeback_congr {a b : Data} (hsp : SamePos a b)
    (hh : a.histDat (a.hply - 1) = b.histDat (b.hply - 1)) :
    (takeback a = none ∧ takeback b = none) ∨
    (∃ x y, takeback a = some x ∧ takeback b = some y ∧ SamePos x y ∧
      x.histDat = a.histDat ∧ y.histDat = b.histDat) := by
  obtain ⟨h1, h2, h3, h4, h5, h6, h7, h8, h9, h10⟩ := hsp
  rw [h10] at hh
  unfold takeback
  simp only [h1, h2, h3, h4, h9, h10, hh]
  exact opt_pair
    (fun x y => SamePos x y ∧ x.histDat = a.histDat ∧ y.histDat = b.histDat)
    (fun z => ⟨⟨rfl, rfl, rfl, rfl, rfl, rfl, rfl, rfl, rfl, rfl⟩, rfl, rfl⟩)

theorem makemove_bit_congr {a b : Data} {m : MoveB} (h : SamePos a b) :
    (makemove a m).map Prod.snd = (makemove b m).map Prod.snd := by
  obtain ⟨h1, h2, h3, h4, h5, h6, h7, h8, h9, h10⟩ := h
  have hsp : SamePos a b := ⟨h1, h2, h3, h4, h5, h6, h7, h8, h9, h10⟩
  unfold makemove
  rw [castlePre_congr h1 h2 h3 h4]
  cases hcp : castlePre b m with
  | none => rfl
  | some ob =>
    cases ob with
    | none => rfl
    | some b0 =>
      dsimp only
      rw [h10]
      by_cases hg : HIST_STACK ≤ b.hply
      · rw [if_pos hg, if_pos hg]
      · rw [if_neg hg, if_neg hg]
        rcases makemoveMid_congr hsp b0 with ⟨hma, hmb⟩ | ⟨x, y, hma, hmb, hxy, hhd⟩
        · rw [hma, hmb]
        · rw [hma, hmb]
          dsimp only
          rw [hxy.2.2.2.1, in_check_congr hxy.1 hxy.2.1]
          cases hic : in_check y y.xside with
          | none => rfl
          | some cc =>
            cases cc with
            | true =>
              dsimp only
              rcases takeback_congr hxy hhd with ⟨hta, htb⟩ | ⟨u, v, hta, htb, _⟩
              · rw [hta, htb]
              · rw [hta, htb]
                rfl
            | false => rfl

theorem selStep_fst_mem (g0 : Gen) (gs : List Gen) : (selStep g0 gs).1 ∈ g0 :: gs := by
  unfold selStep
  dsimp only
  split
  · exact List.mem_cons_self g0 gs
  · by_cases hlt : bestIdx (g0 :: gs) < (g0 :: gs).length
    · rw [List.getD_eq_getElem _ _ hlt]
      exact List.getElem_mem hlt
    · rw [List.getD_eq_default _ _ (Nat.le_of_not_lt hlt)]
      exact List.mem_cons_self g0 gs

theorem selStep_snd_mem (g0 : Gen) (gs : List Gen) :
    ∀ x ∈ (selStep g0 gs).2, x ∈ g0 :: gs := by
  unfold selStep
  dsimp only
  split
  · intro x hx
    exact List.mem_cons_of_mem _ hx
  · intro x hx
    rcases List.mem_or_eq_of_mem_set hx with hx2 | hx2
    · exact List.mem_cons_of_mem _ hx2
    · rw [hx2]
      exact List.mem_cons_self g0 gs

theorem bumpPv_mems {pvm : MoveB} :
    ∀ {ms ms2 : List Gen}, bumpPv pvm ms = some ms2 →
      ∀ x ∈ ms2, ∃ g ∈ ms, x.m = g.m := by
  intro ms
  induction ms with
  | nil =>
    intro ms2 h
    simp [bumpPv] at h
  | cons g gs ih =>
    intro ms2 h x hx
    rw [bumpPv] at h
    by_cases he : g.m = pvm
    · rw [if_pos he] at h
      obtain rfl := Option.some.inj h
      rcases List.mem_cons.mp hx with hx1 | hx2
      · rw [hx1]
        exact ⟨g, List.mem_cons_self g gs, rfl⟩
      · exact ⟨x, List.mem_cons_of_mem _ hx2, rfl⟩
    · rw [if_neg he] at h
      rcases Option.map_eq_some'.mp h with ⟨ms3, hb, rfl⟩
      rcases List.mem_cons.mp hx with hx1 | hx2
      · rw [hx1]
        exact ⟨g, List.mem_cons_self g gs, rfl⟩
      · obtain ⟨g2, hg2, hm⟩ := ih hb x hx2
        exact ⟨g2, List.mem_cons_of_mem _ hg2, hm⟩

theorem sort_pv_mems (dd : Data) (ms : List Gen) :
    ∀ x ∈ (sort_pv dd ms).2, ∃ g ∈ ms, x.m = g.m := by
  unfold sort_pv
  cases hb : bumpPv (dd.pv 0 dd.ply) ms with
  | some ms2 =>
    dsimp only
    exact bumpPv_mems hb
  | none =>
    dsimp only
    exact fun x hx => ⟨x, hx, rfl⟩

theorem sort_pv_if_mems (P : Prop) [Decidable P] (dd : Data) (ms : List Gen) (bb : Bool) :
    ∀ x ∈ (if P then sort_pv dd ms else (bb, ms)).2, ∃ g ∈ ms, x.m = g.m := by
  by_cases h : P
  · rw [if_pos h]
    exact sort_pv_mems dd ms
  · rw [if_neg h]
    exact fun x hx => ⟨x, hx, rfl⟩

theorem searchLoopF_allfail {o : Nat → Bool} {base : Data} (hW : WF base) :
    ∀ fuel (d : Data) (ms : List Gen) (alpha beta depth : Int) (c : Bool),
      SamePos d base →
      (∀ x ∈ ms, GenMove base x.m) →
      (∀ x ∈ ms, (makemove base x.m).map Prod.snd ≠ some true) →
      ∀ r d', searchLoopF fuel o d ms alpha beta depth c false = some (r, d') →
        r = SR.Value (if c then -10000 + (base.ply : Int) else 0) := by
  intro fuel
  induction fuel with
  | zero =>
    intro d ms alpha beta depth c _ _ _ r d' h
    rw [searchLoopF] at h
    exact absurd h (by simp)
  | succ fuel ih =>
    intro d ms alpha beta depth c hsp hGM hfail r d' h
    cases ms with
    | nil =>
      rw [searchLoopF] at h
      rw [if_pos rfl] at h
      have hp := Option.some.inj h
      rw [Prod.mk.injEq] at hp
      rw [← hp.1, hsp.2.2.2.2.2.2.2.2.1]
    | cons g0 gs =>
      rw [searchLoopF] at h
      dsimp only at h
      have hm1 : (selStep g0 gs).1 ∈ g0 :: gs := selStep_fst_mem g0 gs
      have hGM1 : GenMove base (selStep g0 gs).1.m := hGM _ hm1
      cases hmk : makemove d (selStep g0 gs).1.m with
      | none =>
        rw [hmk] at h
        exact absurd h (by simp)
      | some pr2 =>
        obtain ⟨d1, sflag⟩ := pr2
        rw [hmk] at h
        cases sflag with
        | true =>
          exfalso
          have hbit := @makemove_bit_congr d base (selStep g0 gs).1.m hsp
          rw [hmk] at hbit
          exact hfail _ hm1 hbit.symm
        | false =>
          dsimp only at h
          have hsp1 : SamePos d1 base :=
            samePos_trans
              (failed_rollback (WF_samePos hsp hW) (GenMove_samePos hsp hGM1) hmk) hsp
          exact ih d1 (selStep g0 gs).2 alpha beta depth c hsp1
            (fun x hx => hGM x (selStep_snd_mem g0 gs x hx))
            (fun x hx => hfail x (selStep_snd_mem g0 gs x hx)) r d' h

/-- C4: when search reaches its move loop and no generated move for the
current ply is accepted by makemove, the value returned is -10000 plus the
current ply if the side to move is in check, and exactly 0 otherwise. -/
theorem c4_no_legal_moves (o : Nat → Bool) (fuel : Nat) (d : Data)
    (alpha beta depth : Int) (c : Bool)
    (hW : WF d)
    (hdep : depth ≠ 0)
    (hchk : ¬((d.nodes + 1) &&& 1023 = 0 ∧ o (d.nodes + 1) = false))
    (hrep : d.ply ≠ 0 → reps d = some 0)
    (hmaxp : d.ply < MAX_PLY - 1)
    (hmaxh : d.hply < HIST_STACK - 1)
    (hic : in_check d d.side = some c)
    (hfail : ∀ g ∈ gen d, (makemove d g.m).map Prod.snd ≠ some true) :
    ∀ r d', searchF (fuel + 1) o d alpha beta depth = some (r, d') →
      r = SR.Value (if c then -10000 + (d.ply : Int) else 0) := by
  intro r d' h
  rw [searchF] at h
  rw [if_neg hdep] at h
  dsimp only at h
  rw [if_neg hchk] at h
  split at h
  · exact absurd h (by simp)
  · rename_i r0 heq
    have hr0 : r0 = 0 := by
      by_cases hply0 : d.ply = 0
      · rw [if_neg (not_not_intro hply0)] at heq
        exact (Option.some.inj heq).symm
      · rw [if_pos hply0] at heq
        have h2 : reps d = some r0 := heq
        rw [hrep hply0] at h2
        exact (Option.some.inj h2).symm
    subst hr0
    rw [if_neg (by simp)] at h
    rw [if_neg (by exact Nat.not_le.mpr hmaxp)] at h
    rw [if_neg (by exact Nat.not_le.mpr hmaxh)] at h
    split at h
    · rename_i hicn
      have h2 : in_check d d.side = none := hicn
      rw [hic] at h2
      exact absurd h2 (by simp)
    · rename_i c2 hics
      have h2 : in_check d d.side = some c2 := hics
      rw [hic] at h2
      obtain rfl : c = c2 := Option.some.inj h2
      refine searchLoopF_allfail hW fuel _ _ alpha beta _ c ?_ ?_ ?_ r d' h
      · exact ⟨rfl, rfl, rfl, rfl, rfl, rfl, rfl, rfl, rfl, rfl⟩
      · intro x hx
        obtain ⟨g, hg, hxm⟩ := sort_pv_if_mems _ _ _ _ x hx
        have hg2 : g ∈ gen d := hg
        rw [hxm]
        exact mem_gen_GenMove hg2
      · intro x hx
        obtain ⟨g, hg, hxm⟩ := sort_pv_if_mems _ _ _ _ x hx
        have hg2 : g ∈ gen d := hg
        rw [hxm]
        exact hfail g hg2

theorem WF_stale : WF staleData := by
  refine ⟨Or.inl ⟨rfl, rfl⟩, ?_, ?_, ?_, ?_, ?_, ?_, ?_, ?_⟩
  · decide
  · decide
  · decide
  · intro h
    exact absurd (by decide) h
  · intro h
    exact absurd (by decide) h
  · intro h
    exact absurd (by decide) h
  · intro h
    exact absurd (by decide) h
  · intro h
    exact absurd rfl h

theorem c4_witness :
    SR.Value 0 = SR.Value (if false then -10000 + (staleData.ply : Int) else 0) :=
  c4_no_legal_moves (fun _ => true) 10 staleData (-10000) 10000 1 false
    WF_stale
    (by decide) (by decide) (by decide) (by decide) (by decide) (by decide) (by decide)
    (SR.Value 0) c4d rfl

theorem mem_gen_caps_GenMove {d : Data} {g : Gen} (hg : g ∈ gen_caps d) :
    GenMove d g.m := by
  obtain ⟨f, t, bits, hp, hs⟩ := mem_gen_caps_sites hg
  rcases gen_push_elim hp with ⟨hm, hnp, _⟩ | ⟨i, hi, hm, h16, hrank, _⟩
  · rw [hm]
    exact ⟨bits, hs, Or.inl ⟨rfl, rfl, hnp⟩⟩
  · rw [hm]
    exact ⟨bits, hs, Or.inr ⟨rfl, hi, h16, hrank⟩⟩

theorem takebackN_snoc {n : Nat} :
    ∀ {d e e2 : Data}, takebackN n d = some e → takeback e = some e2 →
      takebackN (n + 1) d = some e2 := by
  induction n with
  | zero =>
    intro d e e2 h1 h2
    obtain rfl := Option.some.inj h1
    unfold takebackN
    rw [h2]
    rfl
  | succ n ih =>
    intro d e e2 h1 h2
    unfold takebackN at h1 ⊢
    rcases Option.bind_eq_some.mp h1 with ⟨w, hw, hrest⟩
    rw [hw]
    exact ih hrest h2

theorem failed_histDat {d : Data} {m : MoveB} {d1 : Data}
    (h : makemove d m = some (d1, false)) :
    ∀ i, i ≠ d.hply → d1.histDat i = d.histDat i := by
  intro i hi
  rcases makemove_false_elim h with ⟨_, hd⟩ | ⟨b0, d5, _, _, hmid, _, htb⟩
  · rw [hd]
  · have h1 := (takeback_fields htb).2.2.2.2.2.2.2.2.1
    have h2 := (makemoveMid_fields hmid).2.2.2.2.2.2.2.2.1
    rw [h1, h2, updf_other _ _ _ _ hi]

theorem succeed_histDat {d : Data} {m : MoveB} {d1 : Data}
    (h : makemove d m = some (d1, true)) :
    ∀ i, i ≠ d.hply → d1.histDat i = d.histDat i := by
  intro i hi
  obtain ⟨u1, u2, u3, u4, u5, ⟨cap, h6⟩, u7⟩ := makemove_true_fields h
  rw [h6, updf_other _ _ _ _ hi]

theorem SOK_compose {dmid d : Data} {r : Option (SR × Data)}
    (hsp : SamePos dmid d) (hsb : SameBelow dmid d) (h : SOK dmid r) : SOK d r := by
  have hply : dmid.ply = d.ply := hsp.2.2.2.2.2.2.2.2.1
  have hhply : dmid.hply = d.hply := hsp.2.2.2.2.2.2.2.2.2
  cases r with
  | none => trivial
  | some pr =>
    obtain ⟨sr, d2⟩ := pr
    cases sr with
    | Value v =>
      obtain ⟨h1, h2⟩ := h
      refine ⟨samePos_trans h1 hsp, ?_⟩
      intro i hilt
      rw [h2 i (by omega), hsb i hilt]
    | Timeout =>
      obtain ⟨h0, d3, h1, h2, h3⟩ := h
      refine ⟨by omega, d3, ?_, samePos_trans h2 hsp, ?_⟩
      · rw [← hply]
        exact h1
      · intro i hilt
        rw [h3 i (by omega), hsb i hilt]

theorem SOK_timeout_here {d d2 : Data} (hsp : SamePos d2 d) (hsb : SameBelow d2 d) :
    SOK d (some (SR.Timeout, d2)) := by
  have hply : d2.ply = d.ply := hsp.2.2.2.2.2.2.2.2.1
  refine ⟨by omega, d2, ?_, hsp, hsb⟩
  rw [hply, Nat.sub_self]
  rfl

theorem success_facts {d : Data} {g : Gen} {d1 : Data}
    (hW : WF d) (hGM : GenMove d g.m) (hmk : makemove d g.m = some (d1, true)) :
    WF d1 ∧ d1.ply = d.ply + 1 ∧ d1.hply = d.hply + 1 ∧
    (∀ i, i ≠ d.hply → d1.histDat i = d.histDat i) ∧
    ∃ dr, takeback d1 = some dr ∧ SamePos dr d := by
  obtain ⟨b0, d5, hcp, hhp, hmid, hchk, hd'⟩ := makemove_true_elim hmk
  obtain ⟨hW5, dr, htb, hsp⟩ := mid_main hW hGM hcp hmid
  have hfl := makemove_true_fields hmk
  refine ⟨?_, hfl.2.2.1, hfl.2.2.2.1, succeed_histDat hmk, dr, ?_, hsp⟩
  · subst hd'
    exact hW5
  · subst hd'
    rw [takeback_set_hash]
    exact htb

theorem SOK_timeout_prop {d d1 d2 : Data}
    (hply1 : d1.ply = d.ply + 1) (hhply1 : d1.hply = d.hply + 1)
    (hbelow1 : ∀ i, i ≠ d.hply → d1.histDat i = d.histDat i)
    (htb1 : ∃ dr, takeback d1 = some dr ∧ SamePos dr d)
    (hSOK : SOK d1 (some (SR.Timeout, d2))) :
    SOK d (some (SR.Timeout, d2)) := by
  obtain ⟨dr, htb, hspr⟩ := htb1
  obtain ⟨h0, d3, h1, h2, h3⟩ := hSOK
  have hhp3 : d3.hply = d1.hply := h2.2.2.2.2.2.2.2.2.2
  have hh : d3.histDat (d3.hply - 1) = d1.histDat (d1.hply - 1) := by
    rw [hhp3]
    exact h3 (d1.hply - 1) (by omega)
  rcases takeback_congr h2 hh with ⟨hna, hnb⟩ | ⟨x, y, hxa, hyb, hxy, hxh, hyh⟩
  · rw [htb] at hnb
    exact absurd hnb (by simp)
  · rw [htb] at hyb
    obtain rfl : dr = y := Option.some.inj hyb
    refine ⟨by omega, x, ?_, samePos_trans hxy hspr, ?_⟩
    · have harith : d2.ply - d.ply = (d2.ply - d1.ply) + 1 := by omega
      rw [harith]
      exact takebackN_snoc h1 hxa
    · intro i hi
      rw [hxh, h3 i (by omega)]
      exact hbelow1 i (by omega)

theorem SOK_value_back {d d1 d2 : Data}
    (hply1 : d1.ply = d.ply + 1) (hhply1 : d1.hply = d.hply + 1)
    (hbelow1 : ∀ i, i ≠ d.hply → d1.histDat i = d.histDat i)
    (htb1 : ∃ dr, takeback d1 = some dr ∧ SamePos dr d)
    (hsp2 : SamePos d2 d1) (hsb2 : SameBelow d2 d1) :
    ∀ {d3}, takeback d2 = some d3 → SamePos d3 d ∧ SameBelow d3 d := by
  intro d3 htb2
  obtain ⟨dr, htb, hspr⟩ := htb1
  have hh : d2.histDat (d2.hply - 1) = d1.histDat (d1.hply - 1) := by
    rw [hsp2.2.2.2.2.2.2.2.2.2]
    exact hsb2 (d1.hply - 1) (by omega)
  rcases takeback_congr hsp2 hh with ⟨hna, _⟩ | ⟨x, y, hxa, hyb, hxy, hxh, hyh⟩
  · rw [htb2] at hna
    exact absurd hna (by simp)
  · rw [htb2] at hxa
    obtain rfl : d3 = x := Option.some.inj hxa
    rw [htb] at hyb
    obtain rfl : dr = y := Option.some.inj hyb
    refine ⟨samePos_trans hxy hspr, ?_⟩
    intro i hi
    rw [hxh, hsb2 i (by omega)]
    exact hbelow1 i (by omega)

theorem all_SOK : ∀ fuel : Nat,
    (∀ o d alpha beta depth, WF d → SOK d (searchF fuel o d alpha beta depth)) ∧
    (∀ o d ms alpha beta depth c f, WF d → (∀ x ∈ ms, GenMove d x.m) →
      SOK d (searchLoopF fuel o d ms alpha beta depth c f)) ∧
    (∀ o d alpha beta, WF d → SOK d (quiesceF fuel o d alpha beta)) ∧
    (∀ o d ms alpha beta, WF d → (∀ x ∈ ms, GenMove d x.m) →
      SOK d (quiesceLoopF fuel o d ms alpha beta)) := by
  intro fuel
  induction fuel with
  | zero =>
    exact ⟨fun o d a b dep _ => trivial, fun o d ms a b dep c f _ _ => trivial,
      fun o d a b _ => trivial, fun o d ms a b _ _ => trivial⟩
  | succ fuel ih =>
    refine ⟨?_, ?_, ?_, ?_⟩
    · -- searchF
      intro o d alpha beta depth hW
      rw [searchF]
      split
      · exact ih.2.2.1 o d alpha beta hW
      · dsimp only
        split
        · exact SOK_timeout_here ⟨rfl, rfl, rfl, rfl, rfl, rfl, rfl, rfl, rfl, rfl⟩
            (fun i _ => rfl)
        · split
          · trivial
          · split
            · exact ⟨⟨rfl, rfl, rfl, rfl, rfl, rfl, rfl, rfl, rfl, rfl⟩, fun i _ => rfl⟩
            · split
              · exact ⟨⟨rfl, rfl, rfl, rfl, rfl, rfl, rfl, rfl, rfl, rfl⟩, fun i _ => rfl⟩
              · split
                · exact ⟨⟨rfl, rfl, rfl, rfl, rfl, rfl, rfl, rfl, rfl, rfl⟩,
                    fun i _ => rfl⟩
                · split
                  · trivial
                  · refine SOK_compose ?_ ?_ (ih.2.1 o _ _ alpha beta _ _ false ?_ ?_)
                    · exact ⟨rfl, rfl, rfl, rfl, rfl, rfl, rfl, rfl, rfl, rfl⟩
                    · exact fun i _ => rfl
                    · exact WF_samePos ⟨rfl, rfl, rfl, rfl, rfl, rfl, rfl, rfl, rfl, rfl⟩ hW
                    · intro x hx
                      obtain ⟨g, hg, hxm⟩ := sort_pv_if_mems _ _ _ _ x hx
                      rw [hxm]
                      exact mem_gen_GenMove hg
    · -- searchLoopF
      intro o d ms alpha beta depth c f hW hms
      cases ms with
      | nil =>
        rw [searchLoopF]
        split
        · exact ⟨samePos_refl d, fun i _ => rfl⟩
        · split
          · exact ⟨samePos_refl d, fun i _ => rfl⟩
          · exact ⟨samePos_refl d, fun i _ => rfl⟩
      | cons g0 gs =>
        rw [searchLoopF]
        dsimp only
        have hm1 := selStep_fst_mem g0 gs
        have hGM1 : GenMove d (selStep g0 gs).1.m := hms _ hm1
        cases hmk : makemove d (selStep g0 gs).1.m with
        | none => trivial
        | some pr =>
          obtain ⟨d1, flag⟩ := pr
          cases flag with
          | false =>
            dsimp only
            have hsp1 : SamePos d1 d := failed_rollback hW hGM1 hmk
            refine SOK_compose hsp1 (fun i hi => failed_histDat hmk i (by omega)) ?_
            exact ih.2.1 o d1 (selStep g0 gs).2 alpha beta depth c f
              (WF_samePos hsp1 hW)
              (fun x hx => GenMove_samePos hsp1 (hms x (selStep_snd_mem g0 gs x hx)))
          | true =>
            dsimp only
            obtain ⟨hW1, hply1, hhply1, hbelow1, htb1⟩ := success_facts hW hGM1 hmk
            have hS := ih.1 o d1 (-beta) (-alpha) (depth - 1) hW1
            cases hsf : searchF fuel o d1 (-beta) (-alpha) (depth - 1) with
            | none => trivial
            | some pr2 =>
              obtain ⟨sr, d2⟩ := pr2
              rw [hsf] at hS
              cases sr with
              | Timeout => exact SOK_timeout_prop hply1 hhply1 hbelow1 htb1 hS
              | Value v =>
                dsimp only
                obtain ⟨hsp2, hsb2⟩ := hS
                cases htb2 : takeback d2 with
                | none => trivial
                | some d3 =>
                  dsimp only
                  obtain ⟨hsp3, hsb3⟩ :=
                    SOK_value_back hply1 hhply1 hbelow1 htb1 hsp2 hsb2 htb2
                  split
                  · split
                    · exact ⟨samePos_trans
                        ⟨rfl, rfl, rfl, rfl, rfl, rfl, rfl, rfl, rfl, rfl⟩ hsp3, hsb3⟩
                    · refine SOK_compose (samePos_trans
                        ⟨rfl, rfl, rfl, rfl, rfl, rfl, rfl, rfl, rfl, rfl⟩ hsp3) hsb3 ?_
                      exact ih.2.1 o _ (selStep g0 gs).2 (-v) beta depth c true
                        (WF_samePos (samePos_trans
                          ⟨rfl, rfl, rfl, rfl, rfl, rfl, rfl, rfl, rfl, rfl⟩ hsp3) hW)
                        (fun x hx => GenMove_samePos (samePos_trans
                          ⟨rfl, rfl, rfl, rfl, rfl, rfl, rfl, rfl, rfl, rfl⟩ hsp3)
                          (hms x (selStep_snd_mem g0 gs x hx)))
                  · exact SOK_compose hsp3 hsb3
                      (ih.2.1 o d3 (selStep g0 gs).2 alpha beta depth c true
                        (WF_samePos hsp3 hW)
                        (fun x hx => GenMove_samePos hsp3
                          (hms x (selStep_snd_mem g0 gs x hx))))
    · -- quiesceF
      intro o d alpha beta hW
      rw [quiesceF]
      dsimp only
      split
      · exact SOK_timeout_here ⟨rfl, rfl, rfl, rfl, rfl, rfl, rfl, rfl, rfl, rfl⟩
          (fun i _ => rfl)
      · split
        · exact ⟨⟨rfl, rfl, rfl, rfl, rfl, rfl, rfl, rfl, rfl, rfl⟩, fun i _ => rfl⟩
        · split
          · exact ⟨⟨rfl, rfl, rfl, rfl, rfl, rfl, rfl, rfl, rfl, rfl⟩, fun i _ => rfl⟩
          · split
            · exact ⟨⟨rfl, rfl, rfl, rfl, rfl, rfl, rfl, rfl, rfl, rfl⟩, fun i _ => rfl⟩
            · refine SOK_compose ?_ ?_ (ih.2.2.2 o _ _ _ beta ?_ ?_)
              · exact ⟨rfl, rfl, rfl, rfl, rfl, rfl, rfl, rfl, rfl, rfl⟩
              · exact fun i _ => rfl
              · exact WF_samePos ⟨rfl, rfl, rfl, rfl, rfl, rfl, rfl, rfl, rfl, rfl⟩ hW
              · intro x hx
                obtain ⟨g, hg, hxm⟩ := sort_pv_if_mems _ _ _ _ x hx
                rw [hxm]
                exact mem_gen_caps_GenMove hg
    · -- quiesceLoopF
      intro o d ms alpha beta hW hms
      cases ms with
      | nil =>
        rw [quiesceLoopF]
        exact ⟨samePos_refl d, fun i _ => rfl⟩
      | cons g0 gs =>
        rw [quiesceLoopF]
        dsimp only
        have hm1 := selStep_fst_mem g0 gs
        have hGM1 : GenMove d (selStep g0 gs).1.m := hms _ hm1
        cases hmk : makemove d (selStep g0 gs).1.m with
        | none => trivial
        | some pr =>
          obtain ⟨d1, flag⟩ := pr
          cases flag with
          | false =>
            dsimp only
            have hsp1 : SamePos d1 d := failed_rollback hW hGM1 hmk
            refine SOK_compose hsp1 (fun i hi => failed_histDat hmk i (by omega)) ?_
            exact ih.2.2.2 o d1 (selStep g0 gs).2 alpha beta
              (WF_samePos hsp1 hW)
              (fun x hx => GenMove_samePos hsp1 (hms x (selStep_snd_mem g0 gs x hx)))
          | true =>
            dsimp only
            obtain ⟨hW1, hply1, hhply1, hbelow1, htb1⟩ := success_facts hW hGM1 hmk
            have hS := ih.2.2.1 o d1 (-beta) (-alpha) hW1
            cases hsf : quiesceF fuel o d1 (-beta) (-alpha) with
            | none => trivial
            | some pr2 =>
              obtain ⟨sr, d2⟩ := pr2
              rw [hsf] at hS
              cases sr with
              | Timeout => exact SOK_timeout_prop hply1 hhply1 hbelow1 htb1 hS
              | Value v =>
                dsimp only
                obtain ⟨hsp2, hsb2⟩ := hS
                cases htb2 : takeback d2 with
                | none => trivial
                | some d3 =>
                  dsimp only
                  obtain ⟨hsp3, hsb3⟩ :=
                    SOK_value_back hply1 hhply1 hbelow1 htb1 hsp2 hsb2 htb2
                  split
                  · split
                    · exact ⟨hsp3, hsb3⟩
                    · refine SOK_compose (samePos_trans
                        ⟨rfl, rfl, rfl, rfl, rfl, rfl, rfl, rfl, rfl, rfl⟩ hsp3) hsb3 ?_
                      exact ih.2.2.2 o _ (selStep g0 gs).2 (-v) beta
                        (WF_samePos (samePos_trans
                          ⟨rfl, rfl, rfl, rfl, rfl, rfl, rfl, rfl, rfl, rfl⟩ hsp3) hW)
                        (fun x hx => GenMove_samePos (samePos_trans
                          ⟨rfl, rfl, rfl, rfl, rfl, rfl, rfl, rfl, rfl, rfl⟩ hsp3)
                          (hms x (selStep_snd_mem g0 gs x hx)))
                  · exact SOK_compose hsp3 hsb3
                      (ih.2.2.2 o d3 (selStep g0 gs).2 alpha beta
                        (WF_samePos hsp3 hW)
                        (fun x hx => GenMove_samePos hsp3
                          (hms x (selStep_snd_mem g0 gs x hx))))

theorem unwind0_sound : ∀ (fuel : Nat) (dd u : Data), unwind0 fuel dd = some u →
    takebackN dd.ply dd = some u := by
  intro fuel
  induction fuel with
  | zero =>
    intro dd u h
    rw [unwind0] at h
    by_cases hp : dd.ply = 0
    · rw [if_pos hp] at h
      rw [hp]
      exact h
    · rw [if_neg hp] at h
      exact absurd h (by simp)
  | succ fuel ih =>
    intro dd u h
    rw [unwind0] at h
    by_cases hp : dd.ply = 0
    · rw [if_pos hp] at h
      rw [hp]
      exact h
    · rw [if_neg hp] at h
      rcases Option.bind_eq_some.mp h with ⟨w, hw, hrest⟩
      have hwp : w.ply = dd.ply - 1 := (takeback_fields hw).2.2.1
      have harith : dd.ply = (dd.ply - 1) + 1 := by omega
      rw [harith]
      unfold takebackN
      rw [hw]
      have := ih w u hrest
      rw [hwp] at this
      exact this

theorem thinkIter_restores : ∀ (fuel : Nat) (o : Nat → Bool) (d : Data) (i maxd : Int),
    WF d → d.ply = 0 →
    ∀ d', thinkIter fuel o d i maxd = some d' → SamePos d' d := by
  intro fuel
  induction fuel with
  | zero =>
    intro o d i maxd _ _ d' h
    rw [thinkIter] at h
    exact absurd h (by simp)
  | succ fuel ih =>
    intro o d i maxd hW hply0 d' h
    rw [thinkIter] at h
    by_cases hdone : maxd < i
    · rw [if_pos hdone] at h
      obtain rfl : d = d' := Option.some.inj h
      exact samePos_refl d
    · rw [if_neg hdone] at h
      have hspb : SamePos { d with followPv := true } d :=
        ⟨rfl, rfl, rfl, rfl, rfl, rfl, rfl, rfl, rfl, rfl⟩
      have hS := (all_SOK fuel).1 o { d with followPv := true } (-10000) 10000 i
        (WF_samePos hspb hW)
      split at h
      · exact absurd h (by simp)
      · rename_i d2 heq
        rw [heq] at hS
        obtain ⟨h0, dW, htbN, hspW, _⟩ := hS
        have hdb : ({ d with followPv := true } : Data).ply = 0 := hply0
        rw [hdb, Nat.sub_zero] at htbN
        have hu := unwind0_sound fuel d2 d' h
        rw [htbN] at hu
        obtain rfl : dW = d' := Option.some.inj hu
        exact samePos_trans hspW hspb
      · rename_i x d2 heq
        rw [heq] at hS
        obtain ⟨hsp2, _⟩ := hS
        have hsp2d : SamePos d2 d := samePos_trans hsp2 hspb
        split at h
        · obtain rfl : d2 = d' := Option.some.inj h
          exact hsp2d
        · have hply2 : d2.ply = 0 := by
            rw [hsp2d.2.2.2.2.2.2.2.2.1, hply0]
          exact samePos_trans (ih o d2 (i + 1) maxd (WF_samePos hsp2d hW) hply2 d' h) hsp2d

/-- C3: think never leaks applied moves: from a reachable root position
with ply 0, whatever the opening book answer, the checkup oracle and the
recursion fuel, whenever think returns a state, every position field of
that state - boards, side, xside, castle, en passant, fifty, hash, ply,
hply - equals its value before the call; in particular a timeout detected
at any depth propagates through the searchF and searchLoopF returns and
the unwind loop of think takes back exactly the outstanding moves. -/
theorem c3_think_restores {d : Data} {bkm : Option MoveB} {o : Nat → Bool} {fuel : Nat}
    {d' : Data} (hR : Reachable d) (hply0 : d.ply = 0)
    (h : think bkm o fuel d = some d') :
    SamePos d' d := by
  unfold think at h
  cases bkm with
  | some m =>
    obtain rfl := Option.some.inj h
    exact ⟨rfl, rfl, rfl, rfl, rfl, rfl, rfl, rfl, rfl, rfl⟩
  | none =>
    have hsp1 : SamePos
        { d with
            ply := 0, nodes := 0, pv := fun _ _ => ⟨0, 0, 0, 0⟩,
            history := fun _ _ => 0 } d :=
      ⟨rfl, rfl, rfl, rfl, rfl, rfl, rfl, rfl, hply0.symm, rfl⟩
    exact samePos_trans
      (thinkIter_restores fuel o _ 1 d.maxDepth
        (WF_samePos hsp1 (reachable_WF hR)) rfl d' h) hsp1

theorem c3_witness : SamePos c3d initData :=
  @c3_think_restores initData none (fun _ => false) 5 c3d
    (Reachable.init baseData) rfl rfl

theorem foldl_count (p : Nat → Prop) [DecidablePred p] :
    ∀ (l : List Nat) (n : Nat),
      l.foldl (fun r i => if p i then r + 1 else r) n
        = n + (l.filter (fun i => decide (p i))).length := by
  intro l
  induction l with
  | nil => intro n; simp
  | cons a l ih =>
    intro n
    simp only [List.foldl_cons, List.filter_cons]
    by_cases h : p a
    · rw [if_pos h, ih]
      rw [if_pos (by simp [h])]
      simp only [List.length_cons]
      omega
    · rw [if_neg h, ih]
      rw [if_neg (by simp [h])]

theorem reps_count {d : Data} (hf : d.fifty ≤ d.hply) :
    reps d = some (((List.range' (d.hply - d.fifty) d.fifty).filter
      (fun i => (d.histDat i).hash = d.hash)).length) := by
  unfold reps
  rw [if_pos hf]
  congr 1
  have h := foldl_count (fun i => (d.histDat i).hash = d.hash)
    (List.range' (d.hply - d.fifty) d.fifty) 0
  simpa using h

/-- C5: reps returns exactly the number of history indices in the window
from hply - fifty up to hply whose recorded hash equals the current hash;
and search away from the root returns score 0 at once when that count is
nonzero, before any move generation or deeper search, having touched only
the node counter and the pv length of the current ply. -/
theorem c5_reps_draw (d : Data) (o : Nat → Bool) (fuel : Nat) (alpha beta depth : Int)
    (hf : d.fifty ≤ d.hply)
    (hdep : depth ≠ 0)
    (hchk : ¬((d.nodes + 1) &&& 1023 = 0 ∧ o (d.nodes + 1) = false))
    (hply : d.ply ≠ 0)
    (hcnt : ((List.range' (d.hply - d.fifty) d.fifty).filter
      (fun i => (d.histDat i).hash = d.hash)).length ≠ 0) :
    reps d = some (((List.range' (d.hply - d.fifty) d.fifty).filter
      (fun i => (d.histDat i).hash = d.hash)).length) ∧
    searchF (fuel + 1) o d alpha beta depth =
      some (SR.Value 0,
        { d with nodes := d.nodes + 1, pvLength := updf d.pvLength d.ply d.ply }) := by
  refine ⟨reps_count hf, ?_⟩
  rw [searchF]
  rw [if_neg hdep]
  simp only []
  rw [if_neg hchk]
  have hr2 : reps { d with nodes := d.nodes + 1, pvLength := updf d.pvLength d.ply d.ply } = reps d := rfl
  rw [if_pos hply, hr2, reps_count hf]
  simp only []
  rw [if_pos ⟨hply, hcnt⟩]

theorem c5_witness :
    reps repData = some (((List.range' (repData.hply - repData.fifty) repData.fifty).filter
      (fun i => (repData.histDat i).hash = repData.hash)).length) ∧
    searchF 1 (fun _ => true) repData (-10000) 10000 1 =
      some (SR.Value 0,
        { repData with
            nodes := repData.nodes + 1,
            pvLength := updf repData.pvLength repData.ply repData.ply }) :=
  c5_reps_draw repData (fun _ => true) 0 (-10000) 10000 1 (by decide) (by decide)
    (by decide) (by decide) (by decide)

end TSCP
